import Mathlib

/-!
# cal2: a terminal calendar renderer

A shallow embedding of `src/cal2.cpp` and a verification of its date
arithmetic, month-grid layout, cell colouring and event loading.

Conventions of the embedding:
* a C++ `int` is an `Int`; `/` and `%` of C++ truncate toward zero and are
  `cdiv` and `cmod`; where a year or a month that comes unchecked from the
  command line is incremented or decremented, the 32-bit result is
  `int_wrap` of the exact one;
* a `std::string` is a `Str`, the list of its characters;
* a lookup in a fixed C array is an `Option`, `none` when the index is
  outside the array;
* the global `colors` and `events` are explicit arguments.
-/

namespace Cal2

/-! ## Machine arithmetic and strings -/

/-- C++ integer division: the quotient is truncated toward zero. -/
def cdiv (a b : Int) : Int := Int.tdiv a b

/-- C++ integer remainder: it has the sign of the dividend. -/
def cmod (a b : Int) : Int := Int.tmod a b

/-- The 32-bit `int` that the machine gives for the exact result `x` of an
addition or subtraction: `x` itself when it is between -2147483648 and
2147483647, and otherwise `x` reduced modulo 2^32 into that range (two's
complement wrap-around). -/
def int_wrap (x : Int) : Int := (x + 2147483648) % 4294967296 - 2147483648

/-- A `std::string`, as the list of its characters. -/
abbrev Str := List Char

/-- Read `a[i]` in a fixed C array: `none` when `i` is not an index of it. -/
def array_get {α : Type} (a : List α) (i : Int) : Option α :=
  if 0 ≤ i then a[i.toNat]? else none

/-- The result of `std::to_string` on an `int`. -/
def to_string (n : Int) : Str :=
  if n < 0 then '-' :: Nat.toDigits 10 n.natAbs else Nat.toDigits 10 n.toNat

/-- The function `::tolower` applied to every character
(`std::transform(.., ::tolower)`). -/
def to_lower (s : Str) : Str := s.map Char.toLower

/-- The function `isspace` of the C locale. -/
def isspace (c : Char) : Bool :=
  c = ' ' || c = '\t' || c = '\n' || c = '\x0b' || c = '\x0c' || c = '\r'

/-- The test of `find_first_not_of(" \t")` and `find_last_not_of(" \t")`. -/
def is_blank (c : Char) : Bool := c = ' ' || c = '\t'

/-- Remove leading blanks: `s.erase(0, s.find_first_not_of(" \t"))`. -/
def trim_left (s : Str) : Str := s.dropWhile is_blank

/-- Remove trailing blanks: `s.erase(s.find_last_not_of(" \t") + 1)`. -/
def trim_right (s : Str) : Str := (s.reverse.dropWhile is_blank).reverse

/-- Position of the first `c` in `s` (`s.find(c)`), `none` for `npos`. -/
def str_find (s : Str) (c : Char) : Option Nat :=
  match s with
  | [] => none
  | x :: xs => if x = c then some 0 else (str_find xs c).map (· + 1)

/-- Whether `sub` occurs in `s`: `s.find(sub) != std::string::npos`. -/
def str_contains (s sub : Str) : Bool :=
  s.tails.any (fun t => sub.isPrefixOf t)

/-- The function `std::stoi` in base 10: leading white space is skipped, an
optional sign and at least one digit are read, what follows is ignored. The
result is `none` where `std::stoi` throws: no digit (`invalid_argument`) or a
value that is not an `int` (`out_of_range`). -/
def stoi (s : Str) : Option Int :=
  let s1 := s.dropWhile isspace
  let neg := s1.head? = some '-'
  let s2 := if s1.head? = some '-' ∨ s1.head? = some '+' then s1.drop 1 else s1
  let ds := s2.takeWhile Char.isDigit
  if ds.isEmpty then none
  else
    let v : Int := ((ds.foldl (fun acc c => acc * 10 + (c.toNat - 48)) 0 : Nat) : Int)
    let r : Int := if neg then -v else v
    if r < -2147483648 ∨ r > 2147483647 then none else some r

/-! ## Colours -/

/-- The style constants of the source. -/
def RESET : Str := "\x1b[0m".toList
def RED : Str := "\x1b[31m".toList
def BLUE : Str := "\x1b[34m".toList
def GREEN : Str := "\x1b[32m".toList
def YELLOW : Str := "\x1b[33m".toList
def MAGENTA : Str := "\x1b[35m".toList
def CYAN : Str := "\x1b[36m".toList
def REV : Str := "\x1b[7m".toList
def BLACK : Str := "\x1b[30m".toList
def WHITE : Str := "\x1b[37m".toList
def BRIGHT_RED : Str := "\x1b[91m".toList
def BRIGHT_GREEN : Str := "\x1b[92m".toList
def BRIGHT_YELLOW : Str := "\x1b[93m".toList
def BRIGHT_BLUE : Str := "\x1b[94m".toList
def BRIGHT_MAGENTA : Str := "\x1b[95m".toList
def BRIGHT_CYAN : Str := "\x1b[96m".toList
def BRIGHT_WHITE : Str := "\x1b[97m".toList

/-- The structure `ColorConfig`; the default values are those of the build
that is not for Windows. -/
structure ColorConfig where
  sunday_title : Str := RED
  saturday_title : Str := BLUE
  workday_title : Str := []
  sunday_date : Str := RED
  saturday_date : Str := BLUE
  workday_date : Str := []
  holiday : Str := RED
  birthday : Str := MAGENTA
  reminder : Str := CYAN
  january : Str := CYAN
  february : Str := MAGENTA
  march : Str := GREEN
  april : Str := YELLOW
  may : Str := RED
  june : Str := BLUE
  july : Str := YELLOW
  august : Str := GREEN
  september : Str := MAGENTA
  october : Str := RED
  november : Str := CYAN
  december : Str := BLUE
  deriving DecidableEq

/-- The function `get_color_code` of the source: the lower-cased name is
compared with each name of the table in turn; an unknown name gives the empty
style. -/
def get_color_code (color_name : Str) : Str :=
  let lower_name := to_lower color_name
  if lower_name = "red".toList then RED
  else if lower_name = "blue".toList then BLUE
  else if lower_name = "green".toList then GREEN
  else if lower_name = "yellow".toList then YELLOW
  else if lower_name = "magenta".toList then MAGENTA
  else if lower_name = "cyan".toList then CYAN
  else if lower_name = "black".toList then BLACK
  else if lower_name = "white".toList then WHITE
  else if lower_name = "bright_red".toList then BRIGHT_RED
  else if lower_name = "bright_green".toList then BRIGHT_GREEN
  else if lower_name = "bright_yellow".toList then BRIGHT_YELLOW
  else if lower_name = "bright_blue".toList then BRIGHT_BLUE
  else if lower_name = "bright_magenta".toList then BRIGHT_MAGENTA
  else if lower_name = "bright_cyan".toList then BRIGHT_CYAN
  else if lower_name = "bright_white".toList then BRIGHT_WHITE
  else if lower_name = "orange".toList then "\x1b[38;5;208m".toList
  else if lower_name = "purple".toList then "\x1b[38;5;129m".toList
  else if lower_name = "pink".toList then "\x1b[38;5;205m".toList
  else if lower_name = "brown".toList then "\x1b[38;5;130m".toList
  else if lower_name = "gray".toList ∨ lower_name = "grey".toList then "\x1b[38;5;244m".toList
  else if lower_name = "dark_red".toList then "\x1b[38;5;88m".toList
  else if lower_name = "dark_green".toList then "\x1b[38;5;22m".toList
  else if lower_name = "dark_blue".toList then "\x1b[38;5;18m".toList
  else if lower_name = "light_red".toList then "\x1b[38;5;203m".toList
  else if lower_name = "light_green".toList then "\x1b[38;5;119m".toList
  else if lower_name = "light_blue".toList then "\x1b[38;5;117m".toList
  else if lower_name = "gold".toList then "\x1b[38;5;220m".toList
  else if lower_name = "silver".toList then "\x1b[38;5;250m".toList
  else if lower_name = "lime".toList then "\x1b[38;5;154m".toList
  else if lower_name = "navy".toList then "\x1b[38;5;17m".toList
  else if lower_name = "maroon".toList then "\x1b[38;5;52m".toList
  else if lower_name = "olive".toList then "\x1b[38;5;58m".toList
  else if lower_name = "teal".toList then "\x1b[38;5;30m".toList
  else if lower_name = "aqua".toList then "\x1b[38;5;51m".toList
  else if lower_name = "fuchsia".toList then "\x1b[38;5;201m".toList
  else if lower_name = "dark_gray".toList ∨ lower_name = "dark_grey".toList then "\x1b[38;5;236m".toList
  else if lower_name = "charcoal".toList then "\x1b[38;5;238m".toList
  else if lower_name = "slate".toList then "\x1b[38;5;240m".toList
  else if lower_name = "steel".toList then "\x1b[38;5;67m".toList
  else if lower_name = "indigo".toList then "\x1b[38;5;54m".toList
  else if lower_name = "violet".toList then "\x1b[38;5;93m".toList
  else if lower_name = "crimson".toList then "\x1b[38;5;160m".toList
  else if lower_name = "forest".toList then "\x1b[38;5;28m".toList
  else if lower_name = "emerald".toList then "\x1b[38;5;34m".toList
  else if lower_name = "sapphire".toList then "\x1b[38;5;19m".toList
  else if lower_name = "amber".toList then "\x1b[38;5;214m".toList
  else if lower_name = "coral".toList then "\x1b[38;5;209m".toList
  else if lower_name = "rust".toList then "\x1b[38;5;166m".toList
  else if lower_name = "bronze".toList then "\x1b[38;5;136m".toList
  else if lower_name = "copper".toList then "\x1b[38;5;173m".toList
  else if lower_name = "chocolate".toList then "\x1b[38;5;94m".toList
  else if lower_name = "coffee".toList then "\x1b[38;5;52m".toList
  else if lower_name = "wine".toList then "\x1b[38;5;89m".toList
  else if lower_name = "plum".toList then "\x1b[38;5;96m".toList
  else if lower_name = "midnight".toList then "\x1b[38;5;17m".toList
  else if lower_name = "deep_blue".toList then "\x1b[38;5;20m".toList
  else if lower_name = "deep_green".toList then "\x1b[38;5;22m".toList
  else if lower_name = "deep_red".toList then "\x1b[38;5;88m".toList
  else if lower_name = "deep_purple".toList then "\x1b[38;5;55m".toList
  else if lower_name = "deep_orange".toList then "\x1b[38;5;130m".toList
  else if lower_name = "royal_blue".toList then "\x1b[38;5;21m".toList
  else if lower_name = "royal_purple".toList then "\x1b[38;5;57m".toList
  else if lower_name = "sea_green".toList then "\x1b[38;5;29m".toList
  else if lower_name = "sky_blue".toList then "\x1b[38;5;75m".toList
  else if lower_name = "rose".toList then "\x1b[38;5;168m".toList
  else if lower_name = "salmon".toList then "\x1b[38;5;174m".toList
  else if lower_name = "peach".toList then "\x1b[38;5;216m".toList
  else if lower_name = "mint".toList then "\x1b[38;5;121m".toList
  else if lower_name = "lavender".toList then "\x1b[38;5;183m".toList
  else if lower_name = "turquoise".toList then "\x1b[38;5;80m".toList
  else if lower_name = "none".toList ∨ lower_name = "default".toList ∨ lower_name = "".toList then []
  else []

/-! ## Date arithmetic (`weekday`, `days_in_month`) -/

/-- The function `weekday` of the source: Zeller's congruence, then the
rotation to 0 = Sunday, or to 0 = Monday when `monday_first`. -/
def weekday (y m d : Int) (monday_first : Bool) : Int :=
  let m1 := if m ≤ 2 then m + 12 else m
  let y1 := if m ≤ 2 then y - 1 else y
  let K := cmod y1 100
  let J := cdiv y1 100
  let h := cmod (d + cdiv (13 * (m1 + 1)) 5 + K + cdiv K 4 + cdiv J 4 + 5 * J) 7
  let result := cmod (h + 6) 7
  if monday_first then cmod (result + 6) 7 else result

/-- The static table `md` of `days_in_month`. -/
def days_in_month.md : List Int := [0, 31, 28, 31, 30, 31, 30, 31, 31, 30, 31, 30, 31]

/-- The function `days_in_month` of the source. The lookup `md[m]` is `none`
when `m` is not an index of the 13-entry table. -/
def days_in_month (y m : Int) : Option Int :=
  if m = 2 ∧ (cmod y 4 = 0 ∧ (cmod y 100 ≠ 0 ∨ cmod y 400 = 0)) then some 29
  else if 0 ≤ m then days_in_month.md[m.toNat]? else none

/-! ## Events -/

/-- The enumeration `EventType`. -/
inductive EventType where
  | HOLIDAY
  | BIRTHDAY
  | REMINDER
  deriving DecidableEq, Repr

/-- The structure `Event`. -/
structure Event where
  month : Int
  day : Int
  description : Str
  type : EventType
  deriving DecidableEq

/-- The global `events`, a `std::map` from a key string to the vector of the
events stored under it: a list of (key, vector) pairs with distinct keys. The
order of the pairs is not observable through `find`, `operator[]` and
`empty`, the only operations the program uses. -/
abbrev EventMap := List (Str × List Event)

/-- The lookup `events.find(key)`: `none` stands for `events.end()`. -/
def events_find (events : EventMap) (key : Str) : Option (List Event) :=
  match events with
  | [] => none
  | (k, v) :: rest => if k = key then some v else events_find rest key

/-- The update `events[key].push_back(event)`: the event is appended to the
vector stored under `key`, which is first created empty when the key is
absent. -/
def events_push_back (events : EventMap) (key : Str) (event : Event) : EventMap :=
  match events with
  | [] => [(key, [event])]
  | (k, v) :: rest =>
    if k = key then (k, v ++ [event]) :: rest
    else (k, v) :: events_push_back rest key event

/-- The key of a day: `std::to_string(month) + "-" + std::to_string(day)`. -/
def event_key (month day : Int) : Str :=
  to_string month ++ "-".toList ++ to_string day

/-- The function `get_event_color` of the source. -/
def get_event_color (colors : ColorConfig) (event : Event) : Str :=
  match event.type with
  | EventType.HOLIDAY => colors.holiday
  | EventType.BIRTHDAY => colors.birthday
  | EventType.REMINDER => colors.reminder

/-- The function `has_events` of the source. -/
def has_events (events : EventMap) (month day : Int) : Bool :=
  let key := event_key month day
  (events_find events key).isSome

/-- The function `get_events` of the source. -/
def get_events (events : EventMap) (month day : Int) : List Event :=
  let key := event_key month day
  match events_find events key with
  | some v => v
  | none => []

/-- The function `get_month_color` of the source. -/
def get_month_color (colors : ColorConfig) (month : Int) : Str :=
  if month = 1 then colors.january
  else if month = 2 then colors.february
  else if month = 3 then colors.march
  else if month = 4 then colors.april
  else if month = 5 then colors.may
  else if month = 6 then colors.june
  else if month = 7 then colors.july
  else if month = 8 then colors.august
  else if month = 9 then colors.september
  else if month = 10 then colors.october
  else if month = 11 then colors.november
  else if month = 12 then colors.december
  else []

/-! ## The month grid (`get_month_data`) -/

/-- The structure `MonthData`. -/
structure MonthData where
  header : Str
  weeks : List Str
  year : Int
  month : Int
  deriving DecidableEq

/-- The static table `names` of `get_month_data`. -/
def get_month_data.names : List Str :=
  ["Jan".toList, "Feb".toList, "Mar".toList, "Apr".toList, "May".toList, "Jun".toList,
   "Jul".toList, "Aug".toList, "Sep".toList, "Oct".toList, "Nov".toList, "Dec".toList]

/-- The body of the inner loop of `get_month_data`: the text appended to
`week_str` for column `wday` of row `week`. -/
def get_month_data.cell (colors : ColorConfig) (events : EventMap)
    (y m today_y today_m today_d : Int) (monday_first : Bool)
    (start dim week wday : Int) : Str :=
  let day_num := week * 7 + wday - start + 1
  if day_num < 1 ∨ day_num > dim then
    "  ".toList ++ (if wday < 6 then " ".toList else [])
  else
    let is_today := y = today_y ∧ m = today_m ∧ day_num = today_d
    let has_event := has_events events m day_num
    let day_str : Str := []
    let day_str :=
      if is_today then day_str ++ REV
      else if has_event then
        let day_events := get_events events m day_num
        match day_events with
        | event0 :: _ => day_str ++ get_event_color colors event0
        | [] => day_str
      else if (monday_first ∧ wday = 6) ∨ (¬ monday_first ∧ wday = 0) then
        day_str ++ colors.sunday_date
      else if (monday_first ∧ wday = 5) ∨ (¬ monday_first ∧ wday = 6) then
        day_str ++ colors.saturday_date
      else day_str ++ colors.workday_date
    let day_str :=
      if day_num < 10 then day_str ++ (" ".toList ++ to_string day_num)
      else day_str ++ to_string day_num
    let day_str := day_str ++ RESET
    day_str ++ (if wday < 6 then " ".toList else [])

/-- The body of the outer loop of `get_month_data`: the row `week_str` of
week `week`, built by the inner loop over the columns 0..6. -/
def get_month_data.week_str (colors : ColorConfig) (events : EventMap)
    (y m today_y today_m today_d : Int) (monday_first : Bool)
    (start dim week : Int) : Str :=
  (List.range 7).foldl
    (fun (week_str : Str) (wday : Nat) => week_str ++
      get_month_data.cell colors events y m today_y today_m today_d monday_first
        start dim week (wday : Int))
    []

/-- The function `get_month_data` of the source. The result is `none` when a
table is read outside its bounds (`names[m - 1]`, `md[m]`). -/
def get_month_data (colors : ColorConfig) (events : EventMap)
    (y m today_y today_m today_d : Int) (monday_first : Bool) : Option MonthData :=
  let year_str := to_string y
  let month_color := get_month_color colors m
  match array_get get_month_data.names (m - 1) with
  | none => none
  | some name =>
    let month_name := name ++ " ".toList ++ year_str
    let header_len : Int := (month_name.length : Int)
    let month_name := if header_len > 20 then month_name.take 20 else month_name
    let header_len := if header_len > 20 then 20 else header_len
    let padding := cdiv (20 - header_len) 2
    let header := List.replicate padding.toNat ' ' ++ month_color ++ month_name ++ RESET ++
      List.replicate (20 - header_len - padding).toNat ' '
    let start := weekday y m 1 monday_first
    match days_in_month y m with
    | none => none
    | some dim =>
      let total_weeks := cdiv (start + dim - 1) 7 + 1
      let weeks := (List.range total_weeks.toNat).map
        (fun (week : Nat) => get_month_data.week_str colors events y m today_y today_m today_d
          monday_first start dim (week : Int))
      some { header := header, weeks := weeks, year := y, month := m }

/-! ## The single-month listing (`print_month_vertical`) -/

/-- The static table `names` of `print_month_vertical`. -/
def print_month_vertical.names : List Str :=
  ["January".toList, "February".toList, "March".toList, "April".toList, "May".toList,
   "June".toList, "July".toList, "August".toList, "September".toList, "October".toList,
   "November".toList, "December".toList]

/-- The body of the day loop of `print_month_vertical`: the text written
to the output for day `d`. -/
def print_month_vertical.day (colors : ColorConfig) (events : EventMap)
    (y m today_y today_m today_d : Int) (monday_first : Bool) (d : Int) : Str :=
  let wday := weekday y m d monday_first
  let is_today := y = today_y ∧ m = today_m ∧ d = today_d
  let has_event := has_events events m d
  let out : Str :=
    if is_today then REV
    else if has_event then
      let day_events := get_events events m d
      match day_events with
      | event0 :: _ => get_event_color colors event0
      | [] => []
    else if (monday_first ∧ wday = 6) ∨ (¬ monday_first ∧ wday = 0) then colors.sunday_date
    else if (monday_first ∧ wday = 5) ∨ (¬ monday_first ∧ wday = 6) then colors.saturday_date
    else colors.workday_date
  let out :=
    if d < 10 then out ++ " ".toList ++ to_string d ++ RESET ++ " ".toList
    else out ++ to_string d ++ RESET ++ " ".toList
  if wday = 6 then out ++ "\n".toList else out

/-- The function `print_month_vertical` of the source; the result is the text
written to the standard output, `none` when a table is read outside its
bounds (`names[m - 1]`, `md[m]`). -/
def print_month_vertical (colors : ColorConfig) (events : EventMap)
    (y m today_y today_m today_d : Int) (monday_first : Bool) : Option Str :=
  let month_color := get_month_color colors m
  match array_get print_month_vertical.names (m - 1) with
  | none => none
  | some name =>
    let out : Str :=
      if monday_first then
        "     ".toList ++ month_color ++ name ++ " ".toList ++ to_string y ++ RESET ++ "\n".toList
          ++ colors.workday_title ++ "Mo Tu We Th Fr ".toList ++ RESET
          ++ colors.saturday_title ++ "Sa ".toList ++ RESET
          ++ colors.sunday_title ++ "Su".toList ++ RESET ++ "\n".toList
      else
        "     ".toList ++ month_color ++ name ++ " ".toList ++ to_string y ++ RESET ++ "\n".toList
          ++ colors.sunday_title ++ "Su ".toList ++ RESET
          ++ colors.workday_title ++ "Mo Tu We Th Fr ".toList ++ RESET
          ++ colors.saturday_title ++ "Sa".toList ++ RESET ++ "\n".toList
    let start := weekday y m 1 monday_first
    match days_in_month y m with
    | none => none
    | some dim =>
      let out := (List.range start.toNat).foldl (fun (out : Str) (_ : Nat) => out ++ "   ".toList) out
      let out := (List.range dim.toNat).foldl
        (fun (out : Str) (i : Nat) => out ++
          print_month_vertical.day colors events y m today_y today_m today_d monday_first
            ((i : Int) + 1))
        out
      some (out ++ "\n".toList)

/-! ## Months side by side (`print_month_horizontal`) and the views -/

/-- The maximum number of weeks found by the first loop over `months` in
`print_month_horizontal`. -/
def print_month_horizontal.max_weeks (months : List MonthData) : Nat :=
  months.foldl (fun (max_weeks : Nat) (month : MonthData) => max max_weeks month.weeks.length) 0

/-- The text that month `i` contributes to the line of week `week` in
`print_month_horizontal`: its week row, or 20 spaces when it has no such
week, and a space unless it is the last month. -/
def print_month_horizontal.week_piece (months : List MonthData) (week i : Nat)
    (month : MonthData) : Str :=
  (if week < month.weeks.length then month.weeks.getD week []
   else "                    ".toList) ++
  (if i < months.length - 1 then " ".toList else [])

/-- The body of the loop over `week` in `print_month_horizontal`: one line of
the output, with its line break. -/
def print_month_horizontal.week_line (months : List MonthData) (week : Nat) : Str :=
  months.enum.foldl
    (fun (out : Str) (im : Nat × MonthData) =>
      out ++ print_month_horizontal.week_piece months week im.1 im.2)
    [] ++ "\n".toList

/-- The function `print_month_horizontal` of the source; the result is the
text written to the standard output. -/
def print_month_horizontal (colors : ColorConfig) (months : List MonthData)
    (monday_first : Bool) : Str :=
  if months.isEmpty then []
  else
    let out : Str := months.enum.foldl
      (fun (out : Str) (im : Nat × MonthData) =>
        out ++ im.2.header ++ (if im.1 < months.length - 1 then " ".toList else []))
      []
    let out := out ++ "\n".toList
    let out := months.enum.foldl
      (fun (out : Str) (im : Nat × MonthData) =>
        (if monday_first then
          out ++ colors.workday_title ++ "Mo Tu We Th Fr ".toList ++ RESET
            ++ colors.saturday_title ++ "Sa".toList ++ RESET ++ " ".toList
            ++ colors.sunday_title ++ "Su".toList ++ RESET
         else
          out ++ colors.sunday_title ++ "Su".toList ++ RESET ++ " ".toList
            ++ colors.workday_title ++ "Mo Tu We Th Fr ".toList ++ RESET
            ++ colors.saturday_title ++ "Sa".toList ++ RESET)
        ++ (if im.1 < months.length - 1 then " ".toList else []))
      out
    let out := out ++ "\n".toList
    let max_weeks := print_month_horizontal.max_weeks months
    (List.range max_weeks).foldl
      (fun (out : Str) (week : Nat) => out ++ print_month_horizontal.week_line months week)
      out

/-- The body of the loop over `row` in `print_year`: the three months of the
row side by side and an empty line; `none` when a table is read outside its
bounds. -/
def print_year.row (colors : ColorConfig) (events : EventMap)
    (year today_y today_m today_d : Int) (monday_first : Bool) (row : Nat) : Option Str :=
  match (((List.range 3).map (fun (col : Nat) => ((row : Int) * 3 + (col : Int) + 1))).filter
      (fun (month : Int) => month ≤ 12)).mapM
      (fun (month : Int) =>
        get_month_data colors events year month today_y today_m today_d monday_first) with
  | none => none
  | some months =>
    if ¬ months.isEmpty then
      some (print_month_horizontal colors months monday_first ++ "\n".toList)
    else some []

/-- The function `print_year` of the source; the result is the text written
to the standard output. -/
def print_year (colors : ColorConfig) (events : EventMap)
    (year today_y today_m today_d : Int) (monday_first : Bool) : Option Str :=
  let year_str := to_string year
  let padding := (80 - year_str.length) / 2
  let out : Str := List.replicate padding ' ' ++ to_string year ++ "\n\n".toList
  match (List.range 4).mapM
      (print_year.row colors events year today_y today_m today_d monday_first) with
  | none => none
  | some rows => some (out ++ rows.flatten)

/-- The month shown at row `row`, column `col` of `print_twelve_months`: the
pair (`current_year`, `adjusted_month`) of the inner loop, computed on
32-bit `int`. -/
def print_twelve_months.month_at (start_year start_month : Int) (row col : Nat) : Int × Int :=
  let month_offset : Int := (row : Int) * 3 + (col : Int)
  let current_month := int_wrap (start_month + month_offset)
  let current_year := int_wrap (start_year + cdiv (int_wrap (current_month - 1)) 12)
  let adjusted_month := cmod (int_wrap (current_month - 1)) 12 + 1
  (current_year, adjusted_month)

/-- The body of the loop over `row` in `print_twelve_months`: the three
months of the row side by side and an empty line; `none` when a table is
read outside its bounds. -/
def print_twelve_months.row (colors : ColorConfig) (events : EventMap)
    (start_year start_month today_y today_m today_d : Int) (monday_first : Bool)
    (row : Nat) : Option Str :=
  match (List.range 3).mapM
      (fun (col : Nat) =>
        get_month_data colors events
          (print_twelve_months.month_at start_year start_month row col).1
          (print_twelve_months.month_at start_year start_month row col).2
          today_y today_m today_d monday_first) with
  | none => none
  | some months =>
    if ¬ months.isEmpty then
      some (print_month_horizontal colors months monday_first ++ "\n".toList)
    else some []

/-- The function `print_twelve_months` of the source; the result is the text
written to the standard output. -/
def print_twelve_months (colors : ColorConfig) (events : EventMap)
    (start_year start_month today_y today_m today_d : Int) (monday_first : Bool) :
    Option Str :=
  let year_str := to_string start_year
  let padding := (80 - year_str.length) / 2
  let out : Str := List.replicate padding ' ' ++ to_string start_year ++ "\n\n".toList
  match (List.range 4).mapM
      (print_twelve_months.row colors events start_year start_month today_y today_m today_d
        monday_first) with
  | none => none
  | some rows => some (out ++ rows.flatten)

/-- The function `print_events_legend` of the source (the build that is not
for Windows). -/
def print_events_legend (colors : ColorConfig) : Str :=
  "\nLegend:\n".toList
    ++ colors.holiday ++ "●".toList ++ RESET ++ " Holiday  ".toList
    ++ colors.birthday ++ "●".toList ++ RESET ++ " Birthday  ".toList
    ++ colors.reminder ++ "●".toList ++ RESET ++ " Reminder\n".toList

/-- The three-month branch of `main`: the months before and after month `m`
of year `y`, computed on 32-bit `int`, and the three grids side by side. -/
def main.three_months (colors : ColorConfig) (events : EventMap) (y m d : Int)
    (monday_first : Bool) : Option Str :=
  let pm := if m = 1 then 12 else int_wrap (m - 1)
  let py := if m = 1 then int_wrap (y - 1) else y
  let nm := if m = 12 then 1 else int_wrap (m + 1)
  let ny := if m = 12 then int_wrap (y + 1) else y
  match get_month_data colors events py pm y m d monday_first with
  | none => none
  | some month1 =>
    match get_month_data colors events y m y m d monday_first with
    | none => none
    | some month2 =>
      match get_month_data colors events ny nm y m d monday_first with
      | none => none
      | some month3 =>
        some (print_month_horizontal colors [month1, month2, month3] monday_first)

/-- The rendering part of `main`, after the arguments are read and the
configuration is loaded: the view chosen by the flags, then the legend when
there are events. -/
def main.render (colors : ColorConfig) (events : EventMap) (y m d : Int)
    (show3 show_year show_twelve monday_first : Bool) : Option Str :=
  let view :=
    if show_twelve then print_twelve_months colors events y m y m d monday_first
    else if show_year then print_year colors events y y m d monday_first
    else if show3 then main.three_months colors events y m d monday_first
    else print_month_vertical colors events y m y m d monday_first
  match view with
  | none => none
  | some out => if ¬ events.isEmpty then some (out ++ print_events_legend colors) else some out

/-! ## Loading the configuration (`parse_date`, `load_events`) -/

/-- The function `parse_date` of the source; the result is the pair
(`month`, `day`) of its two output parameters. A conversion that throws
leaves the parameters not yet assigned at 0. -/
def parse_date (date_str : Str) : Int × Int :=
  match str_find date_str '/' with
  | some pos =>
    match stoi (date_str.take pos) with
    | none => (0, 0)
    | some month =>
      match stoi (date_str.drop (pos + 1)) with
      | none => (month, 0)
      | some day => (month, day)
  | none =>
    match str_find date_str '-' with
    | some pos =>
      match stoi (date_str.take pos) with
      | none => (0, 0)
      | some month =>
        match stoi (date_str.drop (pos + 1)) with
        | none => (month, 0)
        | some day => (month, day)
    | none => (0, 0)

/-- The variables that the reading loop of `load_events` updates: the globals
`colors` and `events` and the locals `current_section` and `events_loaded`. -/
structure LoadState where
  colors : ColorConfig
  events : EventMap
  current_section : Str
  events_loaded : Int
  deriving DecidableEq

/-- The assignment chain of the `[colors]` section in `load_events`. -/
def load_events.set_color (colors : ColorConfig) (key value : Str) : ColorConfig :=
  if key = "sunday_title".toList then { colors with sunday_title := get_color_code value }
  else if key = "saturday_title".toList then
    { colors with saturday_title := get_color_code value }
  else if key = "workday_title".toList then { colors with workday_title := get_color_code value }
  else if key = "sunday_date".toList then { colors with sunday_date := get_color_code value }
  else if key = "saturday_date".toList then { colors with saturday_date := get_color_code value }
  else if key = "workday_date".toList then { colors with workday_date := get_color_code value }
  else if key = "holiday".toList then { colors with holiday := get_color_code value }
  else if key = "birthday".toList then { colors with birthday := get_color_code value }
  else if key = "reminder".toList then { colors with reminder := get_color_code value }
  else if key = "january".toList ∨ key = "jan".toList ∨ key = "1".toList then
    { colors with january := get_color_code value }
  else if key = "february".toList ∨ key = "feb".toList ∨ key = "2".toList then
    { colors with february := get_color_code value }
  else if key = "march".toList ∨ key = "mar".toList ∨ key = "3".toList then
    { colors with march := get_color_code value }
  else if key = "april".toList ∨ key = "apr".toList ∨ key = "4".toList then
    { colors with april := get_color_code value }
  else if key = "may".toList ∨ key = "5".toList then
    { colors with may := get_color_code value }
  else if key = "june".toList ∨ key = "jun".toList ∨ key = "6".toList then
    { colors with june := get_color_code value }
  else if key = "july".toList ∨ key = "jul".toList ∨ key = "7".toList then
    { colors with july := get_color_code value }
  else if key = "august".toList ∨ key = "aug".toList ∨ key = "8".toList then
    { colors with august := get_color_code value }
  else if key = "september".toList ∨ key = "sep".toList ∨ key = "9".toList then
    { colors with september := get_color_code value }
  else if key = "october".toList ∨ key = "oct".toList ∨ key = "10".toList then
    { colors with october := get_color_code value }
  else if key = "november".toList ∨ key = "nov".toList ∨ key = "11".toList then
    { colors with november := get_color_code value }
  else if key = "december".toList ∨ key = "dec".toList ∨ key = "12".toList then
    { colors with december := get_color_code value }
  else colors

/-- The `[colors]` branch of the loop body of `load_events`, on the trimmed
line. -/
def load_events.color_line (st : LoadState) (line : Str) : LoadState :=
  match str_find line '=' with
  | some eq_pos =>
    let key := line.take eq_pos
    let value := line.drop (eq_pos + 1)
    let key := trim_right (trim_left key)
    let value := trim_right (trim_left value)
    let key := to_lower key
    { st with colors := load_events.set_color st.colors key value }
  | none => st

/-- The category given to an event in `load_events`, from the current section
or else from the description. -/
def load_events.event_type (current_section description : Str) : EventType :=
  if current_section = "holidays".toList ∨ current_section = "holiday".toList then
    EventType.HOLIDAY
  else if current_section = "birthdays".toList ∨ current_section = "birthday".toList then
    EventType.BIRTHDAY
  else if current_section = "reminders".toList ∨ current_section = "reminder".toList then
    EventType.REMINDER
  else
    if str_contains description "birthday".toList ∨
        str_contains description "Birthday".toList ∨
        str_contains description "BIRTHDAY".toList then
      EventType.BIRTHDAY
    else if str_contains description "holiday".toList ∨
        str_contains description "Holiday".toList ∨
        str_contains description "HOLIDAY".toList then
      EventType.HOLIDAY
    else EventType.REMINDER

/-- The extraction `iss >> date_str`: leading white space is skipped and the
characters up to the next white space are read. -/
def load_events.date_token (line : Str) : Str :=
  (line.dropWhile isspace).takeWhile (fun c => !isspace c)

/-- The rest of the line after the date token, read by
`std::getline(iss, description)`, without the one leading space that the
source removes. -/
def load_events.description (line : Str) : Str :=
  let rest := (line.dropWhile isspace).dropWhile (fun c => !isspace c)
  let description := rest.takeWhile (fun c => c ≠ '\n')
  if description.head? = some ' ' then description.drop 1 else description

/-- The event branch of the loop body of `load_events`, on the trimmed line
(default section or any section other than `[colors]`). -/
def load_events.event_line (st : LoadState) (line : Str) : LoadState :=
  let date_str := load_events.date_token line
  if date_str.isEmpty then st
  else
    let description := load_events.description line
    let (month, day) := parse_date date_str
    if month ≥ 1 ∧ month ≤ 12 ∧ day ≥ 1 ∧ day ≤ 31 then
      let event : Event :=
        { month := month, day := day, description := description,
          type := load_events.event_type st.current_section description }
      let key := to_string month ++ "-".toList ++ to_string day
      { st with events := events_push_back st.events key event,
                events_loaded := st.events_loaded + 1 }
    else st

/-- The body of the reading loop of `load_events`: the effect of one line of
the configuration file. -/
def load_events.step (st : LoadState) (line : Str) : LoadState :=
  if line.isEmpty ∨ line.head? = some '#' ∨ line.head? = some ';' then st
  else
    let line := trim_left line
    let line := trim_right line
    if line.head? = some '[' ∧ line.getLast? = some ']' then
      let current_section := (line.drop 1).take (line.length - 2)
      { st with current_section := to_lower current_section }
    else if st.current_section = "colors".toList then
      load_events.color_line st line
    else
      load_events.event_line st line

/-- The reading loop of `load_events` over the lines of the configuration
file, from the default colours, no event and the unnamed section. -/
def load_events (lines : List Str) : LoadState :=
  lines.foldl load_events.step
    { colors := {}, events := [], current_section := [], events_loaded := 0 }

/-! ## Reference calendar: counting days from 0001-01-01 -/

/-- Gregorian leap years. -/
def refIsLeap (y : Nat) : Bool :=
  decide (y % 4 = 0 ∧ (y % 100 ≠ 0 ∨ y % 400 = 0))

/-- Number of days of year `y`. -/
def refYearLength (y : Nat) : Nat := if refIsLeap y then 366 else 365

/-- Number of days of month `m` of year `y` in the Gregorian calendar. -/
def refMonthLength (y m : Nat) : Nat :=
  match m with
  | 1 => 31
  | 2 => if refIsLeap y then 29 else 28
  | 3 => 31
  | 4 => 30
  | 5 => 31
  | 6 => 30
  | 7 => 31
  | 8 => 31
  | 9 => 30
  | 10 => 31
  | 11 => 30
  | 12 => 31
  | _ => 0

/-- Days in the years `1 .. y - 1`, counted year by year. -/
def refDaysBeforeYear : Nat → Nat
  | 0 => 0
  | 1 => 0
  | y + 2 => refDaysBeforeYear (y + 1) + refYearLength (y + 1)

/-- Days in the months `1 .. m - 1` of year `y`, counted month by month. -/
def refDaysBeforeMonth (y : Nat) : Nat → Nat
  | 0 => 0
  | 1 => 0
  | m + 2 => refDaysBeforeMonth y (m + 1) + refMonthLength y (m + 1)

/-- Ordinal of a date in the proleptic Gregorian calendar: 0001-01-01 is
day 1. -/
def refDayNumber (y m d : Nat) : Nat :=
  refDaysBeforeYear y + refDaysBeforeMonth y m + d

/-- Day of the week by day count, 0 = Sunday, ..., 6 = Saturday. Day 1
(0001-01-01) is a Monday. -/
def refDayOfWeek (y m d : Nat) : Nat := refDayNumber y m d % 7

/-! ## Display columns and styles -/

/-- Whether the terminal is inside a style sequence after reading a text: a
sequence starts at the escape character and ends at the first `m`. -/
def escape_state (in_escape : Bool) : Str → Bool
  | [] => in_escape
  | c :: cs =>
    if in_escape then escape_state (c != 'm') cs
    else escape_state (c == '\x1b') cs

/-- Number of display columns of a text read from a given state: the
characters outside style sequences. -/
def display_width_from (in_escape : Bool) : Str → Nat
  | [] => 0
  | c :: cs =>
    if in_escape then display_width_from (c != 'm') cs
    else if c = '\x1b' then display_width_from true cs
    else display_width_from false cs + 1

/-- Display width of a text: its length when style sequences are not
counted. -/
def display_width (s : Str) : Nat := display_width_from false s

/-- A style: no colour (the empty text) or one sequence `ESC [ parameters m`
whose parameters are digits and semicolons. -/
def is_style (s : Str) : Bool :=
  match s with
  | [] => true
  | c1 :: c2 :: rest =>
    c1 == '\x1b' && c2 == '[' && rest.getLast? == some 'm' &&
      rest.dropLast.all (fun c => c.isDigit || c == ';')
  | _ => false

/-- Every colour of the assignment is a style. -/
def colors_are_styles (colors : ColorConfig) : Bool :=
  is_style colors.sunday_title && is_style colors.saturday_title &&
  is_style colors.workday_title && is_style colors.sunday_date &&
  is_style colors.saturday_date && is_style colors.workday_date &&
  is_style colors.holiday && is_style colors.birthday && is_style colors.reminder &&
  is_style colors.january && is_style colors.february && is_style colors.march &&
  is_style colors.april && is_style colors.may && is_style colors.june &&
  is_style colors.july && is_style colors.august && is_style colors.september &&
  is_style colors.october && is_style colors.november && is_style colors.december

/-- A text that leaves the terminal outside style sequences and takes `n`
display columns. -/
def balanced (n : Nat) (s : Str) : Prop :=
  escape_state false s = false ∧ display_width_from false s = n

/-! ## Accepted event lines -/

/-- The event that a line contributes when it is read in state `st`, if it
is an accepted event line: the line is not skipped, is not a section header,
is read outside the `[colors]` section, and its date token gives a month in
1..12 and a day in 1..31. -/
def accepted_event (st : LoadState) (line : Str) : Option Event :=
  if line.isEmpty ∨ line.head? = some '#' ∨ line.head? = some ';' then none
  else if (trim_right (trim_left line)).head? = some '[' ∧
      (trim_right (trim_left line)).getLast? = some ']' then none
  else if st.current_section = "colors".toList then none
  else if (parse_date (load_events.date_token (trim_right (trim_left line)))).1 ≥ 1 ∧
      (parse_date (load_events.date_token (trim_right (trim_left line)))).1 ≤ 12 ∧
      (parse_date (load_events.date_token (trim_right (trim_left line)))).2 ≥ 1 ∧
      (parse_date (load_events.date_token (trim_right (trim_left line)))).2 ≤ 31 then
    some
      { month := (parse_date (load_events.date_token (trim_right (trim_left line)))).1,
        day := (parse_date (load_events.date_token (trim_right (trim_left line)))).2,
        description := load_events.description (trim_right (trim_left line)),
        type := load_events.event_type st.current_section
          (load_events.description (trim_right (trim_left line))) }
  else none

/-- The events of the accepted lines of a sequence of lines read from state
`st`, in reading order. -/
def accepted_events (st : LoadState) : List Str → List Event
  | [] => []
  | line :: rest =>
    (accepted_event st line).toList ++ accepted_events (load_events.step st line) rest

/-! ## The colour table (specification side) -/

/-- The fixed colour table: the names that `get_color_code` knows, each with
its style. -/
def color_table : List (Str × Str) :=
  [("red".toList, RED), ("blue".toList, BLUE), ("green".toList, GREEN),
   ("yellow".toList, YELLOW), ("magenta".toList, MAGENTA), ("cyan".toList, CYAN),
   ("black".toList, BLACK), ("white".toList, WHITE), ("bright_red".toList, BRIGHT_RED),
   ("bright_green".toList, BRIGHT_GREEN), ("bright_yellow".toList, BRIGHT_YELLOW),
   ("bright_blue".toList, BRIGHT_BLUE), ("bright_magenta".toList, BRIGHT_MAGENTA),
   ("bright_cyan".toList, BRIGHT_CYAN), ("bright_white".toList, BRIGHT_WHITE),
   ("orange".toList, "\x1b[38;5;208m".toList), ("purple".toList, "\x1b[38;5;129m".toList),
   ("pink".toList, "\x1b[38;5;205m".toList), ("brown".toList, "\x1b[38;5;130m".toList),
   ("gray".toList, "\x1b[38;5;244m".toList), ("grey".toList, "\x1b[38;5;244m".toList),
   ("dark_red".toList, "\x1b[38;5;88m".toList),
   ("dark_green".toList, "\x1b[38;5;22m".toList),
   ("dark_blue".toList, "\x1b[38;5;18m".toList),
   ("light_red".toList, "\x1b[38;5;203m".toList),
   ("light_green".toList, "\x1b[38;5;119m".toList),
   ("light_blue".toList, "\x1b[38;5;117m".toList),
   ("gold".toList, "\x1b[38;5;220m".toList), ("silver".toList, "\x1b[38;5;250m".toList),
   ("lime".toList, "\x1b[38;5;154m".toList), ("navy".toList, "\x1b[38;5;17m".toList),
   ("maroon".toList, "\x1b[38;5;52m".toList), ("olive".toList, "\x1b[38;5;58m".toList),
   ("teal".toList, "\x1b[38;5;30m".toList), ("aqua".toList, "\x1b[38;5;51m".toList),
   ("fuchsia".toList, "\x1b[38;5;201m".toList),
   ("dark_gray".toList, "\x1b[38;5;236m".toList),
   ("dark_grey".toList, "\x1b[38;5;236m".toList),
   ("charcoal".toList, "\x1b[38;5;238m".toList),
   ("slate".toList, "\x1b[38;5;240m".toList), ("steel".toList, "\x1b[38;5;67m".toList),
   ("indigo".toList, "\x1b[38;5;54m".toList), ("violet".toList, "\x1b[38;5;93m".toList),
   ("crimson".toList, "\x1b[38;5;160m".toList), ("forest".toList, "\x1b[38;5;28m".toList),
   ("emerald".toList, "\x1b[38;5;34m".toList),
   ("sapphire".toList, "\x1b[38;5;19m".toList), ("amber".toList, "\x1b[38;5;214m".toList),
   ("coral".toList, "\x1b[38;5;209m".toList), ("rust".toList, "\x1b[38;5;166m".toList),
   ("bronze".toList, "\x1b[38;5;136m".toList), ("copper".toList, "\x1b[38;5;173m".toList),
   ("chocolate".toList, "\x1b[38;5;94m".toList),
   ("coffee".toList, "\x1b[38;5;52m".toList), ("wine".toList, "\x1b[38;5;89m".toList),
   ("plum".toList, "\x1b[38;5;96m".toList), ("midnight".toList, "\x1b[38;5;17m".toList),
   ("deep_blue".toList, "\x1b[38;5;20m".toList),
   ("deep_green".toList, "\x1b[38;5;22m".toList),
   ("deep_red".toList, "\x1b[38;5;88m".toList),
   ("deep_purple".toList, "\x1b[38;5;55m".toList),
   ("deep_orange".toList, "\x1b[38;5;130m".toList),
   ("royal_blue".toList, "\x1b[38;5;21m".toList),
   ("royal_purple".toList, "\x1b[38;5;57m".toList),
   ("sea_green".toList, "\x1b[38;5;29m".toList),
   ("sky_blue".toList, "\x1b[38;5;75m".toList), ("rose".toList, "\x1b[38;5;168m".toList),
   ("salmon".toList, "\x1b[38;5;174m".toList), ("peach".toList, "\x1b[38;5;216m".toList),
   ("mint".toList, "\x1b[38;5;121m".toList), ("lavender".toList, "\x1b[38;5;183m".toList),
   ("turquoise".toList, "\x1b[38;5;80m".toList), ("none".toList, []),
   ("default".toList, []), ("".toList, [])]

/-- The style of a name in a table of names and styles, the empty style
when the name is not in it. -/
def color_lookup (table : List (Str × Str)) (name : Str) : Str :=
  match table with
  | [] => []
  | entry :: rest => if name = entry.1 then entry.2 else color_lookup rest name

/-! ## The program (`main`) -/

/-- The variables that the argument loop of `main` sets: the year and the
month to show and the five flags. -/
structure MainArgs where
  y : Int
  m : Int
  show3 : Bool
  show_year : Bool
  show_twelve : Bool
  show_help : Bool
  monday_first : Bool
  deriving DecidableEq

/-- The argument loop of `main` from index `i` on: the list holds `argv[i]`,
..., `argv[argc - 1]`, so `i == argc - 2` when one argument follows and
`i == argc - 1` when none does. A conversion that throws leaves the
variable not yet assigned as it was, and the loop goes on; `break` ends it. -/
def main.parse_args (args : MainArgs) : List Str → MainArgs
  | [] => args
  | arg :: rest =>
    if arg = "-3".toList ∨ arg = "--three".toList then
      main.parse_args { args with show3 := true } rest
    else if arg = "-y".toList ∨ arg = "--year".toList then
      main.parse_args { args with show_year := true } rest
    else if arg = "-Y".toList ∨ arg = "--twelve".toList then
      main.parse_args { args with show_twelve := true } rest
    else if arg = "-m".toList ∨ arg = "--monday".toList then
      main.parse_args { args with monday_first := true } rest
    else if arg = "-h".toList ∨ arg = "--help".toList then
      main.parse_args { args with show_help := true } rest
    else if arg.head? ≠ some '-' then
      if rest.length = 1 then
        match stoi arg with
        | none => main.parse_args args rest
        | some month =>
          match stoi (rest.headD []) with
          | none => main.parse_args { args with m := month } rest
          | some year => { args with m := month, y := year }
      else if rest.length = 0 then
        match stoi arg with
        | none => main.parse_args args rest
        | some val =>
          if val ≥ 1 ∧ val ≤ 12 then main.parse_args { args with m := val } rest
          else if val ≥ 1900 ∧ val ≤ 2100 then main.parse_args { args with y := val } rest
          else main.parse_args args rest
      else main.parse_args args rest
    else main.parse_args args rest

/-- The function `print_help` of the source; the result is the text written
to the standard output. -/
def print_help : Str :=
  "Usage: cal2 [options] [[[day] month] year]\n".toList
    ++ "mycal [options] <monthname> [year]\n".toList
    ++ "Options:\n".toList
    ++ "  -3, --three           Display prev/current/next month\n".toList
    ++ "  -m, --monday          Monday as first day of week\n".toList
    ++ "  -y, --year            Display a calendar for the current year\n".toList
    ++ "  -Y, --twelve          Display the next twelve months\n".toList
    ++ "  -h, --help            Display this help\n\n".toList
    ++ "Events are loaded from ~/.cal2/cal2.ini\n".toList
    ++ "Format: MM/DD Description (e.g., 12/25 Christmas)\n".toList

/-- The function `main` of the source, on the current date (`lt`), the lines
of the configuration file (none when no file is found) and the arguments
`argv[1]`, ..., `argv[argc - 1]`; the result is the text written to the
standard output, `none` when a table is read outside its bounds. -/
def main (now_y now_m now_d : Int) (config_lines : List Str) (argv : List Str) :
    Option Str :=
  let args := main.parse_args
    { y := now_y, m := now_m, show3 := false, show_year := false, show_twelve := false,
      show_help := false, monday_first := false } argv
  if args.show_help then some print_help
  else
    let loaded := load_events config_lines
    main.render loaded.colors loaded.events args.y args.m now_d
      args.show3 args.show_year args.show_twelve args.monday_first

/-! ## Theorems -/

set_option linter.unusedVariables false

/-! ### Auxiliary lemmas -/

/-- On non-negative operands the C++ quotient is the mathematical one. -/
theorem cdiv_of_nonneg {a b : Int} (ha : 0 ≤ a) (hb : 0 ≤ b) : cdiv a b = a / b :=
  Int.tdiv_eq_ediv ha hb

/-- On non-negative operands the C++ remainder is the mathematical one. -/
theorem cmod_of_nonneg {a b : Int} (ha : 0 ≤ a) (hb : 0 ≤ b) : cmod a b = a % b :=
  Int.tmod_eq_emod ha hb

/-- Closed form of the year-by-year day count. -/
theorem refDaysBeforeYear_succ (y : Nat) :
    refDaysBeforeYear (y + 1) + y / 100 = 365 * y + y / 4 + y / 400 := by
  induction y with
  | zero => simp [refDaysBeforeYear]
  | succ n ih =>
    simp only [refDaysBeforeYear, refYearLength, refIsLeap]
    split <;> rename_i h <;> simp at h <;> omega

/-- The month-by-month day count, one value per month. -/
theorem refDaysBeforeMonth_cases (y m : Nat) (hm1 : 1 ≤ m) (hm2 : m ≤ 12) :
    refDaysBeforeMonth y m =
      (if m = 1 then 0 else if m = 2 then 31 else
        (if refIsLeap y then 1 else 0) +
          (if m = 3 then 59 else if m = 4 then 90 else if m = 5 then 120
           else if m = 6 then 151 else if m = 7 then 181 else if m = 8 then 212
           else if m = 9 then 243 else if m = 10 then 273 else if m = 11 then 304
           else 334)) := by
  have h : m = 1 ∨ m = 2 ∨ m = 3 ∨ m = 4 ∨ m = 5 ∨ m = 6 ∨ m = 7 ∨ m = 8 ∨ m = 9 ∨
      m = 10 ∨ m = 11 ∨ m = 12 := by omega
  rcases h with h | h | h | h | h | h | h | h | h | h | h | h <;> subst h <;>
    simp [refDaysBeforeMonth, refMonthLength] <;> split <;> rfl

/-- On non-negative arguments `weekday` is Zeller's congruence written with
the mathematical quotient and remainder. -/
theorem weekday_of_nonneg (y m d : Int) (b : Bool) (hy : 1 ≤ y) (hm : 1 ≤ m) (hd : 0 ≤ d) :
    weekday y m d b =
      (let m1 := if m ≤ 2 then m + 12 else m
       let y1 := if m ≤ 2 then y - 1 else y
       let r := ((d + 13 * (m1 + 1) / 5 + y1 % 100 + y1 % 100 / 4 + y1 / 100 / 4
          + 5 * (y1 / 100)) % 7 + 6) % 7
       if b then (r + 6) % 7 else r) := by
  unfold weekday
  simp only []
  have hm1 : (0 : Int) ≤ (if m ≤ 2 then m + 12 else m) := by split <;> omega
  have hy1 : (0 : Int) ≤ (if m ≤ 2 then y - 1 else y) := by split <;> omega
  generalize (if m ≤ 2 then m + 12 else m) = m1 at hm1 ⊢
  generalize (if m ≤ 2 then y - 1 else y) = y1 at hy1 ⊢
  have e1 : cmod y1 100 = y1 % 100 := cmod_of_nonneg hy1 (by omega)
  have e2 : cdiv y1 100 = y1 / 100 := cdiv_of_nonneg hy1 (by omega)
  have e3 : cdiv (13 * (m1 + 1)) 5 = 13 * (m1 + 1) / 5 := cdiv_of_nonneg (by omega) (by omega)
  have e4 : cdiv (y1 % 100) 4 = y1 % 100 / 4 := cdiv_of_nonneg (by omega) (by omega)
  have e5 : cdiv (y1 / 100) 4 = y1 / 100 / 4 := cdiv_of_nonneg (by omega) (by omega)
  rw [e1, e2, e3, e4, e5]
  have e6 : ∀ a : Int, 0 ≤ a → cmod a 7 = a % 7 := fun a ha => cmod_of_nonneg ha (by omega)
  have hS : 0 ≤ d + 13 * (m1 + 1) / 5 + y1 % 100 + y1 % 100 / 4 + y1 / 100 / 4
      + 5 * (y1 / 100) := by omega
  generalize d + 13 * (m1 + 1) / 5 + y1 % 100 + y1 % 100 / 4 + y1 / 100 / 4
      + 5 * (y1 / 100) = S at hS ⊢
  rw [e6 S hS, e6 (S % 7 + 6) (by omega)]
  cases b
  · simp
  · simp only [if_true]
    rw [e6 _ (by omega)]

/-- The year part of Zeller's congruence is the day count of the whole years,
modulo 7. -/
theorem zeller_year_part (Y N : Int)
    (hN : N + Y / 100 = 365 * Y + Y / 4 + Y / 400) :
    (Y % 100 + Y % 100 / 4 + Y / 100 / 4 + 5 * (Y / 100)) % 7 = N % 7 := by
  have h1 : Y / 4 = 25 * (Y / 100) + Y % 100 / 4 := by omega
  have h2 : Y / 400 = Y / 100 / 4 := by omega
  omega

/-- Zeller's congruence as computed by `weekday`, Sunday first, agrees with
the day count on every date from year 1 on (the day is not bounded above:
day `d` of a month is `d - 1` days after its first day). -/
theorem weekday_sunday_eq_ref (y m d : Nat) (hy : 1 ≤ y) (hm1 : 1 ≤ m) (hm2 : m ≤ 12) :
    weekday (y : Int) (m : Int) (d : Int) false = ((refDayOfWeek y m d : Nat) : Int) := by
  obtain ⟨y0, rfl⟩ : ∃ y0, y = y0 + 1 := ⟨y - 1, by omega⟩
  have hY := refDaysBeforeYear_succ y0
  have hY1 := refDaysBeforeYear_succ (y0 + 1)
  have hM := refDaysBeforeMonth_cases (y0 + 1) m hm1 hm2
  have hN1 : refDaysBeforeYear (y0 + 1 + 1) =
      refDaysBeforeYear (y0 + 1) + 365 + (if refIsLeap (y0 + 1) then 1 else 0) := by
    simp only [refDaysBeforeYear, refYearLength]
    split <;> rfl
  have z0 := zeller_year_part (y0 : Int) (refDaysBeforeYear (y0 + 1) : Nat)
    (by exact_mod_cast hY)
  have z1 := zeller_year_part ((y0 : Int) + 1) (refDaysBeforeYear (y0 + 1 + 1) : Nat)
    (by exact_mod_cast hY1)
  rw [weekday_of_nonneg _ _ _ _ (by omega) (by omega) (by omega)]
  unfold refDayOfWeek refDayNumber
  rw [hM]
  rw [hN1] at z1
  generalize refDaysBeforeYear (y0 + 1) = N at z0 z1 ⊢
  generalize refIsLeap (y0 + 1) = L at z1 ⊢
  clear hY hY1 hM hN1
  have h : m = 1 ∨ m = 2 ∨ m = 3 ∨ m = 4 ∨ m = 5 ∨ m = 6 ∨ m = 7 ∨ m = 8 ∨ m = 9 ∨
      m = 10 ∨ m = 11 ∨ m = 12 := by omega
  rcases h with h | h | h | h | h | h | h | h | h | h | h | h <;> subst h <;>
    cases L <;> simp at z1 ⊢ <;> omega

/-- The leap-year test of `days_in_month`, in terms of divisibility. -/
theorem cmod_eq_zero_iff (y k : Int) : cmod y k = 0 ↔ k ∣ y := by
  unfold cmod
  constructor
  · intro h
    exact Int.dvd_of_tmod_eq_zero h
  · intro h
    exact Int.tmod_eq_zero_of_dvd h

/-- The reference calendar is anchored on known dates: 0001-01-01 and
1900-01-01 were Mondays, 1970-01-01 a Thursday, 2000-01-01 a Saturday,
2024-02-29 a Thursday. -/
theorem refDayOfWeek_anchors :
    refDayOfWeek 1 1 1 = 1 ∧ refDayOfWeek 1900 1 1 = 1 ∧ refDayOfWeek 1970 1 1 = 4 ∧
    refDayOfWeek 2000 1 1 = 6 ∧ refDayOfWeek 2024 2 29 = 4 := by
  have h1 : refDaysBeforeYear 1 = 0 := rfl
  have h2 : refDaysBeforeYear 1900 + 1899 / 100 = 365 * 1899 + 1899 / 4 + 1899 / 400 :=
    refDaysBeforeYear_succ 1899
  have h3 : refDaysBeforeYear 1970 + 1969 / 100 = 365 * 1969 + 1969 / 4 + 1969 / 400 :=
    refDaysBeforeYear_succ 1969
  have h4 : refDaysBeforeYear 2000 + 1999 / 100 = 365 * 1999 + 1999 / 4 + 1999 / 400 :=
    refDaysBeforeYear_succ 1999
  have h5 : refDaysBeforeYear 2024 + 2023 / 100 = 365 * 2023 + 2023 / 4 + 2023 / 400 :=
    refDaysBeforeYear_succ 2023
  have h6 : refIsLeap 2024 = true := by decide
  simp only [refDayOfWeek, refDayNumber, refDaysBeforeMonth, refMonthLength, h6]
  omega

/-- The result of `weekday` is a column index. -/
theorem weekday_range (y m d : Int) (b : Bool) (hy : 1 ≤ y) (hm : 1 ≤ m) (hd : 0 ≤ d) :
    0 ≤ weekday y m d b ∧ weekday y m d b ≤ 6 := by
  rw [weekday_of_nonneg y m d b hy hm hd]
  simp only []
  cases b <;> simp <;> omega

/-- Day `d` of a month falls `d - 1` columns after its first day, modulo 7. -/
theorem weekday_shift (y m d : Int) (b : Bool) (hy : 1 ≤ y) (hm : 1 ≤ m) (hd : 1 ≤ d) :
    weekday y m d b = (weekday y m 1 b + d - 1) % 7 := by
  rw [weekday_of_nonneg y m d b hy hm (by omega), weekday_of_nonneg y m 1 b hy hm (by omega)]
  simp only []
  generalize 13 * ((if m ≤ 2 then m + 12 else m) + 1) / 5 = A
  generalize (if m ≤ 2 then y - 1 else y) = Y
  cases b <;> simp <;> omega

/-- Monday first is Sunday first rotated by six columns. -/
theorem weekday_monday_first (y m d : Int) (hy : 1 ≤ y) (hm : 1 ≤ m) (hd : 0 ≤ d) :
    weekday y m d true = (weekday y m d false + 6) % 7 := by
  rw [weekday_of_nonneg y m d true hy hm hd, weekday_of_nonneg y m d false hy hm hd]
  simp

/-- For a month in 1..12 the length table is read inside its bounds and the
length is between 28 and 31. -/
theorem days_in_month_some (y m : Int) (hm : 1 ≤ m ∧ m ≤ 12) :
    ∃ dim, days_in_month y m = some dim ∧ 28 ≤ dim ∧ dim ≤ 31 := by
  obtain ⟨h1, h2⟩ := hm
  have h : m = 1 ∨ m = 2 ∨ m = 3 ∨ m = 4 ∨ m = 5 ∨ m = 6 ∨ m = 7 ∨ m = 8 ∨ m = 9 ∨
      m = 10 ∨ m = 11 ∨ m = 12 := by omega
  unfold days_in_month
  split
  · exact ⟨29, rfl, by omega, by omega⟩
  · rcases h with h | h | h | h | h | h | h | h | h | h | h | h <;> subst h <;>
      simp [days_in_month.md]

/-- A loop that appends one piece per iteration yields the concatenation of
the pieces. -/
theorem foldl_append_eq_flatten {α β : Type} (f : α → List β) (l : List α) (init : List β) :
    l.foldl (fun acc x => acc ++ f x) init = init ++ (l.map f).flatten := by
  induction l generalizing init with
  | nil => simp
  | cons a t ih => simp [ih, List.append_assoc]

/-- A week row is the concatenation of its seven cells. -/
theorem week_str_eq_flatten (colors : ColorConfig) (events : EventMap)
    (y m ty tm td : Int) (b : Bool) (start dim week : Int) :
    get_month_data.week_str colors events y m ty tm td b start dim week =
      ((List.range 7).map (fun wday : Nat =>
        get_month_data.cell colors events y m ty tm td b start dim week (wday : Int))).flatten := by
  unfold get_month_data.week_str
  rw [foldl_append_eq_flatten]
  rfl

/-- For a month in 1..12 `get_month_data` returns a grid, whose rows are the
week rows 0 .. total_weeks - 1. -/
theorem get_month_data_some (colors : ColorConfig) (events : EventMap)
    (y m ty tm td : Int) (b : Bool) (hm : 1 ≤ m ∧ m ≤ 12) :
    ∃ data dim, get_month_data colors events y m ty tm td b = some data ∧
      days_in_month y m = some dim ∧ 28 ≤ dim ∧ dim ≤ 31 ∧
      data.weeks = (List.range (cdiv (weekday y m 1 b + dim - 1) 7 + 1).toNat).map
        (fun week : Nat => get_month_data.week_str colors events y m ty tm td b
          (weekday y m 1 b) dim (week : Int)) := by
  obtain ⟨dim, hdim, hlo, hhi⟩ := days_in_month_some y m hm
  have hn : ∃ name, array_get get_month_data.names (m - 1) = some name := by
    obtain ⟨h1, h2⟩ := hm
    have h : m = 1 ∨ m = 2 ∨ m = 3 ∨ m = 4 ∨ m = 5 ∨ m = 6 ∨ m = 7 ∨ m = 8 ∨ m = 9 ∨
        m = 10 ∨ m = 11 ∨ m = 12 := by omega
    rcases h with h | h | h | h | h | h | h | h | h | h | h | h <;> subst h <;>
      simp [array_get, get_month_data.names]
  obtain ⟨name, hname⟩ := hn
  unfold get_month_data
  simp only [hname, hdim]
  exact ⟨_, dim, rfl, rfl, hlo, hhi, rfl⟩

/-- Number of week rows, as a natural number. -/
theorem total_weeks_eq (start dim : Int) (hs : 0 ≤ start) (hd : 1 ≤ dim) :
    ((cdiv (start + dim - 1) 7 + 1).toNat : Int) = (start + dim - 1) / 7 + 1 := by
  rw [cdiv_of_nonneg (by omega) (by omega)]
  omega

/-- A cell whose day number is in the month is the style, the day number
right-justified in two columns, the reset and the separator. -/
theorem cell_in_month (colors : ColorConfig) (events : EventMap)
    (y m ty tm td : Int) (b : Bool) (start dim week wday : Int)
    (h1 : 1 ≤ week * 7 + wday - start + 1) (h2 : week * 7 + wday - start + 1 ≤ dim) :
    get_month_data.cell colors events y m ty tm td b start dim week wday =
      (if y = ty ∧ m = tm ∧ week * 7 + wday - start + 1 = td then REV
       else if has_events events m (week * 7 + wday - start + 1) = true then
         (match get_events events m (week * 7 + wday - start + 1) with
          | event0 :: _ => get_event_color colors event0
          | [] => [])
       else if (b = true ∧ wday = 6) ∨ (¬ b = true ∧ wday = 0) then colors.sunday_date
       else if (b = true ∧ wday = 5) ∨ (¬ b = true ∧ wday = 6) then colors.saturday_date
       else colors.workday_date) ++
      (if week * 7 + wday - start + 1 < 10 then ' ' :: to_string (week * 7 + wday - start + 1)
       else to_string (week * 7 + wday - start + 1)) ++
      RESET ++ (if wday < 6 then [' '] else []) := by
  unfold get_month_data.cell
  simp only []
  generalize week * 7 + wday - start + 1 = dn at h1 h2 ⊢
  rw [if_neg (by omega)]
  simp only [List.nil_append]
  have e : " ".toList = [' '] := rfl
  rw [e]
  congr 2
  split_ifs <;> rfl

/-- A cell whose day number is outside the month is blank. -/
theorem cell_blank (colors : ColorConfig) (events : EventMap)
    (y m ty tm td : Int) (b : Bool) (start dim week wday : Int)
    (h : ¬ (1 ≤ week * 7 + wday - start + 1 ∧ week * 7 + wday - start + 1 ≤ dim)) :
    get_month_data.cell colors events y m ty tm td b start dim week wday =
      ' ' :: ' ' :: (if wday < 6 then [' '] else []) := by
  unfold get_month_data.cell
  simp only []
  rw [if_pos (by omega)]
  rfl

/-- The two months named by the specification: August 2020 has 31 days and
starts in the last column (6 rows), February 2015 has 28 days and starts in
the first column (4 rows). -/
theorem week_rows_examples :
    (days_in_month 2020 8 = some 31 ∧ weekday 2020 8 1 false = 6 ∧
      (get_month_data {} [] 2020 8 2024 1 1 false).map (fun data => data.weeks.length) = some 6) ∧
    (days_in_month 2015 2 = some 28 ∧ weekday 2015 2 1 false = 0 ∧
      (get_month_data {} [] 2015 2 2024 1 1 false).map (fun data => data.weeks.length) = some 4) := by
  decide

/-- The text written by `print_month_vertical` for one day: the style, the
day number in two columns, the reset, a space, and a line break after the
last column. -/
theorem vertical_day_eq (colors : ColorConfig) (events : EventMap)
    (y m ty tm td : Int) (b : Bool) (d : Int) :
    print_month_vertical.day colors events y m ty tm td b d =
      (if y = ty ∧ m = tm ∧ d = td then REV
       else if has_events events m d = true then
         (match get_events events m d with
          | event0 :: _ => get_event_color colors event0
          | [] => [])
       else if (b = true ∧ weekday y m d b = 6) ∨ (¬ b = true ∧ weekday y m d b = 0) then
         colors.sunday_date
       else if (b = true ∧ weekday y m d b = 5) ∨ (¬ b = true ∧ weekday y m d b = 6) then
         colors.saturday_date
       else colors.workday_date) ++
      (if d < 10 then ' ' :: to_string d else to_string d) ++
      RESET ++ [' '] ++ (if weekday y m d b = 6 then ['\n'] else []) := by
  unfold print_month_vertical.day
  simp only []
  have e : " ".toList = [' '] := rfl
  have e2 : "\n".toList = ['\n'] := rfl
  rw [e, e2]
  split_ifs <;> first | rfl | simp

/-- A day with a stored event list that is not empty is a day with events. -/
theorem has_events_of_get_events (events : EventMap) (m d : Int) (event0 : Event)
    (rest : List Event) (h : get_events events m d = event0 :: rest) :
    has_events events m d = true := by
  unfold get_events at h
  unfold has_events
  simp only [] at h ⊢
  cases hf : events_find events (event_key m d) with
  | none => rw [hf] at h; simp at h
  | some v => rfl

/-- After `events[key].push_back(event)` the vector under `key` is the old
one (empty when the key was absent) followed by `event`. -/
theorem events_find_push_back_same (events : EventMap) (key : Str) (event : Event) :
    events_find (events_push_back events key event) key =
      some ((events_find events key).getD [] ++ [event]) := by
  induction events with
  | nil => simp [events_push_back, events_find]
  | cons p rest ih =>
    obtain ⟨k, v⟩ := p
    unfold events_push_back
    by_cases h : k = key
    · simp [h, events_find]
    · simp [h, events_find, ih]

/-- The update `events[key].push_back(event)` leaves the other keys as they were. -/
theorem events_find_push_back_other (events : EventMap) (key key2 : Str) (event : Event)
    (hne : key2 ≠ key) :
    events_find (events_push_back events key event) key2 = events_find events key2 := by
  induction events with
  | nil =>
    simp only [events_push_back, events_find]
    rw [if_neg (fun h => hne h.symm)]
  | cons p rest ih =>
    obtain ⟨k, v⟩ := p
    unfold events_push_back
    by_cases h : k = key
    · subst h
      simp only [if_true, events_find]
      rw [if_neg (fun h => hne h.symm), if_neg (fun h => hne h.symm)]
    · simp only [h, if_false, events_find]
      by_cases h2 : k = key2
      · simp [h2]
      · simp [h2, ih]

/-- The outcome of `parse_date` in terms of its two conversions. -/
theorem parse_date_eq (date_str : Str) :
    (str_find date_str '/' = none → str_find date_str '-' = none →
      parse_date date_str = (0, 0)) ∧
    (∀ sep pos, ((sep = '/' ∧ str_find date_str '/' = some pos) ∨
        (sep = '-' ∧ str_find date_str '/' = none ∧ str_find date_str '-' = some pos)) →
      (stoi (date_str.take pos) = none → parse_date date_str = (0, 0)) ∧
      (∀ month, stoi (date_str.take pos) = some month →
        (stoi (date_str.drop (pos + 1)) = none → parse_date date_str = (month, 0)) ∧
        (∀ day, stoi (date_str.drop (pos + 1)) = some day →
          parse_date date_str = (month, day)))) := by
  constructor
  · intro h1 h2
    simp [parse_date, h1, h2]
  · rintro sep pos (⟨_, h1⟩ | ⟨_, h1, h2⟩)
    · refine ⟨fun h => by simp [parse_date, h1, h], fun month hm => ⟨fun h => ?_, fun day h => ?_⟩⟩
      · simp [parse_date, h1, hm, h]
      · simp [parse_date, h1, hm, h]
    · refine ⟨fun h => by simp [parse_date, h1, h2, h], fun month hm => ⟨fun h => ?_, fun day h => ?_⟩⟩
      · simp [parse_date, h1, h2, hm, h]
      · simp [parse_date, h1, h2, hm, h]

/-- A line that is not skipped, is not a section header and is read outside
the `[colors]` section goes to the event branch, trimmed. -/
theorem step_event_line (st : LoadState) (line : Str)
    (hl : ¬ (line.isEmpty ∨ line.head? = some '#' ∨ line.head? = some ';'))
    (hh : ¬ ((trim_right (trim_left line)).head? = some '[' ∧
      (trim_right (trim_left line)).getLast? = some ']'))
    (hs : st.current_section ≠ "colors".toList) :
    load_events.step st line = load_events.event_line st (trim_right (trim_left line)) := by
  unfold load_events.step
  simp only []
  rw [if_neg (by simpa using hl), if_neg hh, if_neg hs]

/-- The event branch either leaves the state as it is, when the date is out
of range, or appends one event under the key of the parsed month and day. -/
theorem event_line_eq (st : LoadState) (line : Str) :
    (¬ ((parse_date (load_events.date_token line)).1 ≥ 1 ∧
        (parse_date (load_events.date_token line)).1 ≤ 12 ∧
        (parse_date (load_events.date_token line)).2 ≥ 1 ∧
        (parse_date (load_events.date_token line)).2 ≤ 31) →
      load_events.event_line st line = st) ∧
    ((parse_date (load_events.date_token line)).1 ≥ 1 ∧
        (parse_date (load_events.date_token line)).1 ≤ 12 ∧
        (parse_date (load_events.date_token line)).2 ≥ 1 ∧
        (parse_date (load_events.date_token line)).2 ≤ 31 →
      load_events.event_line st line =
        { st with
          events := events_push_back st.events
            (event_key (parse_date (load_events.date_token line)).1
              (parse_date (load_events.date_token line)).2)
            { month := (parse_date (load_events.date_token line)).1,
              day := (parse_date (load_events.date_token line)).2,
              description := load_events.description line,
              type := load_events.event_type st.current_section
                (load_events.description line) },
          events_loaded := st.events_loaded + 1 }) := by
  unfold load_events.event_line
  simp only []
  by_cases he : (load_events.date_token line).isEmpty = true
  · have he' : load_events.date_token line = [] := by simpa using he
    rw [he']
    simp [parse_date, str_find]
  · rw [if_neg he]
    constructor
    · intro h
      rw [if_neg h]
    · intro h
      rw [if_pos h]
      rfl

/-- The events of a day after `events[key].push_back(event)` under its key. -/
theorem get_events_push_back (events : EventMap) (month day : Int) (event : Event) :
    get_events (events_push_back events (event_key month day) event) month day =
      get_events events month day ++ [event] := by
  unfold get_events
  simp only []
  rw [events_find_push_back_same]
  cases events_find events (event_key month day) <;> rfl

/-- The first occurrence of `sep` in `a ++ sep :: rest` when `a` has none. -/
theorem str_find_append_sep (a rest : Str) (sep : Char) (h : str_find a sep = none) :
    str_find (a ++ sep :: rest) sep = some a.length := by
  induction a with
  | nil => simp [str_find]
  | cons x xs ih =>
    simp only [str_find] at h
    by_cases hx : x = sep
    · simp [hx] at h
    · simp only [hx, if_false, Option.map_eq_none'] at h
      simp [str_find, hx, ih h]

/-- No occurrence of `c` in `a ++ x :: rest` when there is none in `a`, `x`, `rest`. -/
theorem str_find_append_none (a rest : Str) (x c : Char) (ha : str_find a c = none)
    (hx : x ≠ c) (hr : str_find rest c = none) :
    str_find (a ++ x :: rest) c = none := by
  induction a with
  | nil => simp [str_find, hx, hr]
  | cons y ys ih =>
    simp only [str_find] at ha
    by_cases hy : y = c
    · simp [hy] at ha
    · simp only [hy, if_false, Option.map_eq_none'] at ha
      simp [str_find, hy, ih ha]

/-- The decimal text of a month 1..12, with or without a leading zero, holds
neither separator and converts back to the month. -/
theorem month_text_facts : ∀ m : Fin 13, ∀ z : Bool, 1 ≤ m.val →
    stoi ((if z then ['0'] else []) ++ to_string (m.val : Int)) = some (m.val : Int) ∧
    str_find ((if z then ['0'] else []) ++ to_string (m.val : Int)) '/' = none ∧
    str_find ((if z then ['0'] else []) ++ to_string (m.val : Int)) '-' = none := by
  decide

/-- The decimal text of a day 1..31, with or without a leading zero, holds no
`/` and converts back to the day. -/
theorem day_text_facts : ∀ d : Fin 32, ∀ z : Bool, 1 ≤ d.val →
    stoi ((if z then ['0'] else []) ++ to_string (d.val : Int)) = some (d.val : Int) ∧
    str_find ((if z then ['0'] else []) ++ to_string (d.val : Int)) '/' = none := by
  decide

/-- The category of an event read in one of the six named sections. -/
theorem event_type_of_section (current_section description : Str) :
    ((current_section = "holidays".toList ∨ current_section = "holiday".toList) →
      load_events.event_type current_section description = EventType.HOLIDAY) ∧
    ((current_section = "birthdays".toList ∨ current_section = "birthday".toList) →
      load_events.event_type current_section description = EventType.BIRTHDAY) ∧
    ((current_section = "reminders".toList ∨ current_section = "reminder".toList) →
      load_events.event_type current_section description = EventType.REMINDER) := by
  refine ⟨?_, ?_, ?_⟩
  · intro h
    unfold load_events.event_type
    rw [if_pos h]
  · intro h
    unfold load_events.event_type
    have h1 : ¬ (current_section = "holidays".toList ∨ current_section = "holiday".toList) := by
      rcases h with h | h <;> subst h <;> decide
    rw [if_neg h1, if_pos h]
  · intro h
    unfold load_events.event_type
    have h1 : ¬ (current_section = "holidays".toList ∨ current_section = "holiday".toList) := by
      rcases h with h | h <;> subst h <;> decide
    have h2 : ¬ (current_section = "birthdays".toList ∨ current_section = "birthday".toList) := by
      rcases h with h | h <;> subst h <;> decide
    rw [if_neg h1, if_neg h2, if_pos h]

/-- A line `[name]` sets the current section to the lower-cased name and
changes nothing else. -/
theorem step_section_header (st : LoadState) (name : Str) :
    load_events.step st ('[' :: (name ++ [']'])) =
      { st with current_section := to_lower name } := by
  unfold load_events.step
  have hl : trim_left ('[' :: (name ++ [']'])) = '[' :: (name ++ [']']) := by
    simp [trim_left, List.dropWhile, is_blank]
  have hr : trim_right ('[' :: (name ++ [']'])) = '[' :: (name ++ [']']) := by
    simp [trim_right, List.dropWhile, is_blank]
  simp only [hl, hr]
  have hlast : ('[' :: (name ++ [']'])).getLast? = some ']' := by
    rw [← List.cons_append, List.getLast?_append]
    simp
  rw [if_neg (by simp), if_pos ⟨rfl, hlast⟩]
  congr 2
  simp

/-- A line of the `[colors]` section leaves the event index as it is. -/
theorem color_line_events (st : LoadState) (line : Str) :
    (load_events.color_line st line).events = st.events := by
  unfold load_events.color_line
  cases str_find line '=' <;> rfl

/-- One line changes the event index, if at all, by appending one event whose
category is the one computed from the current section and the description. -/
theorem step_events (st : LoadState) (line : Str) :
    (load_events.step st line).events = st.events ∨
    ∃ event : Event,
      (load_events.step st line).events =
        events_push_back st.events (event_key event.month event.day) event ∧
      1 ≤ event.month ∧ event.month ≤ 12 ∧ 1 ≤ event.day ∧ event.day ≤ 31 ∧
      event.type = load_events.event_type st.current_section event.description := by
  unfold load_events.step
  simp only []
  split
  · exact Or.inl rfl
  · split
    · exact Or.inl rfl
    · split
      · left
        exact color_line_events st _
      · generalize trim_right (trim_left line) = tline
        obtain ⟨hout, hin⟩ := event_line_eq st tline
        by_cases h : (parse_date (load_events.date_token tline)).1 ≥ 1 ∧
            (parse_date (load_events.date_token tline)).1 ≤ 12 ∧
            (parse_date (load_events.date_token tline)).2 ≥ 1 ∧
            (parse_date (load_events.date_token tline)).2 ≤ 31
        · right
          rw [hin h]
          exact ⟨{ month := (parse_date (load_events.date_token tline)).1,
                   day := (parse_date (load_events.date_token tline)).2,
                   description := load_events.description tline,
                   type := load_events.event_type st.current_section
                     (load_events.description tline) },
            rfl, h.1, h.2.1, h.2.2.1, h.2.2.2, rfl⟩
        · left
          rw [hout h]

/-- For every `int` year from 1 on and every valid month and day, the sum
that `weekday` reduces modulo 7 is far below the largest `int`: the
arithmetic of the source does not overflow. -/
theorem weekday_no_overflow (y m d : Int) (hy : 1 ≤ y ∧ y ≤ 2147483647)
    (hm : 1 ≤ m ∧ m ≤ 12) (hd : 1 ≤ d ∧ d ≤ 31) :
    0 ≤ d + cdiv (13 * ((if m ≤ 2 then m + 12 else m) + 1)) 5
        + cmod (if m ≤ 2 then y - 1 else y) 100
        + cdiv (cmod (if m ≤ 2 then y - 1 else y) 100) 4
        + cdiv (cdiv (if m ≤ 2 then y - 1 else y) 100) 4
        + 5 * cdiv (if m ≤ 2 then y - 1 else y) 100 ∧
      d + cdiv (13 * ((if m ≤ 2 then m + 12 else m) + 1)) 5
        + cmod (if m ≤ 2 then y - 1 else y) 100
        + cdiv (cmod (if m ≤ 2 then y - 1 else y) 100) 4
        + cdiv (cdiv (if m ≤ 2 then y - 1 else y) 100) 4
        + 5 * cdiv (if m ≤ 2 then y - 1 else y) 100 ≤ 113000000 := by
  have hm1 : (0 : Int) ≤ (if m ≤ 2 then m + 12 else m) ∧ (if m ≤ 2 then m + 12 else m) ≤ 14 := by
    split <;> omega
  have hy1 : (0 : Int) ≤ (if m ≤ 2 then y - 1 else y) ∧
      (if m ≤ 2 then y - 1 else y) ≤ 2147483647 := by split <;> omega
  generalize (if m ≤ 2 then m + 12 else m) = m1 at hm1 ⊢
  generalize (if m ≤ 2 then y - 1 else y) = y1 at hy1 ⊢
  have e1 : cmod y1 100 = y1 % 100 := cmod_of_nonneg hy1.1 (by omega)
  have e2 : cdiv y1 100 = y1 / 100 := cdiv_of_nonneg hy1.1 (by omega)
  have e3 : cdiv (13 * (m1 + 1)) 5 = 13 * (m1 + 1) / 5 := cdiv_of_nonneg (by omega) (by omega)
  have e4 : cdiv (y1 % 100) 4 = y1 % 100 / 4 := cdiv_of_nonneg (by omega) (by omega)
  have e5 : cdiv (y1 / 100) 4 = y1 / 100 / 4 := cdiv_of_nonneg (by omega) (by omega)
  rw [e1, e2, e3, e4, e5]
  omega

/-- The state after two texts read in a row. -/
theorem escape_state_append (e : Bool) (a b : Str) :
    escape_state e (a ++ b) = escape_state (escape_state e a) b := by
  induction a generalizing e with
  | nil => rfl
  | cons c cs ih =>
    simp only [List.cons_append, escape_state]
    split <;> exact ih _

/-- The columns of two texts read in a row. -/
theorem display_width_from_append (e : Bool) (a b : Str) :
    display_width_from e (a ++ b) =
      display_width_from e a + display_width_from (escape_state e a) b := by
  induction a generalizing e with
  | nil => simp [display_width_from, escape_state]
  | cons c cs ih =>
    simp only [List.cons_append, escape_state, display_width_from]
    split
    · exact ih _
    · split
      · rename_i h
        simp [h, ih]
      · rename_i h
        have := ih false
        have hb : (c == '\x1b') = false := by simp [h]
        simp only [List.append_eq, hb] at this ⊢
        rw [this]
        omega

/-- The empty text. -/
theorem balanced_nil : balanced 0 [] := ⟨rfl, rfl⟩

/-- Widths add up over concatenation. -/
theorem balanced_append {n k : Nat} {a b : Str} (ha : balanced n a) (hb : balanced k b) :
    balanced (n + k) (a ++ b) := by
  obtain ⟨a1, a2⟩ := ha
  obtain ⟨b1, b2⟩ := hb
  constructor
  · rw [escape_state_append, a1, b1]
  · rw [display_width_from_append, a1, a2, b2]

/-- The display width of a balanced text. -/
theorem balanced_width {n : Nat} {s : Str} (h : balanced n s) : display_width s = n := h.2

/-- A text without the escape character takes as many columns as it has
characters. -/
theorem balanced_plain (s : Str) (h : ∀ c ∈ s, c ≠ '\x1b') : balanced s.length s := by
  induction s with
  | nil => exact balanced_nil
  | cons c cs ih =>
    have hc : c ≠ '\x1b' := h c (List.mem_cons_self _ _)
    have := ih (fun x hx => h x (List.mem_cons_of_mem _ hx))
    obtain ⟨h1, h2⟩ := this
    have hb : (c == '\x1b') = false := by simp [hc]
    constructor
    · simp [escape_state, hb, h1]
    · simp [display_width_from, hc, h2]

/-- Inside a style sequence, parameters do not end it and take no column. -/
theorem escape_params (p : Str) (h : ∀ c ∈ p, c ≠ 'm') (rest : Str) :
    escape_state true (p ++ rest) = escape_state true rest ∧
    display_width_from true (p ++ rest) = display_width_from true rest := by
  induction p with
  | nil => exact ⟨rfl, rfl⟩
  | cons c cs ih =>
    have hc : c ≠ 'm' := h c (List.mem_cons_self _ _)
    have := ih (fun x hx => h x (List.mem_cons_of_mem _ hx))
    have hb : (c != 'm') = true := by simp [hc]
    simp [escape_state, display_width_from, hb, this.1, this.2]

/-- A style takes no display column. -/
theorem balanced_style (s : Str) (h : is_style s = true) : balanced 0 s := by
  match s, h with
  | [], _ => exact balanced_nil
  | [c], h => simp [is_style] at h
  | c1 :: c2 :: rest, h =>
    simp only [is_style, Bool.and_eq_true, beq_iff_eq, List.all_eq_true, Bool.or_eq_true] at h
    obtain ⟨⟨⟨h1, h2⟩, h3⟩, h4⟩ := h
    subst h1 h2
    have hrest : rest = rest.dropLast ++ ['m'] := by
      have := List.dropLast_append_getLast? 'm' (by simpa using h3)
      exact this.symm
    have hp : ∀ c ∈ rest.dropLast, c ≠ 'm' := by
      intro c hc hm
      subst hm
      rcases h4 _ hc with h | h
      · revert h; decide
      · revert h; decide
    have := escape_params rest.dropLast hp ['m']
    rw [← hrest] at this
    constructor
    · simp [escape_state, this.1]
    · simp [display_width_from, this.2]

/-- A day number 1..31 written in two columns. -/
theorem pad_facts : ∀ d : Fin 32, 1 ≤ d.val →
    escape_state false
      (if (d.val : Int) < 10 then ' ' :: to_string (d.val : Int) else to_string (d.val : Int))
        = false ∧
    display_width_from false
      (if (d.val : Int) < 10 then ' ' :: to_string (d.val : Int) else to_string (d.val : Int))
        = 2 := by
  decide

/-- A day number 1..31 written in two columns, for an `int` day. -/
theorem balanced_pad (d : Int) (h1 : 1 ≤ d) (h2 : d ≤ 31) :
    balanced 2 (if d < 10 then ' ' :: to_string d else to_string d) := by
  obtain ⟨n, rfl⟩ : ∃ n : Nat, d = n := ⟨d.toNat, by omega⟩
  exact pad_facts ⟨n, by omega⟩ (by show 1 ≤ n; omega)

/-- Every colour of the assignment, one by one. -/
theorem colors_are_styles_fields (colors : ColorConfig) (h : colors_are_styles colors = true) :
    is_style colors.sunday_title = true ∧
    is_style colors.saturday_title = true ∧
    is_style colors.workday_title = true ∧
    is_style colors.sunday_date = true ∧
    is_style colors.saturday_date = true ∧
    is_style colors.workday_date = true ∧
    is_style colors.holiday = true ∧
    is_style colors.birthday = true ∧
    is_style colors.reminder = true ∧
    is_style colors.january = true ∧
    is_style colors.february = true ∧
    is_style colors.march = true ∧
    is_style colors.april = true ∧
    is_style colors.may = true ∧
    is_style colors.june = true ∧
    is_style colors.july = true ∧
    is_style colors.august = true ∧
    is_style colors.september = true ∧
    is_style colors.october = true ∧
    is_style colors.november = true ∧
    is_style colors.december = true := by
  unfold colors_are_styles at h
  repeat rw [Bool.and_eq_true] at h
  obtain ⟨⟨⟨⟨⟨⟨⟨⟨⟨⟨⟨⟨⟨⟨⟨⟨⟨⟨⟨⟨h0, h1⟩, h2⟩, h3⟩, h4⟩, h5⟩, h6⟩, h7⟩, h8⟩, h9⟩, h10⟩, h11⟩, h12⟩, h13⟩, h14⟩, h15⟩, h16⟩, h17⟩, h18⟩, h19⟩, h20⟩ := h
  exact ⟨h0, h1, h2, h3, h4, h5, h6, h7, h8, h9, h10, h11, h12, h13, h14, h15, h16, h17, h18, h19, h20⟩

/-- The colours that the day cells use, when every colour is a style. -/
theorem date_colors_are_styles (colors : ColorConfig) (h : colors_are_styles colors = true) :
    is_style colors.sunday_date = true ∧ is_style colors.saturday_date = true ∧
    is_style colors.workday_date = true ∧ is_style colors.holiday = true ∧
    is_style colors.birthday = true ∧ is_style colors.reminder = true := by
  obtain ⟨_, _, _, h3, h4, h5, h6, h7, h8, _⟩ := colors_are_styles_fields colors h
  exact ⟨h3, h4, h5, h6, h7, h8⟩

/-- The colour of every month, when every colour is a style. -/
theorem month_color_is_style (colors : ColorConfig) (h : colors_are_styles colors = true)
    (m : Int) : is_style (get_month_color colors m) = true := by
  obtain ⟨_, _, _, _, _, _, _, _, _, m1, m2, m3, m4, m5, m6, m7, m8, m9, m10, m11, m12⟩ :=
    colors_are_styles_fields colors h
  unfold get_month_color
  by_cases e1 : m = 1
  · rw [if_pos e1]
    exact m1
  rw [if_neg e1]
  by_cases e2 : m = 2
  · rw [if_pos e2]
    exact m2
  rw [if_neg e2]
  by_cases e3 : m = 3
  · rw [if_pos e3]
    exact m3
  rw [if_neg e3]
  by_cases e4 : m = 4
  · rw [if_pos e4]
    exact m4
  rw [if_neg e4]
  by_cases e5 : m = 5
  · rw [if_pos e5]
    exact m5
  rw [if_neg e5]
  by_cases e6 : m = 6
  · rw [if_pos e6]
    exact m6
  rw [if_neg e6]
  by_cases e7 : m = 7
  · rw [if_pos e7]
    exact m7
  rw [if_neg e7]
  by_cases e8 : m = 8
  · rw [if_pos e8]
    exact m8
  rw [if_neg e8]
  by_cases e9 : m = 9
  · rw [if_pos e9]
    exact m9
  rw [if_neg e9]
  by_cases e10 : m = 10
  · rw [if_pos e10]
    exact m10
  rw [if_neg e10]
  by_cases e11 : m = 11
  · rw [if_pos e11]
    exact m11
  rw [if_neg e11]
  by_cases e12 : m = 12
  · rw [if_pos e12]
    exact m12
  rw [if_neg e12]
  rfl

/-- The colour of an event, when every colour is a style. -/
theorem event_color_is_style (colors : ColorConfig) (h : colors_are_styles colors = true)
    (event : Event) : is_style (get_event_color colors event) = true := by
  obtain ⟨_, _, _, h1, h2, h3⟩ := date_colors_are_styles colors h
  unfold get_event_color
  cases event.type <;> assumption

/-- A cell of the grid is a body of two display columns, blank or a styled
day number closed by the reset, followed by the separator except in the last
column. -/
theorem cell_body (colors : ColorConfig) (events : EventMap)
    (y m ty tm td : Int) (b : Bool) (start dim week wday : Int)
    (hc : colors_are_styles colors = true) (hdim : dim ≤ 31) :
    ∃ body : Str,
      get_month_data.cell colors events y m ty tm td b start dim week wday =
        body ++ (if wday < 6 then [' '] else []) ∧
      balanced 2 body ∧
      (body = [' ', ' '] ∨
        ∃ (style : Str) (d : Int), is_style style = true ∧ 1 ≤ d ∧ d ≤ dim ∧
          d = week * 7 + wday - start + 1 ∧
          body = style ++ (if d < 10 then ' ' :: to_string d else to_string d) ++ RESET) := by
  by_cases hin : 1 ≤ week * 7 + wday - start + 1 ∧ week * 7 + wday - start + 1 ≤ dim
  · rw [cell_in_month colors events y m ty tm td b start dim week wday hin.1 hin.2]
    obtain ⟨s1, s2, s3, _, _, _⟩ := date_colors_are_styles colors hc
    have hstyle : is_style
        (if y = ty ∧ m = tm ∧ week * 7 + wday - start + 1 = td then REV
         else if has_events events m (week * 7 + wday - start + 1) = true then
           (match get_events events m (week * 7 + wday - start + 1) with
            | event0 :: _ => get_event_color colors event0
            | [] => [])
         else if (b = true ∧ wday = 6) ∨ (¬ b = true ∧ wday = 0) then colors.sunday_date
         else if (b = true ∧ wday = 5) ∨ (¬ b = true ∧ wday = 6) then colors.saturday_date
         else colors.workday_date) = true := by
      split_ifs
      · rfl
      · split
        · exact event_color_is_style colors hc _
        · rfl
      · exact s1
      · exact s2
      · exact s3
    refine ⟨_, rfl, ?_, Or.inr ⟨_, _, hstyle, hin.1, hin.2, rfl, rfl⟩⟩
    have hR : balanced 0 RESET := balanced_style RESET (by decide)
    exact balanced_append (balanced_append (balanced_style _ hstyle)
      (balanced_pad _ hin.1 (by omega))) hR
  · rw [cell_blank colors events y m ty tm td b start dim week wday hin]
    exact ⟨[' ', ' '], rfl, ⟨rfl, rfl⟩, Or.inl rfl⟩

/-- A week row is seven cell bodies of two display columns separated by
single spaces, 20 display columns in all. -/
theorem week_str_cells (colors : ColorConfig) (events : EventMap)
    (y m ty tm td : Int) (b : Bool) (start dim week : Int)
    (hc : colors_are_styles colors = true) (hdim : dim ≤ 31) :
    ∃ cells : List Str, cells.length = 7 ∧
      get_month_data.week_str colors events y m ty tm td b start dim week =
        ([' '] : Str).intercalate cells ∧
      (∀ cell ∈ cells, display_width cell = 2 ∧
        (cell = [' ', ' '] ∨
          ∃ (style : Str) (d : Int), is_style style = true ∧ 1 ≤ d ∧ d ≤ dim ∧
            cell = style ++ (if d < 10 then ' ' :: to_string d else to_string d) ++ RESET)) ∧
      balanced 20 (get_month_data.week_str colors events y m ty tm td b start dim week) := by
  have H : ∀ c : Nat, ∃ body : Str,
      get_month_data.cell colors events y m ty tm td b start dim week (c : Int) =
        body ++ (if c < 6 then [' '] else []) ∧
      balanced 2 body ∧
      (body = [' ', ' '] ∨
        ∃ (style : Str) (d : Int), is_style style = true ∧ 1 ≤ d ∧ d ≤ dim ∧
          body = style ++ (if d < 10 then ' ' :: to_string d else to_string d) ++ RESET) := by
    intro c
    obtain ⟨body, e, bal, h⟩ :=
      cell_body colors events y m ty tm td b start dim week (c : Int) hc hdim
    refine ⟨body, ?_, bal, ?_⟩
    · rw [e]
      have : ((c : Int) < 6) ↔ c < 6 := by omega
      simp only [this]
    · rcases h with h | ⟨style, d, h1, h2, h3, _, h5⟩
      · exact Or.inl h
      · exact Or.inr ⟨style, d, h1, h2, h3, h5⟩
  obtain ⟨b0, e0, bal0, d0⟩ := H 0
  obtain ⟨b1, e1, bal1, d1⟩ := H 1
  obtain ⟨b2, e2, bal2, d2⟩ := H 2
  obtain ⟨b3, e3, bal3, d3⟩ := H 3
  obtain ⟨b4, e4, bal4, d4⟩ := H 4
  obtain ⟨b5, e5, bal5, d5⟩ := H 5
  obtain ⟨b6, e6, bal6, d6⟩ := H 6
  rw [if_pos (by decide)] at e0 e1 e2 e3 e4 e5
  rw [if_neg (by decide)] at e6
  have hrow : get_month_data.week_str colors events y m ty tm td b start dim week =
      ([' '] : Str).intercalate [b0, b1, b2, b3, b4, b5, b6] := by
    rw [week_str_eq_flatten]
    have hr : List.range 7 = [0, 1, 2, 3, 4, 5, 6] := by decide
    rw [hr]
    simp only [List.map, List.flatten]
    rw [e0, e1, e2, e3, e4, e5, e6]
    simp [List.intercalate, List.intersperse]
  have hs : balanced 1 [' '] := ⟨rfl, rfl⟩
  refine ⟨[b0, b1, b2, b3, b4, b5, b6], rfl, hrow, ?_, ?_⟩
  · intro cell hcell
    simp only [List.mem_cons, List.mem_singleton, List.not_mem_nil, or_false] at hcell
    rcases hcell with h | h | h | h | h | h | h <;> subst h
    · exact ⟨balanced_width bal0, d0⟩
    · exact ⟨balanced_width bal1, d1⟩
    · exact ⟨balanced_width bal2, d2⟩
    · exact ⟨balanced_width bal3, d3⟩
    · exact ⟨balanced_width bal4, d4⟩
    · exact ⟨balanced_width bal5, d5⟩
    · exact ⟨balanced_width bal6, d6⟩
  · rw [hrow]
    have : ([' '] : Str).intercalate [b0, b1, b2, b3, b4, b5, b6] =
        b0 ++ ([' '] ++ (b1 ++ ([' '] ++ (b2 ++ ([' '] ++ (b3 ++ ([' '] ++ (b4 ++ ([' '] ++
          (b5 ++ ([' '] ++ b6))))))))))) := by
      simp [List.intercalate, List.intersperse]
    rw [this]
    exact balanced_append bal0 (balanced_append hs (balanced_append bal1 (balanced_append hs
      (balanced_append bal2 (balanced_append hs (balanced_append bal3 (balanced_append hs
      (balanced_append bal4 (balanced_append hs (balanced_append bal5
      (balanced_append hs bal6)))))))))))

/-- Every week row of a grid built by `get_month_data` takes 20 display
columns. -/
theorem month_rows_balanced (colors : ColorConfig) (events : EventMap)
    (y m ty tm td : Int) (b : Bool) (hm : 1 ≤ m ∧ m ≤ 12)
    (hc : colors_are_styles colors = true) (data : MonthData)
    (hdata : get_month_data colors events y m ty tm td b = some data) :
    ∀ row ∈ data.weeks, balanced 20 row := by
  obtain ⟨data2, dim, hdata2, hdim, hlo, hhi, hweeks⟩ :=
    get_month_data_some colors events y m ty tm td b hm
  rw [hdata] at hdata2
  cases hdata2
  intro row hrow
  rw [hweeks, List.mem_map] at hrow
  obtain ⟨week, _, rfl⟩ := hrow
  obtain ⟨_, _, _, _, h⟩ :=
    week_str_cells colors events y m ty tm td b (weekday y m 1 b) dim week hc hhi
  exact h

/-- The digits written by `Nat.toDigitsCore` are not the escape character. -/
theorem toDigitsCore_no_escape (fuel n : Nat) (ds : List Char)
    (h : ∀ c ∈ ds, c ≠ '\x1b') : ∀ c ∈ Nat.toDigitsCore 10 fuel n ds, c ≠ '\x1b' := by
  induction fuel generalizing n ds with
  | zero => simpa [Nat.toDigitsCore] using h
  | succ k ih =>
    have hd : ∀ j : Fin 10, Nat.digitChar j.val ≠ '\x1b' := by decide
    have hc : Nat.digitChar (n % 10) ≠ '\x1b' := hd ⟨n % 10, Nat.mod_lt _ (by decide)⟩
    have h2 : ∀ c ∈ Nat.digitChar (n % 10) :: ds, c ≠ '\x1b' := by
      intro c hmem
      rcases List.mem_cons.mp hmem with e | e
      · rw [e]; exact hc
      · exact h c e
    unfold Nat.toDigitsCore
    simp only []
    split
    · exact h2
    · exact ih _ _ h2

/-- The text of an `int` has no escape character. -/
theorem to_string_no_escape (n : Int) : ∀ c ∈ to_string n, c ≠ '\x1b' := by
  unfold to_string
  split
  · intro c hc
    rcases List.mem_cons.mp hc with e | e
    · rw [e]; decide
    · exact toDigitsCore_no_escape _ _ [] (by simp) c e
  · exact toDigitsCore_no_escape _ _ [] (by simp)

/-- A run of spaces takes as many columns as it has spaces. -/
theorem balanced_spaces (n : Nat) : balanced n (List.replicate n ' ') := by
  have := balanced_plain (List.replicate n ' ') (by
    intro c hc
    rw [List.eq_of_mem_replicate hc]
    decide)
  rwa [List.length_replicate] at this

/-- The short month names have no escape character. -/
theorem month_names_plain : ∀ name ∈ get_month_data.names, ∀ c ∈ name, c ≠ '\x1b' := by
  decide

/-- The header built by `get_month_data` for a month in 1..12. -/
theorem get_month_data_header (colors : ColorConfig) (events : EventMap)
    (y m ty tm td : Int) (b : Bool) (hm : 1 ≤ m ∧ m ≤ 12) :
    ∃ data name, get_month_data colors events y m ty tm td b = some data ∧
      array_get get_month_data.names (m - 1) = some name ∧ name ∈ get_month_data.names ∧
      data.header =
        List.replicate ((20 - ((name ++ ' ' :: to_string y).take 20).length) / 2) ' ' ++
          get_month_color colors m ++ (name ++ ' ' :: to_string y).take 20 ++ RESET ++
          List.replicate (20 - ((name ++ ' ' :: to_string y).take 20).length -
            (20 - ((name ++ ' ' :: to_string y).take 20).length) / 2) ' ' := by
  obtain ⟨dim, hdim, hlo, hhi⟩ := days_in_month_some y m hm
  have hn : ∃ name, array_get get_month_data.names (m - 1) = some name ∧
      name ∈ get_month_data.names := by
    obtain ⟨h1, h2⟩ := hm
    have h : m = 1 ∨ m = 2 ∨ m = 3 ∨ m = 4 ∨ m = 5 ∨ m = 6 ∨ m = 7 ∨ m = 8 ∨ m = 9 ∨
        m = 10 ∨ m = 11 ∨ m = 12 := by omega
    rcases h with h | h | h | h | h | h | h | h | h | h | h | h <;> subst h <;>
      simp [array_get, get_month_data.names]
  obtain ⟨name, hname, hmem⟩ := hn
  cases hg : get_month_data colors events y m ty tm td b with
  | none =>
    unfold get_month_data at hg
    simp only [hname, hdim] at hg
    cases hg
  | some data =>
    refine ⟨data, name, rfl, hname, hmem, ?_⟩
    unfold get_month_data at hg
    simp only [hname, hdim] at hg
    cases hg
    simp only []
    have e : " ".toList = [' '] := rfl
    rw [e]
    have e2 : name ++ [' '] ++ to_string y = name ++ ' ' :: to_string y := by simp
    rw [e2]
    generalize name ++ ' ' :: to_string y = text
    by_cases hlen : ((text.length : Nat) : Int) > 20
    · simp only [if_pos hlen]
      have h20 : (text.take 20).length = 20 := by
        rw [List.length_take]
        omega
      rw [h20]
      rfl
    · simp only [if_neg hlen]
      have ht : text.take 20 = text := List.take_of_length_le (by omega)
      rw [ht]
      have hp : (cdiv (20 - (text.length : Int)) 2).toNat = (20 - text.length) / 2 := by
        rw [cdiv_of_nonneg (by omega) (by omega)]
        omega
      have hq : (20 - (text.length : Int) - cdiv (20 - (text.length : Int)) 2).toNat =
          20 - text.length - (20 - text.length) / 2 := by
        rw [cdiv_of_nonneg (by omega) (by omega)]
        omega
      rw [hp, hq]

/-- A loop over numbered items that appends each item and a space after all
but the last yields the items separated by single spaces. -/
theorem foldl_enumFrom_sep {α : Type} (f : α → Str) (l : List α) (k n : Nat) (acc : Str)
    (hn : n = k + l.length) :
    (l.enumFrom k).foldl
      (fun (out : Str) (im : Nat × α) =>
        out ++ (f im.2 ++ (if im.1 < n - 1 then [' '] else []))) acc =
      acc ++ ([' '] : Str).intercalate (l.map f) := by
  induction l generalizing k acc with
  | nil => simp [List.intercalate]
  | cons x xs ih =>
    simp only [List.enumFrom_cons, List.foldl_cons]
    rw [ih (k + 1) _ (by simp only [List.length_cons] at hn; omega)]
    cases xs with
    | nil =>
      have : ¬ (k < n - 1) := by simp only [List.length_cons, List.length_nil] at hn; omega
      simp [List.intercalate, this]
    | cons z zs =>
      have : k < n - 1 := by simp only [List.length_cons] at hn; omega
      simp [List.intercalate, this]

/-- The maximum found by `print_month_horizontal`, from a starting value. -/
theorem foldl_max_weeks (months : List MonthData) (init : Nat) :
    init ≤ months.foldl
        (fun (max_weeks : Nat) (month : MonthData) => max max_weeks month.weeks.length) init ∧
    (∀ month ∈ months, month.weeks.length ≤ months.foldl
        (fun (max_weeks : Nat) (month : MonthData) => max max_weeks month.weeks.length) init) ∧
    (months.foldl
        (fun (max_weeks : Nat) (month : MonthData) => max max_weeks month.weeks.length) init
          = init ∨
      ∃ month ∈ months, month.weeks.length = months.foldl
        (fun (max_weeks : Nat) (month : MonthData) => max max_weeks month.weeks.length) init) := by
  induction months generalizing init with
  | nil => simp
  | cons x xs ih =>
    simp only [List.foldl_cons]
    obtain ⟨h1, h2, h3⟩ := ih (max init x.weeks.length)
    refine ⟨by omega, ?_, ?_⟩
    · intro month hmem
      rcases List.mem_cons.mp hmem with e | e
      · subst e
        omega
      · exact h2 month e
    · rcases h3 with h | ⟨month, hmem, h⟩
      · rcases Nat.le_total init x.weeks.length with hle | hle
        · right
          exact ⟨x, List.mem_cons_self _ _, by rw [h]; omega⟩
        · left
          rw [h]
          omega
      · right
        exact ⟨month, List.mem_cons_of_mem _ hmem, h⟩

/-- The number of body lines of `print_month_horizontal` is the largest
number of weeks among the months. -/
theorem max_weeks_spec (months : List MonthData) (hne : months ≠ []) :
    (∀ month ∈ months, month.weeks.length ≤ print_month_horizontal.max_weeks months) ∧
    ∃ month ∈ months, month.weeks.length = print_month_horizontal.max_weeks months := by
  unfold print_month_horizontal.max_weeks
  obtain ⟨h1, h2, h3⟩ := foldl_max_weeks months 0
  refine ⟨h2, ?_⟩
  rcases h3 with h | h
  · cases months with
    | nil => exact absurd rfl hne
    | cons x xs =>
      refine ⟨x, List.mem_cons_self _ _, ?_⟩
      have := h2 x (List.mem_cons_self _ _)
      omega
  · exact h

/-- One body line of `print_month_horizontal`: the week rows of the months,
or 20 spaces, separated by single spaces, then the line break. -/
theorem week_line_eq (months : List MonthData) (week : Nat) :
    print_month_horizontal.week_line months week =
      ([' '] : Str).intercalate (months.map (fun month =>
        if week < month.weeks.length then month.weeks.getD week []
        else List.replicate 20 ' ')) ++ ['\n'] := by
  unfold print_month_horizontal.week_line
  have e : "\n".toList = ['\n'] := rfl
  rw [e]
  congr 1
  have := foldl_enumFrom_sep (fun month : MonthData =>
      if week < month.weeks.length then month.weeks.getD week []
      else List.replicate 20 ' ') months 0 months.length [] (by simp)
  simp only [List.nil_append] at this
  rw [← this]
  rfl

/-- Texts of the same width separated by single spaces. -/
theorem balanced_intercalate (w : Nat) (l : List Str) (h : ∀ s ∈ l, balanced w s)
    (hne : l ≠ []) :
    balanced ((w + 1) * l.length - 1) (([' '] : Str).intercalate l) := by
  induction l with
  | nil => exact absurd rfl hne
  | cons x xs ih =>
    cases xs with
    | nil =>
      have := h x (List.mem_cons_self _ _)
      simpa [List.intercalate] using this
    | cons z zs =>
      have hx := h x (List.mem_cons_self _ _)
      have ht := ih (fun s hs => h s (List.mem_cons_of_mem _ hs)) (by simp)
      have hs : balanced 1 [' '] := ⟨rfl, rfl⟩
      have e : ([' '] : Str).intercalate (x :: z :: zs) =
          x ++ ([' '] ++ ([' '] : Str).intercalate (z :: zs)) := by
        simp [List.intercalate]
      rw [e]
      have := balanced_append hx (balanced_append hs ht)
      have e2 : w + (1 + ((w + 1) * (z :: zs).length - 1)) =
          (w + 1) * (x :: z :: zs).length - 1 := by
        simp only [List.length_cons]
        have : (w + 1) * (zs.length + 1 + 1) = (w + 1) * (zs.length + 1) + (w + 1) := by ring
        have : 1 ≤ (w + 1) * (zs.length + 1) := Nat.mul_pos (by omega) (by omega)
        omega
      rw [← e2]
      exact this

/-- The indentation loop of `print_month_vertical` writes three spaces for
each column before the first day. -/
theorem foldl_indent (n : Nat) (acc : Str) :
    (List.range n).foldl (fun (out : Str) (_ : Nat) => out ++ "   ".toList) acc =
      acc ++ List.replicate (3 * n) ' ' := by
  induction n with
  | zero => simp
  | succ k ih =>
    rw [List.range_succ, List.foldl_append, ih]
    have e : "   ".toList = List.replicate 3 ' ' := rfl
    simp only [List.foldl_cons, List.foldl_nil, e, List.append_assoc, List.append_cancel_left_eq]
    rw [← List.replicate_add]
    congr 1

/-- The output of `print_month_vertical` for a month in 1..12: the two
header lines, the indentation, the days 1 .. days_in_month in increasing
order and a line break. -/
theorem print_month_vertical_eq (colors : ColorConfig) (events : EventMap)
    (y m ty tm td : Int) (b : Bool) (hm : 1 ≤ m ∧ m ≤ 12) :
    ∃ (head : Str) (dim : Int), days_in_month y m = some dim ∧ 28 ≤ dim ∧ dim ≤ 31 ∧
      head.getLast? = some '\n' ∧
      print_month_vertical colors events y m ty tm td b =
        some (head ++ List.replicate (3 * (weekday y m 1 b).toNat) ' ' ++
          ((List.range dim.toNat).map (fun (i : Nat) =>
            print_month_vertical.day colors events y m ty tm td b ((i : Int) + 1))).flatten
          ++ ['\n']) := by
  obtain ⟨dim, hdim, hlo, hhi⟩ := days_in_month_some y m hm
  have hn : ∃ name, array_get print_month_vertical.names (m - 1) = some name := by
    obtain ⟨h1, h2⟩ := hm
    have h : m = 1 ∨ m = 2 ∨ m = 3 ∨ m = 4 ∨ m = 5 ∨ m = 6 ∨ m = 7 ∨ m = 8 ∨ m = 9 ∨
        m = 10 ∨ m = 11 ∨ m = 12 := by omega
    rcases h with h | h | h | h | h | h | h | h | h | h | h | h <;> subst h <;>
      simp [array_get, print_month_vertical.names]
  obtain ⟨name, hname⟩ := hn
  unfold print_month_vertical
  simp only [hname, hdim]
  rw [foldl_append_eq_flatten, foldl_indent]
  refine ⟨_, dim, rfl, hlo, hhi, ?_, rfl⟩
  have e : "\n".toList = ['\n'] := rfl
  split <;> rw [e] <;> exact List.getLast?_concat _

/-- The grid returned by `get_month_data` records the year and the month it
was asked for. -/
theorem get_month_data_year_month (colors : ColorConfig) (events : EventMap)
    (y m ty tm td : Int) (b : Bool) (data : MonthData)
    (h : get_month_data colors events y m ty tm td b = some data) :
    data.year = y ∧ data.month = m := by
  unfold get_month_data at h
  simp only [] at h
  split at h
  · cases h
  · split at h
    · cases h
    · cases h
      exact ⟨rfl, rfl⟩

/-- An exact result in the range of `int` is the result of the machine. -/
theorem int_wrap_of_range (x : Int) (h : -2147483648 ≤ x ∧ x ≤ 2147483647) :
    int_wrap x = x := by
  unfold int_wrap
  omega

/-- The result of the machine is always in the range of `int`. -/
theorem int_wrap_range (x : Int) : -2147483648 ≤ int_wrap x ∧ int_wrap x ≤ 2147483647 := by
  unfold int_wrap
  omega

/-- The month at row `row`, column `col` of the twelve-month view, for a
start month in 1..12 and a start year that is an `int`, below 2147483647
when a year is carried: the offset `3 * row + col` is added to the start
month and the years are carried. -/
theorem month_at_eq (y s : Int) (row col : Nat) (hs : 1 ≤ s ∧ s ≤ 12)
    (hk : 3 * row + col < 12)
    (hy : -2147483648 ≤ y ∧ y ≤ 2147483647) (hhi : 1 < s → y < 2147483647) :
    print_twelve_months.month_at y s row col =
      (y + (s - 1 + ((3 * row + col : Nat) : Int)) / 12,
        (s - 1 + ((3 * row + col : Nat) : Int)) % 12 + 1) := by
  unfold print_twelve_months.month_at
  simp only []
  have e : s + ((row : Int) * 3 + (col : Int)) - 1 = s - 1 + ((3 * row + col : Nat) : Int) := by
    push_cast
    ring
  rw [int_wrap_of_range (s + ((row : Int) * 3 + (col : Int))) (by omega),
    int_wrap_of_range (s + ((row : Int) * 3 + (col : Int)) - 1) (by omega),
    cdiv_of_nonneg (by omega) (by omega), cmod_of_nonneg (by omega) (by omega), e]
  rw [int_wrap_of_range _ (by omega)]

/-- The three-month branch of `main` for a month in 1..12: the three grids
exist and are shown side by side, the year before and the year after being
the results of the machine. -/
theorem three_months_eq (colors : ColorConfig) (events : EventMap)
    (y m d : Int) (b : Bool) (hm : 1 ≤ m ∧ m ≤ 12) :
    ∃ prev cur next : MonthData,
      get_month_data colors events (if m > 1 then y else int_wrap (y - 1))
        (if m > 1 then m - 1 else 12) y m d b = some prev ∧
      get_month_data colors events y m y m d b = some cur ∧
      get_month_data colors events (if m < 12 then y else int_wrap (y + 1))
        (if m < 12 then m + 1 else 1) y m d b = some next ∧
      main.three_months colors events y m d b =
        some (print_month_horizontal colors [prev, cur, next] b) ∧
      (prev.year = (if m > 1 then y else int_wrap (y - 1)) ∧
        prev.month = (if m > 1 then m - 1 else 12)) ∧
      (cur.year = y ∧ cur.month = m) ∧
      (next.year = (if m < 12 then y else int_wrap (y + 1)) ∧
        next.month = (if m < 12 then m + 1 else 1)) := by
  have hpm : 1 ≤ (if m > 1 then m - 1 else 12) ∧ (if m > 1 then m - 1 else 12) ≤ 12 := by
    split <;> omega
  have hnm : 1 ≤ (if m < 12 then m + 1 else 1) ∧ (if m < 12 then m + 1 else 1) ≤ 12 := by
    split <;> omega
  obtain ⟨prev, _, hprev, _⟩ := get_month_data_some colors events
    (if m > 1 then y else int_wrap (y - 1)) (if m > 1 then m - 1 else 12) y m d b hpm
  obtain ⟨cur, _, hcur, _⟩ := get_month_data_some colors events y m y m d b hm
  obtain ⟨next, _, hnext, _⟩ := get_month_data_some colors events
    (if m < 12 then y else int_wrap (y + 1)) (if m < 12 then m + 1 else 1) y m d b hnm
  have w1 : int_wrap (m - 1) = m - 1 := int_wrap_of_range _ (by omega)
  have w2 : int_wrap (m + 1) = m + 1 := int_wrap_of_range _ (by omega)
  have e1 : (if m = 1 then 12 else int_wrap (m - 1)) = (if m > 1 then m - 1 else 12) := by
    rw [w1]
    split <;> split <;> omega
  have e2 : (if m = 1 then int_wrap (y - 1) else y) =
      (if m > 1 then y else int_wrap (y - 1)) := by
    split <;> split <;> first | rfl | omega
  have e3 : (if m = 12 then 1 else int_wrap (m + 1)) = (if m < 12 then m + 1 else 1) := by
    rw [w2]
    split <;> split <;> omega
  have e4 : (if m = 12 then int_wrap (y + 1) else y) =
      (if m < 12 then y else int_wrap (y + 1)) := by
    split <;> split <;> first | rfl | omega
  have h3 : main.three_months colors events y m d b =
      some (print_month_horizontal colors [prev, cur, next] b) := by
    unfold main.three_months
    simp only [e1, e2, e3, e4, hprev, hcur, hnext]
  have yp := get_month_data_year_month _ _ _ _ _ _ _ _ _ hprev
  have yc := get_month_data_year_month _ _ _ _ _ _ _ _ _ hcur
  have yn := get_month_data_year_month _ _ _ _ _ _ _ _ _ hnext
  exact ⟨prev, cur, next, hprev, hcur, hnext, h3, yp, yc, yn⟩

/-- A row of the twelve-month view, when its three grids exist. -/
theorem twelve_months_row_eq (colors : ColorConfig) (events : EventMap)
    (y s ty tm td : Int) (b : Bool) (row : Nat) (d0 d1 d2 : MonthData)
    (h0 : get_month_data colors events (print_twelve_months.month_at y s row 0).1
      (print_twelve_months.month_at y s row 0).2 ty tm td b = some d0)
    (h1 : get_month_data colors events (print_twelve_months.month_at y s row 1).1
      (print_twelve_months.month_at y s row 1).2 ty tm td b = some d1)
    (h2 : get_month_data colors events (print_twelve_months.month_at y s row 2).1
      (print_twelve_months.month_at y s row 2).2 ty tm td b = some d2) :
    print_twelve_months.row colors events y s ty tm td b row =
      some (print_month_horizontal colors [d0, d1, d2] b ++ ['\n']) := by
  unfold print_twelve_months.row
  have hr : List.range 3 = [0, 1, 2] := by decide
  rw [hr]
  simp only [List.mapM_cons, List.mapM_nil, h0, h1, h2]
  rfl

/-- One line leaves the event index as it is, or, when it is an accepted
event line, appends its event under the key of its month and day. -/
theorem step_accepted (st : LoadState) (line : Str) :
    (accepted_event st line = none ∧ (load_events.step st line).events = st.events) ∨
    ∃ event : Event, accepted_event st line = some event ∧
      (load_events.step st line).events =
        events_push_back st.events (event_key event.month event.day) event ∧
      (1 ≤ event.month ∧ event.month ≤ 12) ∧ (1 ≤ event.day ∧ event.day ≤ 31) := by
  unfold accepted_event load_events.step
  simp only []
  split
  · exact Or.inl ⟨rfl, rfl⟩
  · split
    · exact Or.inl ⟨rfl, rfl⟩
    · split
      · exact Or.inl ⟨rfl, color_line_events st _⟩
      · generalize trim_right (trim_left line) = tline
        obtain ⟨hout, hin⟩ := event_line_eq st tline
        split
        · rename_i h
          right
          refine ⟨_, rfl, ?_, ⟨h.1, h.2.1⟩, ⟨h.2.2.1, h.2.2.2⟩⟩
          rw [hin h]
        · rename_i h
          left
          rw [hout h]
          exact ⟨rfl, rfl⟩

/-- The key text of a month 1..12 and a day 1..31, with either separator and
with or without leading zeros, is read back by `parse_date`. -/
theorem parse_date_of_text (m d : Nat) (hm : 1 ≤ m ∧ m ≤ 12) (hd : 1 ≤ d ∧ d ≤ 31)
    (sep : Char) (hsep : sep = '/' ∨ sep = '-') (zm zd : Bool) :
    parse_date (((if zm then ['0'] else []) ++ to_string (m : Int)) ++
      sep :: ((if zd then ['0'] else []) ++ to_string (d : Int))) = ((m : Int), (d : Int)) := by
  obtain ⟨hm1, hm2, hm3⟩ := month_text_facts ⟨m, by omega⟩ zm hm.1
  obtain ⟨hd1, hd2⟩ := day_text_facts ⟨d, by omega⟩ zd hd.1
  simp only [] at hm1 hm2 hm3 hd1 hd2
  generalize (if zm then ['0'] else []) ++ to_string (m : Int) = A at *
  generalize (if zd then ['0'] else []) ++ to_string (d : Int) = B at *
  have htake : (A ++ sep :: B).take A.length = A := by simp
  have hdrop : (A ++ sep :: B).drop (A.length + 1) = B := by simp
  obtain ⟨_, hp⟩ := parse_date_eq (A ++ sep :: B)
  rcases hsep with h | h
  · subst h
    have hf := str_find_append_sep A B '/' hm2
    have := ((hp '/' A.length (Or.inl ⟨rfl, hf⟩)).2 m (by rw [htake]; exact hm1)).2 d
      (by rw [hdrop]; exact hd1)
    exact this
  · subst h
    have hf := str_find_append_sep A B '-' hm3
    have hn := str_find_append_none A B '-' '/' hm2 (by decide) hd2
    have := ((hp '-' A.length (Or.inr ⟨rfl, hn, hf⟩)).2 m (by rw [htake]; exact hm1)).2 d
      (by rw [hdrop]; exact hd1)
    exact this

/-- Two days in range with the same key are the same day. -/
theorem event_key_injective (m d m2 d2 : Int) (hm : 1 ≤ m ∧ m ≤ 12) (hd : 1 ≤ d ∧ d ≤ 31)
    (hm2 : 1 ≤ m2 ∧ m2 ≤ 12) (hd2 : 1 ≤ d2 ∧ d2 ≤ 31)
    (h : event_key m2 d2 = event_key m d) : m2 = m ∧ d2 = d := by
  have key : ∀ a c : Int, 1 ≤ a ∧ a ≤ 12 → 1 ≤ c ∧ c ≤ 31 →
      parse_date (event_key a c) = (a, c) := by
    intro a c ha hc
    obtain ⟨an, rfl⟩ : ∃ an : Nat, a = an := ⟨a.toNat, by omega⟩
    obtain ⟨cn, rfl⟩ : ∃ cn : Nat, c = cn := ⟨c.toNat, by omega⟩
    have := parse_date_of_text an cn (by omega) (by omega) '-' (Or.inr rfl) false false
    simpa [event_key] using this
  have h1 := key m d hm hd
  have h2 := key m2 d2 hm2 hd2
  rw [h, h1] at h2
  simp only [Prod.mk.injEq] at h2
  exact ⟨h2.1.symm, h2.2.symm⟩

/-- The events of a day after `events[key].push_back(event)` under the key
of another day. -/
theorem get_events_push_back_other (events : EventMap) (m d : Int) (key : Str)
    (event : Event) (h : event_key m d ≠ key) :
    get_events (events_push_back events key event) m d = get_events events m d := by
  unfold get_events
  simp only []
  rw [events_find_push_back_other events key (event_key m d) event h]

/-- The events of a day in range after reading lines from a state: those it
had, then the accepted events of that day in reading order. -/
theorem get_events_foldl (lines : List Str) (st : LoadState) (m d : Int)
    (hm : 1 ≤ m ∧ m ≤ 12) (hd : 1 ≤ d ∧ d ≤ 31) :
    get_events (lines.foldl load_events.step st).events m d =
      get_events st.events m d ++
        (accepted_events st lines).filter (fun e => decide (e.month = m ∧ e.day = d)) := by
  induction lines generalizing st with
  | nil => simp [accepted_events]
  | cons line rest ih =>
    simp only [List.foldl_cons, accepted_events, List.filter_append]
    rw [ih, ← List.append_assoc]
    congr 1
    rcases step_accepted st line with ⟨h1, h2⟩ | ⟨event, h1, h2, hr1, hr2⟩
    · rw [h1, h2]
      simp
    · rw [h1, h2]
      by_cases he : event.month = m ∧ event.day = d
      · rw [he.1, he.2, get_events_push_back]
        simp [he]
      · have hk : event_key m d ≠ event_key event.month event.day := by
          intro hk
          have := event_key_injective event.month event.day m d hr1 hr2 hm hd hk
          exact he ⟨this.1.symm, this.2.symm⟩
        rw [get_events_push_back_other _ _ _ _ _ hk]
        simp [he]

/-- In the index built by reading lines, every event is stored under the key
of its own month and day, which are in range, and no key holds an empty
list; the property is kept by each line. -/
theorem stored_under_own_key_step (st : LoadState) (line : Str)
    (h : ∀ key v, events_find st.events key = some v →
      v ≠ [] ∧ ∀ e ∈ v, key = event_key e.month e.day ∧
        (1 ≤ e.month ∧ e.month ≤ 12) ∧ (1 ≤ e.day ∧ e.day ≤ 31)) :
    ∀ key v, events_find (load_events.step st line).events key = some v →
      v ≠ [] ∧ ∀ e ∈ v, key = event_key e.month e.day ∧
        (1 ≤ e.month ∧ e.month ≤ 12) ∧ (1 ≤ e.day ∧ e.day ≤ 31) := by
  rcases step_accepted st line with ⟨_, h2⟩ | ⟨event, _, h2, hr1, hr2⟩
  · rw [h2]
    exact h
  · rw [h2]
    intro key v hv
    by_cases hk : key = event_key event.month event.day
    · subst hk
      rw [events_find_push_back_same] at hv
      cases hv
      refine ⟨by simp, ?_⟩
      intro e he
      rcases List.mem_append.mp he with he | he
      · cases hf : events_find st.events (event_key event.month event.day) with
        | none => rw [hf] at he; simp at he
        | some v0 =>
          rw [hf] at he
          exact (h _ v0 hf).2 e he
      · rw [List.mem_singleton] at he
        subst he
        exact ⟨rfl, hr1, hr2⟩
    · rw [events_find_push_back_other _ _ _ _ hk] at hv
      exact h key v hv

/-- The property kept by each line holds after any sequence of lines. -/
theorem stored_under_own_key (lines : List Str) (st : LoadState)
    (h : ∀ key v, events_find st.events key = some v →
      v ≠ [] ∧ ∀ e ∈ v, key = event_key e.month e.day ∧
        (1 ≤ e.month ∧ e.month ≤ 12) ∧ (1 ≤ e.day ∧ e.day ≤ 31)) :
    ∀ key v, events_find (lines.foldl load_events.step st).events key = some v →
      v ≠ [] ∧ ∀ e ∈ v, key = event_key e.month e.day ∧
        (1 ≤ e.month ∧ e.month ≤ 12) ∧ (1 ≤ e.day ∧ e.day ≤ 31) := by
  induction lines generalizing st with
  | nil => exact h
  | cons line rest ih =>
    simp only [List.foldl_cons]
    exact ih _ (stored_under_own_key_step st line h)

/-- Lower-casing both strings keeps an occurrence. -/
theorem str_contains_to_lower (s sub : Str) (h : str_contains s sub = true) :
    str_contains (to_lower s) (to_lower sub) = true := by
  unfold str_contains at h ⊢
  rw [List.any_eq_true] at h ⊢
  obtain ⟨t, ht, hp⟩ := h
  refine ⟨to_lower t, ?_, ?_⟩
  · rw [List.mem_tails] at ht ⊢
    exact List.IsSuffix.map _ ht
  · rw [List.isPrefixOf_iff_prefix] at hp ⊢
    exact List.IsPrefix.map _ hp

/-- The category of an event read outside the six named sections, from the
three spellings of each word that the source looks for. -/
theorem event_type_of_description (current_section description : Str)
    (hsec : ¬ (current_section = "holidays".toList ∨ current_section = "holiday".toList) ∧
      ¬ (current_section = "birthdays".toList ∨ current_section = "birthday".toList) ∧
      ¬ (current_section = "reminders".toList ∨ current_section = "reminder".toList)) :
    load_events.event_type current_section description =
      (if str_contains description "birthday".toList ∨
          str_contains description "Birthday".toList ∨
          str_contains description "BIRTHDAY".toList then EventType.BIRTHDAY
       else if str_contains description "holiday".toList ∨
          str_contains description "Holiday".toList ∨
          str_contains description "HOLIDAY".toList then EventType.HOLIDAY
       else EventType.REMINDER) := by
  unfold load_events.event_type
  rw [if_neg hsec.1, if_neg hsec.2.1, if_neg hsec.2.2]

/-- The chain of comparisons of `get_color_code` is a lookup of the
lower-cased name in the colour table. -/
theorem get_color_code_eq_lookup (color_name : Str) :
    get_color_code color_name = color_lookup color_table (to_lower color_name) := by
  unfold get_color_code color_table
  simp only [color_lookup]
  generalize to_lower color_name = l
  by_cases h0 : l = "red".toList
  · rw [if_pos h0, if_pos h0]
  rw [if_neg h0, if_neg h0]
  by_cases h1 : l = "blue".toList
  · rw [if_pos h1, if_pos h1]
  rw [if_neg h1, if_neg h1]
  by_cases h2 : l = "green".toList
  · rw [if_pos h2, if_pos h2]
  rw [if_neg h2, if_neg h2]
  by_cases h3 : l = "yellow".toList
  · rw [if_pos h3, if_pos h3]
  rw [if_neg h3, if_neg h3]
  by_cases h4 : l = "magenta".toList
  · rw [if_pos h4, if_pos h4]
  rw [if_neg h4, if_neg h4]
  by_cases h5 : l = "cyan".toList
  · rw [if_pos h5, if_pos h5]
  rw [if_neg h5, if_neg h5]
  by_cases h6 : l = "black".toList
  · rw [if_pos h6, if_pos h6]
  rw [if_neg h6, if_neg h6]
  by_cases h7 : l = "white".toList
  · rw [if_pos h7, if_pos h7]
  rw [if_neg h7, if_neg h7]
  by_cases h8 : l = "bright_red".toList
  · rw [if_pos h8, if_pos h8]
  rw [if_neg h8, if_neg h8]
  by_cases h9 : l = "bright_green".toList
  · rw [if_pos h9, if_pos h9]
  rw [if_neg h9, if_neg h9]
  by_cases h10 : l = "bright_yellow".toList
  · rw [if_pos h10, if_pos h10]
  rw [if_neg h10, if_neg h10]
  by_cases h11 : l = "bright_blue".toList
  · rw [if_pos h11, if_pos h11]
  rw [if_neg h11, if_neg h11]
  by_cases h12 : l = "bright_magenta".toList
  · rw [if_pos h12, if_pos h12]
  rw [if_neg h12, if_neg h12]
  by_cases h13 : l = "bright_cyan".toList
  · rw [if_pos h13, if_pos h13]
  rw [if_neg h13, if_neg h13]
  by_cases h14 : l = "bright_white".toList
  · rw [if_pos h14, if_pos h14]
  rw [if_neg h14, if_neg h14]
  by_cases h15 : l = "orange".toList
  · rw [if_pos h15, if_pos h15]
  rw [if_neg h15, if_neg h15]
  by_cases h16 : l = "purple".toList
  · rw [if_pos h16, if_pos h16]
  rw [if_neg h16, if_neg h16]
  by_cases h17 : l = "pink".toList
  · rw [if_pos h17, if_pos h17]
  rw [if_neg h17, if_neg h17]
  by_cases h18 : l = "brown".toList
  · rw [if_pos h18, if_pos h18]
  rw [if_neg h18, if_neg h18]
  by_cases h19 : l = "gray".toList
  · rw [if_pos (Or.inl h19), if_pos h19]
  by_cases h20 : l = "grey".toList
  · rw [if_pos (Or.inr h20), if_neg h19, if_pos h20]
  rw [if_neg (not_or.mpr ⟨h19, h20⟩), if_neg h19, if_neg h20]
  by_cases h21 : l = "dark_red".toList
  · rw [if_pos h21, if_pos h21]
  rw [if_neg h21, if_neg h21]
  by_cases h22 : l = "dark_green".toList
  · rw [if_pos h22, if_pos h22]
  rw [if_neg h22, if_neg h22]
  by_cases h23 : l = "dark_blue".toList
  · rw [if_pos h23, if_pos h23]
  rw [if_neg h23, if_neg h23]
  by_cases h24 : l = "light_red".toList
  · rw [if_pos h24, if_pos h24]
  rw [if_neg h24, if_neg h24]
  by_cases h25 : l = "light_green".toList
  · rw [if_pos h25, if_pos h25]
  rw [if_neg h25, if_neg h25]
  by_cases h26 : l = "light_blue".toList
  · rw [if_pos h26, if_pos h26]
  rw [if_neg h26, if_neg h26]
  by_cases h27 : l = "gold".toList
  · rw [if_pos h27, if_pos h27]
  rw [if_neg h27, if_neg h27]
  by_cases h28 : l = "silver".toList
  · rw [if_pos h28, if_pos h28]
  rw [if_neg h28, if_neg h28]
  by_cases h29 : l = "lime".toList
  · rw [if_pos h29, if_pos h29]
  rw [if_neg h29, if_neg h29]
  by_cases h30 : l = "navy".toList
  · rw [if_pos h30, if_pos h30]
  rw [if_neg h30, if_neg h30]
  by_cases h31 : l = "maroon".toList
  · rw [if_pos h31, if_pos h31]
  rw [if_neg h31, if_neg h31]
  by_cases h32 : l = "olive".toList
  · rw [if_pos h32, if_pos h32]
  rw [if_neg h32, if_neg h32]
  by_cases h33 : l = "teal".toList
  · rw [if_pos h33, if_pos h33]
  rw [if_neg h33, if_neg h33]
  by_cases h34 : l = "aqua".toList
  · rw [if_pos h34, if_pos h34]
  rw [if_neg h34, if_neg h34]
  by_cases h35 : l = "fuchsia".toList
  · rw [if_pos h35, if_pos h35]
  rw [if_neg h35, if_neg h35]
  by_cases h36 : l = "dark_gray".toList
  · rw [if_pos (Or.inl h36), if_pos h36]
  by_cases h37 : l = "dark_grey".toList
  · rw [if_pos (Or.inr h37), if_neg h36, if_pos h37]
  rw [if_neg (not_or.mpr ⟨h36, h37⟩), if_neg h36, if_neg h37]
  by_cases h38 : l = "charcoal".toList
  · rw [if_pos h38, if_pos h38]
  rw [if_neg h38, if_neg h38]
  by_cases h39 : l = "slate".toList
  · rw [if_pos h39, if_pos h39]
  rw [if_neg h39, if_neg h39]
  by_cases h40 : l = "steel".toList
  · rw [if_pos h40, if_pos h40]
  rw [if_neg h40, if_neg h40]
  by_cases h41 : l = "indigo".toList
  · rw [if_pos h41, if_pos h41]
  rw [if_neg h41, if_neg h41]
  by_cases h42 : l = "violet".toList
  · rw [if_pos h42, if_pos h42]
  rw [if_neg h42, if_neg h42]
  by_cases h43 : l = "crimson".toList
  · rw [if_pos h43, if_pos h43]
  rw [if_neg h43, if_neg h43]
  by_cases h44 : l = "forest".toList
  · rw [if_pos h44, if_pos h44]
  rw [if_neg h44, if_neg h44]
  by_cases h45 : l = "emerald".toList
  · rw [if_pos h45, if_pos h45]
  rw [if_neg h45, if_neg h45]
  by_cases h46 : l = "sapphire".toList
  · rw [if_pos h46, if_pos h46]
  rw [if_neg h46, if_neg h46]
  by_cases h47 : l = "amber".toList
  · rw [if_pos h47, if_pos h47]
  rw [if_neg h47, if_neg h47]
  by_cases h48 : l = "coral".toList
  · rw [if_pos h48, if_pos h48]
  rw [if_neg h48, if_neg h48]
  by_cases h49 : l = "rust".toList
  · rw [if_pos h49, if_pos h49]
  rw [if_neg h49, if_neg h49]
  by_cases h50 : l = "bronze".toList
  · rw [if_pos h50, if_pos h50]
  rw [if_neg h50, if_neg h50]
  by_cases h51 : l = "copper".toList
  · rw [if_pos h51, if_pos h51]
  rw [if_neg h51, if_neg h51]
  by_cases h52 : l = "chocolate".toList
  · rw [if_pos h52, if_pos h52]
  rw [if_neg h52, if_neg h52]
  by_cases h53 : l = "coffee".toList
  · rw [if_pos h53, if_pos h53]
  rw [if_neg h53, if_neg h53]
  by_cases h54 : l = "wine".toList
  · rw [if_pos h54, if_pos h54]
  rw [if_neg h54, if_neg h54]
  by_cases h55 : l = "plum".toList
  · rw [if_pos h55, if_pos h55]
  rw [if_neg h55, if_neg h55]
  by_cases h56 : l = "midnight".toList
  · rw [if_pos h56, if_pos h56]
  rw [if_neg h56, if_neg h56]
  by_cases h57 : l = "deep_blue".toList
  · rw [if_pos h57, if_pos h57]
  rw [if_neg h57, if_neg h57]
  by_cases h58 : l = "deep_green".toList
  · rw [if_pos h58, if_pos h58]
  rw [if_neg h58, if_neg h58]
  by_cases h59 : l = "deep_red".toList
  · rw [if_pos h59, if_pos h59]
  rw [if_neg h59, if_neg h59]
  by_cases h60 : l = "deep_purple".toList
  · rw [if_pos h60, if_pos h60]
  rw [if_neg h60, if_neg h60]
  by_cases h61 : l = "deep_orange".toList
  · rw [if_pos h61, if_pos h61]
  rw [if_neg h61, if_neg h61]
  by_cases h62 : l = "royal_blue".toList
  · rw [if_pos h62, if_pos h62]
  rw [if_neg h62, if_neg h62]
  by_cases h63 : l = "royal_purple".toList
  · rw [if_pos h63, if_pos h63]
  rw [if_neg h63, if_neg h63]
  by_cases h64 : l = "sea_green".toList
  · rw [if_pos h64, if_pos h64]
  rw [if_neg h64, if_neg h64]
  by_cases h65 : l = "sky_blue".toList
  · rw [if_pos h65, if_pos h65]
  rw [if_neg h65, if_neg h65]
  by_cases h66 : l = "rose".toList
  · rw [if_pos h66, if_pos h66]
  rw [if_neg h66, if_neg h66]
  by_cases h67 : l = "salmon".toList
  · rw [if_pos h67, if_pos h67]
  rw [if_neg h67, if_neg h67]
  by_cases h68 : l = "peach".toList
  · rw [if_pos h68, if_pos h68]
  rw [if_neg h68, if_neg h68]
  by_cases h69 : l = "mint".toList
  · rw [if_pos h69, if_pos h69]
  rw [if_neg h69, if_neg h69]
  by_cases h70 : l = "lavender".toList
  · rw [if_pos h70, if_pos h70]
  rw [if_neg h70, if_neg h70]
  by_cases h71 : l = "turquoise".toList
  · rw [if_pos h71, if_pos h71]
  rw [if_neg h71, if_neg h71]
  by_cases h72 : l = "none".toList
  · rw [if_pos (Or.inl h72), if_pos h72]
  by_cases h73 : l = "default".toList
  · rw [if_pos (Or.inr (Or.inl h73)), if_neg h72, if_pos h73]
  by_cases h74 : l = "".toList
  · rw [if_pos (Or.inr (Or.inr h74)), if_neg h72, if_neg h73, if_pos h74]
  rw [if_neg (not_or.mpr ⟨h72, not_or.mpr ⟨h73, h74⟩⟩), if_neg h72, if_neg h73, if_neg h74]
/-- Every name of the colour table is found with its own style. -/
theorem color_lookup_mem : ∀ entry ∈ color_table,
    color_lookup color_table entry.1 = entry.2 := by
  decide

/-- A name that is not in a table has the empty style. -/
theorem color_lookup_not_mem (table : List (Str × Str)) (name : Str)
    (h : name ∉ table.map Prod.fst) : color_lookup table name = [] := by
  induction table with
  | nil => rfl
  | cons entry rest ih =>
    simp only [List.map_cons, List.mem_cons, not_or] at h
    simp only [color_lookup]
    rw [if_neg h.1]
    exact ih h.2

/-- A lookup gives the empty style or the style of an entry. -/
theorem color_lookup_cases (table : List (Str × Str)) (name : Str) :
    color_lookup table name = [] ∨ ∃ entry ∈ table, color_lookup table name = entry.2 := by
  induction table with
  | nil => exact Or.inl rfl
  | cons entry rest ih =>
    simp only [color_lookup]
    split
    · exact Or.inr ⟨entry, List.mem_cons_self _ _, rfl⟩
    · rcases ih with h | ⟨e, he, h⟩
      · exact Or.inl h
      · exact Or.inr ⟨e, List.mem_cons_of_mem _ he, h⟩

/-- Every style of the colour table is a style. -/
theorem color_table_styles : ∀ entry ∈ color_table, is_style entry.2 = true := by
  decide

/-- The result of `get_color_code` is always a style. -/
theorem get_color_code_is_style (color_name : Str) :
    is_style (get_color_code color_name) = true := by
  rw [get_color_code_eq_lookup]
  rcases color_lookup_cases color_table (to_lower color_name) with h | ⟨e, he, h⟩
  · rw [h]
    rfl
  · rw [h]
    exact color_table_styles e he

/-- Lower-casing a character twice is lower-casing it once. -/
theorem toLower_toLower (c : Char) : c.toLower.toLower = c.toLower := by
  by_cases h : c.toNat ≥ 65 ∧ c.toNat ≤ 90
  · have hc : c = Char.ofNat c.toNat := (Char.ofNat_toNat c).symm
    obtain ⟨h1, h2⟩ := h
    generalize c.toNat = n at hc h1 h2
    subst hc
    interval_cases n <;> rfl
  · have : c.toLower = c := by
      unfold Char.toLower
      simp only []
      rw [if_neg h]
    rw [this, this]

/-- Lower-casing a text twice is lower-casing it once. -/
theorem to_lower_to_lower (s : Str) : to_lower (to_lower s) = to_lower s := by
  unfold to_lower
  rw [List.map_map]
  apply List.map_congr_left
  intro c _
  exact toLower_toLower c

/-- When no positional argument converts to an integer, the argument loop
leaves the year and the month as they were. -/
theorem parse_args_keeps_date (argv : List Str) (args : MainArgs)
    (h : ∀ a ∈ argv, a.head? ≠ some '-' → stoi a = none) :
    (main.parse_args args argv).y = args.y ∧ (main.parse_args args argv).m = args.m := by
  induction argv generalizing args with
  | nil => exact ⟨rfl, rfl⟩
  | cons arg rest ih =>
    have hrest : ∀ a ∈ rest, a.head? ≠ some '-' → stoi a = none :=
      fun a ha => h a (List.mem_cons_of_mem _ ha)
    unfold main.parse_args
    split
    · exact ih _ hrest
    · split
      · exact ih _ hrest
      · split
        · exact ih _ hrest
        · split
          · exact ih _ hrest
          · split
            · exact ih _ hrest
            · split
              · rename_i hpos
                have hnone := h arg (List.mem_cons_self _ _) hpos
                simp only [hnone]
                split
                · exact ih _ hrest
                · split
                  · exact ih _ hrest
                  · exact ih _ hrest
              · exact ih _ hrest

/-- Dropping a prefix stops at a character that fails the test. -/
theorem dropWhile_append_stop (p : Char → Bool) (l t : Str) (c : Char) (hc : p c = false) :
    (l ++ c :: t).dropWhile p = l.dropWhile p ++ c :: t := by
  induction l with
  | nil => simp [List.dropWhile, hc]
  | cons x xs ih =>
    simp only [List.cons_append, List.dropWhile]
    split
    · exact ih
    · rfl

/-- Dropping a prefix of characters that all pass the test. -/
theorem dropWhile_all (p : Char → Bool) (l : Str) (h : ∀ x ∈ l, p x = true) :
    l.dropWhile p = [] := by
  induction l with
  | nil => rfl
  | cons x xs ih =>
    simp only [List.dropWhile, h x (List.mem_cons_self _ _)]
    exact ih (fun y hy => h y (List.mem_cons_of_mem _ hy))

/-- What remains after dropping a prefix does not start with a character
that passes the test. -/
theorem dropWhile_head (p : Char → Bool) (l : Str) (x : Char) (t : Str)
    (h : l.dropWhile p = x :: t) : p x = false := by
  induction l with
  | nil => simp at h
  | cons y ys ih =>
    simp only [List.dropWhile] at h
    split at h
    · exact ih h
    · rename_i hy
      cases h
      simpa using hy

/-- Trimming on the right keeps everything up to a character that is not a
blank. -/
theorem trim_right_append_stop (a r : Str) (c : Char) (hc : is_blank c = false) :
    trim_right (a ++ c :: r) = a ++ c :: trim_right r := by
  unfold trim_right
  have e : (a ++ c :: r).reverse = r.reverse ++ c :: a.reverse := by simp
  rw [e, dropWhile_append_stop is_blank _ _ c hc]
  simp

/-- A list with a member that trimming keeps: the members of a trimmed text
are members of the text. -/
theorem mem_of_mem_trim (l : Str) (x : Char) (h : x ∈ trim_right (trim_left l)) : x ∈ l := by
  unfold trim_right trim_left at h
  rw [List.mem_reverse] at h
  have h1 := (List.dropWhile_suffix is_blank).subset h
  rw [List.mem_reverse] at h1
  exact (List.dropWhile_suffix is_blank).subset h1

/-- A head that differs from the head of a name: the texts differ. -/
theorem cons_ne_of_head (h : Char) (key name : Str) (hn : name.head? ≠ some h) :
    ¬ (h :: key = name) := by
  intro e
  rw [← e] at hn
  exact hn rfl

/-- The conversion `std::stoi` throws on a text that starts with a comment
character. -/
theorem stoi_comment (c : Char) (x : Str) (hc : c = '#' ∨ c = ';') : stoi (c :: x) = none := by
  rcases hc with e | e <;> subst e <;> simp [stoi, List.dropWhile, List.takeWhile, isspace]

/-- The date of a token that starts with a comment character is (0, 0). -/
theorem parse_date_comment (c : Char) (tok : Str) (hc : c = '#' ∨ c = ';') :
    parse_date (c :: tok) = (0, 0) := by
  have hs : c ≠ '/' ∧ c ≠ '-' := by
    rcases hc with e | e <;> subst e <;> decide
  obtain ⟨hno, hsep⟩ := parse_date_eq (c :: tok)
  have hfind : ∀ sep : Char, c ≠ sep → ∀ pos, str_find (c :: tok) sep = some pos →
      stoi ((c :: tok).take pos) = none := by
    intro sep hne pos hpos
    simp only [str_find, if_neg hne] at hpos
    cases hp : str_find tok sep with
    | none => rw [hp] at hpos; simp at hpos
    | some p =>
      rw [hp] at hpos
      simp only [Option.map_some', Option.some.injEq] at hpos
      subst hpos
      simp only [List.take_succ_cons]
      exact stoi_comment c _ hc
  cases h1 : str_find (c :: tok) '/' with
  | some pos =>
    exact (hsep '/' pos (Or.inl ⟨rfl, h1⟩)).1 (hfind '/' hs.1 pos h1)
  | none =>
    cases h2 : str_find (c :: tok) '-' with
    | some pos =>
      exact (hsep '-' pos (Or.inr ⟨rfl, h1, h2⟩)).1 (hfind '-' hs.2 pos h2)
    | none => exact hno h1 h2

/-- A key that starts with a comment character or with white space is none
of the keys of the `[colors]` section: no colour is assigned. -/
theorem set_color_unknown (colors : ColorConfig) (h : Char) (key value : Str)
    (hH : h = '#' ∨ h = ';' ∨ h = '\n' ∨ h = '\x0b' ∨ h = '\x0c' ∨ h = '\r') :
    load_events.set_color colors (h :: key) value = colors := by
  rcases hH with e | e | e | e | e | e <;> subst e
  all_goals
    unfold load_events.set_color
    rw [if_neg (cons_ne_of_head _ _ _ (by decide))]
    rw [if_neg (cons_ne_of_head _ _ _ (by decide))]
    rw [if_neg (cons_ne_of_head _ _ _ (by decide))]
    rw [if_neg (cons_ne_of_head _ _ _ (by decide))]
    rw [if_neg (cons_ne_of_head _ _ _ (by decide))]
    rw [if_neg (cons_ne_of_head _ _ _ (by decide))]
    rw [if_neg (cons_ne_of_head _ _ _ (by decide))]
    rw [if_neg (cons_ne_of_head _ _ _ (by decide))]
    rw [if_neg (cons_ne_of_head _ _ _ (by decide))]
    rw [if_neg (not_or.mpr ⟨cons_ne_of_head _ _ _ (by decide),
      not_or.mpr ⟨cons_ne_of_head _ _ _ (by decide), cons_ne_of_head _ _ _ (by decide)⟩⟩)]
    rw [if_neg (not_or.mpr ⟨cons_ne_of_head _ _ _ (by decide),
      not_or.mpr ⟨cons_ne_of_head _ _ _ (by decide), cons_ne_of_head _ _ _ (by decide)⟩⟩)]
    rw [if_neg (not_or.mpr ⟨cons_ne_of_head _ _ _ (by decide),
      not_or.mpr ⟨cons_ne_of_head _ _ _ (by decide), cons_ne_of_head _ _ _ (by decide)⟩⟩)]
    rw [if_neg (not_or.mpr ⟨cons_ne_of_head _ _ _ (by decide),
      not_or.mpr ⟨cons_ne_of_head _ _ _ (by decide), cons_ne_of_head _ _ _ (by decide)⟩⟩)]
    rw [if_neg (not_or.mpr ⟨cons_ne_of_head _ _ _ (by decide),
      cons_ne_of_head _ _ _ (by decide)⟩)]
    rw [if_neg (not_or.mpr ⟨cons_ne_of_head _ _ _ (by decide),
      not_or.mpr ⟨cons_ne_of_head _ _ _ (by decide), cons_ne_of_head _ _ _ (by decide)⟩⟩)]
    rw [if_neg (not_or.mpr ⟨cons_ne_of_head _ _ _ (by decide),
      not_or.mpr ⟨cons_ne_of_head _ _ _ (by decide), cons_ne_of_head _ _ _ (by decide)⟩⟩)]
    rw [if_neg (not_or.mpr ⟨cons_ne_of_head _ _ _ (by decide),
      not_or.mpr ⟨cons_ne_of_head _ _ _ (by decide), cons_ne_of_head _ _ _ (by decide)⟩⟩)]
    rw [if_neg (not_or.mpr ⟨cons_ne_of_head _ _ _ (by decide),
      not_or.mpr ⟨cons_ne_of_head _ _ _ (by decide), cons_ne_of_head _ _ _ (by decide)⟩⟩)]
    rw [if_neg (not_or.mpr ⟨cons_ne_of_head _ _ _ (by decide),
      not_or.mpr ⟨cons_ne_of_head _ _ _ (by decide), cons_ne_of_head _ _ _ (by decide)⟩⟩)]
    rw [if_neg (not_or.mpr ⟨cons_ne_of_head _ _ _ (by decide),
      not_or.mpr ⟨cons_ne_of_head _ _ _ (by decide), cons_ne_of_head _ _ _ (by decide)⟩⟩)]
    rw [if_neg (not_or.mpr ⟨cons_ne_of_head _ _ _ (by decide),
      not_or.mpr ⟨cons_ne_of_head _ _ _ (by decide), cons_ne_of_head _ _ _ (by decide)⟩⟩)]

/-- The characters of white space that are not blanks. -/
theorem isspace_not_blank (x : Char) (h1 : isspace x = true) (h2 : is_blank x = false) :
    x = '\n' ∨ x = '\x0b' ∨ x = '\x0c' ∨ x = '\r' := by
  simp only [isspace, is_blank, Bool.or_eq_true, decide_eq_true_eq, Bool.or_eq_false_iff,
    decide_eq_false_iff_not] at h1 h2
  tauto

/-- A line of the `[colors]` section that starts with a comment character
or with white space assigns no colour. -/
theorem color_line_unknown (st : LoadState) (h : Char) (t : Str)
    (hH : h = '#' ∨ h = ';' ∨ h = '\n' ∨ h = '\x0b' ∨ h = '\x0c' ∨ h = '\r') :
    load_events.color_line st (h :: t) = st := by
  have hne : h ≠ '=' := by
    rcases hH with e | e | e | e | e | e <;> subst e <;> decide
  have hblank : is_blank h = false := by
    rcases hH with e | e | e | e | e | e <;> subst e <;> decide
  have hlow : h.toLower = h := by
    rcases hH with e | e | e | e | e | e <;> subst e <;> decide
  unfold load_events.color_line
  simp only [str_find, if_neg hne]
  cases hp : str_find t '=' with
  | none => rfl
  | some p =>
    simp only [Option.map_some', List.take_succ_cons]
    have e1 : trim_left (h :: List.take p t) = h :: List.take p t := by
      simp [trim_left, List.dropWhile, hblank]
    have e2 : trim_right (h :: List.take p t) = h :: trim_right (List.take p t) :=
      trim_right_append_stop [] _ h hblank
    have e3 : to_lower (h :: trim_right (List.take p t)) =
        h :: to_lower (trim_right (List.take p t)) := by
      simp [to_lower, hlow]
    rw [e1, e2, e3, set_color_unknown st.colors h _ _ hH]

/-- In a section of events, a line whose first character after white space
is a comment character adds no event. -/
theorem event_line_comment (st : LoadState) (tline r : Str) (c : Char)
    (hc : c = '#' ∨ c = ';') (h : tline.dropWhile isspace = c :: r) :
    load_events.event_line st tline = st := by
  have hsp : isspace c = false := by
    rcases hc with e | e <;> subst e <;> decide
  have htok : load_events.date_token tline =
      c :: r.takeWhile (fun x => !isspace x) := by
    unfold load_events.date_token
    rw [h]
    simp [List.takeWhile, hsp]
  apply (event_line_eq st tline).1
  rw [htok, parse_date_comment c _ hc]
  decide

/-- No position is found for a character that does not occur. -/
theorem str_find_not_mem (s : Str) (c : Char) (h : c ∉ s) : str_find s c = none := by
  induction s with
  | nil => rfl
  | cons x xs ih =>
    simp only [List.mem_cons, not_or] at h
    simp only [str_find]
    rw [if_neg (fun e => h.1 e.symm), ih h.2]
    rfl

/-- One line made of white space only changes nothing. -/
theorem step_blank (st : LoadState) (line : Str) (h : ∀ x ∈ line, isspace x = true) :
    load_events.step st line = st := by
  cases line with
  | nil =>
    unfold load_events.step
    rw [if_pos]
    exact Or.inl rfl
  | cons x xs =>
    have hx := h x (List.mem_cons_self _ _)
    have hskip : ¬ ((x :: xs).isEmpty = true ∨ (x :: xs).head? = some '#' ∨
        (x :: xs).head? = some ';') := by
      simp only [List.isEmpty_cons, Bool.false_eq_true, List.head?_cons, Option.some.injEq,
        false_or, not_or]
      constructor <;> intro e <;> subst e <;> revert hx <;> decide
    have hall : ∀ y ∈ trim_right (trim_left (x :: xs)), isspace y = true :=
      fun y hy => h y (mem_of_mem_trim _ y hy)
    unfold load_events.step
    simp only []
    rw [if_neg hskip]
    generalize trim_right (trim_left (x :: xs)) = tline at hall
    have hhead : ¬ (tline.head? = some '[' ∧ tline.getLast? = some ']') := by
      rintro ⟨e, _⟩
      have := hall '[' (List.mem_of_mem_head? e)
      revert this
      decide
    rw [if_neg hhead]
    split
    · unfold load_events.color_line
      have : str_find tline '=' = none := by
        apply str_find_not_mem
        intro hmem
        have := hall '=' hmem
        revert this
        decide
      rw [this]
    · unfold load_events.event_line load_events.date_token
      rw [dropWhile_all isspace tline hall]
      rfl

/-- One line whose first character after white space is `#` or `;` changes
nothing. -/
theorem step_comment (st : LoadState) (ws rest : Str) (c : Char)
    (hws : ∀ x ∈ ws, isspace x = true) (hc : c = '#' ∨ c = ';') :
    load_events.step st (ws ++ c :: rest) = st := by
  have hcb : is_blank c = false := by
    rcases hc with e | e <;> subst e <;> decide
  have hcs : isspace c = false := by
    rcases hc with e | e <;> subst e <;> decide
  cases ws with
  | nil =>
    unfold load_events.step
    rw [if_pos]
    rcases hc with e | e <;> subst e <;> simp
  | cons w ws2 =>
    have hw := hws w (List.mem_cons_self _ _)
    have hskip : ¬ ((w :: ws2 ++ c :: rest).isEmpty = true ∨
        (w :: ws2 ++ c :: rest).head? = some '#' ∨
        (w :: ws2 ++ c :: rest).head? = some ';') := by
      simp only [List.cons_append, List.isEmpty_cons, Bool.false_eq_true, List.head?_cons,
        Option.some.injEq, false_or, not_or]
      constructor <;> intro e <;> subst e <;> revert hw <;> decide
    have htrim : trim_right (trim_left (w :: ws2 ++ c :: rest)) =
        (w :: ws2).dropWhile is_blank ++ c :: trim_right rest := by
      unfold trim_left
      rw [dropWhile_append_stop is_blank _ _ c hcb, trim_right_append_stop _ _ c hcb]
    have hws1 : ∀ x ∈ (w :: ws2).dropWhile is_blank, isspace x = true :=
      fun x hx => hws x ((List.dropWhile_suffix is_blank).subset hx)
    have hdrop : ((w :: ws2).dropWhile is_blank ++ c :: trim_right rest).dropWhile isspace =
        c :: trim_right rest := by
      rw [dropWhile_append_stop isspace _ _ c hcs, dropWhile_all isspace _ hws1]
      rfl
    have hhead : ∃ (h : Char) (t : Str),
        (w :: ws2).dropWhile is_blank ++ c :: trim_right rest = h :: t ∧
        (h = '#' ∨ h = ';' ∨ h = '\n' ∨ h = '\x0b' ∨ h = '\x0c' ∨ h = '\r') := by
      cases hd : (w :: ws2).dropWhile is_blank with
      | nil =>
        refine ⟨c, trim_right rest, rfl, ?_⟩
        rcases hc with e | e
        · exact Or.inl e
        · exact Or.inr (Or.inl e)
      | cons x t =>
        refine ⟨x, t ++ c :: trim_right rest, rfl, ?_⟩
        have hx1 : isspace x = true := hws1 x (by rw [hd]; exact List.mem_cons_self _ _)
        have hx2 := dropWhile_head is_blank _ x t hd
        rcases isspace_not_blank x hx1 hx2 with e | e | e | e
        · exact Or.inr (Or.inr (Or.inl e))
        · exact Or.inr (Or.inr (Or.inr (Or.inl e)))
        · exact Or.inr (Or.inr (Or.inr (Or.inr (Or.inl e))))
        · exact Or.inr (Or.inr (Or.inr (Or.inr (Or.inr e))))
    unfold load_events.step
    simp only []
    rw [if_neg hskip, htrim]
    obtain ⟨h, t, hht, hH⟩ := hhead
    have hnot : ¬ (((w :: ws2).dropWhile is_blank ++ c :: trim_right rest).head? = some '[' ∧
        ((w :: ws2).dropWhile is_blank ++ c :: trim_right rest).getLast? = some ']') := by
      rw [hht]
      rintro ⟨e, _⟩
      simp only [List.head?_cons, Option.some.injEq] at e
      subst e
      revert hH
      decide
    rw [if_neg hnot]
    split
    · rw [hht]
      exact color_line_unknown st h t hH
    · exact event_line_comment st _ (trim_right rest) c hc hdrop

/-- The grid and the listing of a month in 1..12: the rows of
`get_month_data` are the rows of cells, from year 1 on every day of the month
has a cell in them, and the output of `print_month_vertical` holds the texts
of the days 1 .. days_in_month in order. -/
theorem month_views (colors : ColorConfig) (events : EventMap)
    (y m ty tm td : Int) (b : Bool) (hm : 1 ≤ m ∧ m ≤ 12) :
    ∃ (data : MonthData) (dim : Int) (head : Str),
      get_month_data colors events y m ty tm td b = some data ∧
      days_in_month y m = some dim ∧ 28 ≤ dim ∧ dim ≤ 31 ∧
      (∀ w : Nat, w < data.weeks.length →
        data.weeks[w]? = some ((List.range 7).map (fun c : Nat =>
          get_month_data.cell colors events y m ty tm td b (weekday y m 1 b) dim w c)).flatten) ∧
      (1 ≤ y → ∀ d : Int, 1 ≤ d → d ≤ dim →
        ∃ w c : Nat, w < data.weeks.length ∧ c < 7 ∧
          7 * (w : Int) + c - weekday y m 1 b + 1 = d) ∧
      head.getLast? = some '\n' ∧
      print_month_vertical colors events y m ty tm td b =
        some (head ++ List.replicate (3 * (weekday y m 1 b).toNat) ' ' ++
          ((List.range dim.toNat).map (fun (i : Nat) =>
            print_month_vertical.day colors events y m ty tm td b ((i : Int) + 1))).flatten
          ++ ['\n']) ∧
      (∀ d : Int, 1 ≤ d → d ≤ dim →
        ((List.range dim.toNat).map (fun (i : Nat) =>
          print_month_vertical.day colors events y m ty tm td b ((i : Int) + 1)))[(d - 1).toNat]? =
          some (print_month_vertical.day colors events y m ty tm td b d)) := by
  obtain ⟨data, dim, hdata, hdim, hlo, hhi, hweeks⟩ :=
    get_month_data_some colors events y m ty tm td b hm
  obtain ⟨head, dim2, hdim2, _, _, hhead, hout⟩ :=
    print_month_vertical_eq colors events y m ty tm td b hm
  have e2 : dim2 = dim := by
    rw [hdim] at hdim2
    exact (Option.some.inj hdim2).symm
  subst e2
  refine ⟨data, dim2, head, hdata, hdim, hlo, hhi, ?_, ?_, hhead, hout, ?_⟩
  · intro w hw
    have hw2 : w < (cdiv (weekday y m 1 b + dim2 - 1) 7 + 1).toNat := by
      rw [hweeks, List.length_map, List.length_range] at hw
      exact hw
    rw [hweeks, List.getElem?_map, List.getElem?_range hw2]
    simp only [Option.map_some']
    rw [week_str_eq_flatten]
  · intro hy d hd1 hd2
    have hs := weekday_range y m 1 b hy hm.1 (by omega)
    have hT := total_weeks_eq (weekday y m 1 b) dim2 hs.1 (by omega)
    have hlen : (data.weeks.length : Int) = (weekday y m 1 b + dim2 - 1) / 7 + 1 := by
      rw [hweeks, List.length_map, List.length_range, hT]
    generalize weekday y m 1 b = start at *
    refine ⟨((d + start - 1) / 7).toNat, ((d + start - 1) % 7).toNat, ?_, ?_, ?_⟩
    · omega
    · omega
    · omega
  · intro d hd1 hd2
    have hlt : (d - 1).toNat < dim2.toNat := by omega
    rw [List.getElem?_map, List.getElem?_range hlt]
    simp only [Option.map_some']
    have e : (((d - 1).toNat : Nat) : Int) + 1 = d := by omega
    rw [e]

/-- The category of an accepted event is the one computed from the current
section and its description. -/
theorem accepted_event_type (st : LoadState) (line : Str) (event : Event)
    (h : accepted_event st line = some event) :
    event.type = load_events.event_type st.current_section event.description := by
  unfold accepted_event at h
  split at h
  · cases h
  · split at h
    · cases h
    · split at h
      · cases h
      · split at h
        · cases h
          rfl
        · cases h

/-- The whole output of `print_month_horizontal` on a list of months that is
not empty: the line of the headers, the line of the day titles, and one body
line for each week index below the maximum. -/
theorem print_month_horizontal_eq (colors : ColorConfig) (months : List MonthData)
    (b : Bool) (hne : months ≠ []) :
    print_month_horizontal colors months b =
      ([' '] : Str).intercalate (months.map (fun month => month.header)) ++ ['\n'] ++
      ([' '] : Str).intercalate (months.map (fun _ =>
        if b = true then
          colors.workday_title ++ "Mo Tu We Th Fr ".toList ++ RESET
            ++ colors.saturday_title ++ "Sa".toList ++ RESET ++ " ".toList
            ++ colors.sunday_title ++ "Su".toList ++ RESET
        else
          colors.sunday_title ++ "Su".toList ++ RESET ++ " ".toList
            ++ colors.workday_title ++ "Mo Tu We Th Fr ".toList ++ RESET
            ++ colors.saturday_title ++ "Sa".toList ++ RESET)) ++ ['\n'] ++
      ((List.range (print_month_horizontal.max_weeks months)).map
        (fun week => print_month_horizontal.week_line months week)).flatten := by
  have hemp : months.isEmpty = false := by
    cases months with
    | nil => exact absurd rfl hne
    | cons x xs => rfl
  have h1 : months.enum.foldl
      (fun (out : Str) (im : Nat × MonthData) =>
        out ++ im.2.header ++ (if im.1 < months.length - 1 then " ".toList else [])) [] =
      ([' '] : Str).intercalate (months.map (fun month => month.header)) := by
    have := foldl_enumFrom_sep (fun month : MonthData => month.header) months 0 months.length []
      (by simp)
    simp only [List.nil_append] at this
    rw [← this]
    have e : " ".toList = [' '] := rfl
    simp only [e, List.append_assoc]
    rfl
  have h2 : ∀ acc : Str, months.enum.foldl
      (fun (out : Str) (im : Nat × MonthData) =>
        (if b = true then
          out ++ colors.workday_title ++ "Mo Tu We Th Fr ".toList ++ RESET
            ++ colors.saturday_title ++ "Sa".toList ++ RESET ++ " ".toList
            ++ colors.sunday_title ++ "Su".toList ++ RESET
         else
          out ++ colors.sunday_title ++ "Su".toList ++ RESET ++ " ".toList
            ++ colors.workday_title ++ "Mo Tu We Th Fr ".toList ++ RESET
            ++ colors.saturday_title ++ "Sa".toList ++ RESET)
        ++ (if im.1 < months.length - 1 then " ".toList else [])) acc =
      acc ++ ([' '] : Str).intercalate (months.map (fun _ =>
        if b = true then
          colors.workday_title ++ "Mo Tu We Th Fr ".toList ++ RESET
            ++ colors.saturday_title ++ "Sa".toList ++ RESET ++ " ".toList
            ++ colors.sunday_title ++ "Su".toList ++ RESET
        else
          colors.sunday_title ++ "Su".toList ++ RESET ++ " ".toList
            ++ colors.workday_title ++ "Mo Tu We Th Fr ".toList ++ RESET
            ++ colors.saturday_title ++ "Sa".toList ++ RESET)) := by
    intro acc
    have := foldl_enumFrom_sep (fun _ : MonthData =>
        if b = true then
          colors.workday_title ++ "Mo Tu We Th Fr ".toList ++ RESET
            ++ colors.saturday_title ++ "Sa".toList ++ RESET ++ " ".toList
            ++ colors.sunday_title ++ "Su".toList ++ RESET
        else
          colors.sunday_title ++ "Su".toList ++ RESET ++ " ".toList
            ++ colors.workday_title ++ "Mo Tu We Th Fr ".toList ++ RESET
            ++ colors.saturday_title ++ "Sa".toList ++ RESET) months 0 months.length acc
      (by simp)
    rw [← this]
    have e : " ".toList = [' '] := rfl
    cases b
    · simp only [Bool.false_eq_true, if_false, e, List.append_assoc]
      rfl
    · simp only [if_true, e, List.append_assoc]
      rfl
  unfold print_month_horizontal
  simp only [hemp, Bool.false_eq_true, if_false]
  rw [foldl_append_eq_flatten, h2, h1]
  rfl

/-- The digits written by `Nat.toDigitsCore` are not line breaks. -/
theorem toDigitsCore_no_newline (fuel n : Nat) (ds : List Char)
    (h : ∀ c ∈ ds, c ≠ '\n') : ∀ c ∈ Nat.toDigitsCore 10 fuel n ds, c ≠ '\n' := by
  induction fuel generalizing n ds with
  | zero => simpa [Nat.toDigitsCore] using h
  | succ k ih =>
    have hd : ∀ j : Fin 10, Nat.digitChar j.val ≠ '\n' := by decide
    have hc : Nat.digitChar (n % 10) ≠ '\n' := hd ⟨n % 10, Nat.mod_lt _ (by decide)⟩
    have h2 : ∀ c ∈ Nat.digitChar (n % 10) :: ds, c ≠ '\n' := by
      intro c hmem
      rcases List.mem_cons.mp hmem with e | e
      · rw [e]; exact hc
      · exact h c e
    unfold Nat.toDigitsCore
    simp only []
    split
    · exact h2
    · exact ih _ _ h2

/-- The text of an `int` has no line break. -/
theorem to_string_no_newline (n : Int) : ∀ c ∈ to_string n, c ≠ '\n' := by
  unfold to_string
  split
  · intro c hc
    rcases List.mem_cons.mp hc with e | e
    · rw [e]; decide
    · exact toDigitsCore_no_newline _ _ [] (by simp) c e
  · exact toDigitsCore_no_newline _ _ [] (by simp)

/-- A style has no line break. -/
theorem is_style_no_newline (s : Str) (h : is_style s = true) : ∀ c ∈ s, c ≠ '\n' := by
  match s, h with
  | [], _ => simp
  | [c], h => simp [is_style] at h
  | c1 :: c2 :: rest, h =>
    simp only [is_style, Bool.and_eq_true, beq_iff_eq, List.all_eq_true, Bool.or_eq_true] at h
    obtain ⟨⟨⟨h1, h2⟩, h3⟩, h4⟩ := h
    subst h1 h2
    have hrest : rest = rest.dropLast ++ ['m'] := by
      have := List.dropLast_append_getLast? 'm' (by simpa using h3)
      exact this.symm
    intro c hc
    rcases List.mem_cons.mp hc with e | hc
    · rw [e]; decide
    rcases List.mem_cons.mp hc with e | hc
    · rw [e]; decide
    rw [hrest] at hc
    rcases List.mem_append.mp hc with hc | hc
    · intro e
      subst e
      rcases h4 _ hc with h | h
      · revert h; decide
      · revert h; decide
    · rw [List.mem_singleton] at hc
      rw [hc]; decide

/-- A character of texts joined by single spaces is a space or a character of
one of the texts. -/
theorem mem_intercalate_space (l : List Str) (c : Char)
    (h : c ∈ ([' '] : Str).intercalate l) : c = ' ' ∨ ∃ s ∈ l, c ∈ s := by
  induction l with
  | nil => simp [List.intercalate] at h
  | cons x xs ih =>
    cases xs with
    | nil =>
      right
      exact ⟨x, List.mem_cons_self _ _, by simpa [List.intercalate] using h⟩
    | cons z zs =>
      have e : ([' '] : Str).intercalate (x :: z :: zs) =
          x ++ ([' '] ++ ([' '] : Str).intercalate (z :: zs)) := by
        simp [List.intercalate]
      rw [e] at h
      rcases List.mem_append.mp h with h | h
      · exact Or.inr ⟨x, List.mem_cons_self _ _, h⟩
      rcases List.mem_append.mp h with h | h
      · left
        simpa using h
      · rcases ih h with h | ⟨s, hs, hcs⟩
        · exact Or.inl h
        · exact Or.inr ⟨s, List.mem_cons_of_mem _ hs, hcs⟩

/-- Texts without line breaks joined by single spaces have no line break. -/
theorem intercalate_no_newline (l : List Str) (h : ∀ s ∈ l, ∀ c ∈ s, c ≠ '\n') :
    ∀ c ∈ ([' '] : Str).intercalate l, c ≠ '\n' := by
  intro c hc
  rcases mem_intercalate_space l c hc with e | ⟨s, hs, hcs⟩
  · rw [e]; decide
  · exact h s hs c hcs

/-- No week row of a grid built by `get_month_data` with colours that are
styles has a line break. -/
theorem month_rows_no_newline (colors : ColorConfig) (events : EventMap)
    (y m ty tm td : Int) (b : Bool) (hm : 1 ≤ m ∧ m ≤ 12)
    (hc : colors_are_styles colors = true) (data : MonthData)
    (hdata : get_month_data colors events y m ty tm td b = some data) :
    ∀ row ∈ data.weeks, ∀ c ∈ row, c ≠ '\n' := by
  obtain ⟨data2, dim, hdata2, hdim, hlo, hhi, hweeks⟩ :=
    get_month_data_some colors events y m ty tm td b hm
  rw [hdata] at hdata2
  cases hdata2
  intro row hrow
  rw [hweeks, List.mem_map] at hrow
  obtain ⟨week, _, rfl⟩ := hrow
  obtain ⟨cells, _, hrow, hcells, _⟩ :=
    week_str_cells colors events y m ty tm td b (weekday y m 1 b) dim week hc hhi
  rw [hrow]
  apply intercalate_no_newline
  intro cell hcell c hcmem
  rcases (hcells cell hcell).2 with e | ⟨style, d, hs, _, _, e⟩
  · rw [e] at hcmem
    simp only [List.mem_cons, List.mem_singleton, List.not_mem_nil, or_false, or_self] at hcmem
    rw [hcmem]; decide
  · rw [e] at hcmem
    rcases List.mem_append.mp hcmem with h | h
    · rcases List.mem_append.mp h with h | h
      · exact is_style_no_newline style hs c h
      · split at h
        · rcases List.mem_cons.mp h with e2 | e2
          · rw [e2]; decide
          · exact to_string_no_newline d c e2
        · exact to_string_no_newline d c h
    · exact (by decide : ∀ x ∈ RESET, x ≠ '\n') c h

/-- The header of a grid built by `get_month_data` with colours that are
styles has no line break. -/
theorem month_header_no_newline (colors : ColorConfig) (events : EventMap)
    (y m ty tm td : Int) (b : Bool) (hm : 1 ≤ m ∧ m ≤ 12)
    (hc : colors_are_styles colors = true) (data : MonthData)
    (hdata : get_month_data colors events y m ty tm td b = some data) :
    ∀ c ∈ data.header, c ≠ '\n' := by
  obtain ⟨data2, name, hdata2, _, hname, hheader⟩ :=
    get_month_data_header colors events y m ty tm td b hm
  rw [hdata] at hdata2
  cases hdata2
  have hnames : ∀ name ∈ get_month_data.names, ∀ c ∈ name, c ≠ '\n' := by decide
  rw [hheader]
  intro c hcmem
  rcases List.mem_append.mp hcmem with h | h
  · rcases List.mem_append.mp h with h | h
    · rcases List.mem_append.mp h with h | h
      · rcases List.mem_append.mp h with h | h
        · rw [List.eq_of_mem_replicate h]; decide
        · exact is_style_no_newline _ (month_color_is_style colors hc m) c h
      · have h2 := List.mem_of_mem_take h
        rcases List.mem_append.mp h2 with h3 | h3
        · exact hnames name hname c h3
        · rcases List.mem_cons.mp h3 with e | e
          · rw [e]; decide
          · exact to_string_no_newline y c e
    · exact (by decide : ∀ x ∈ RESET, x ≠ '\n') c h
  · rw [List.eq_of_mem_replicate h]; decide

/-- Lines without line breaks, each followed by a line break, hold as many
line breaks as there are lines. -/
theorem count_newline_lines (lines : List Str) (h : ∀ line ∈ lines, ∀ c ∈ line, c ≠ '\n') :
    (lines.map (fun line => line ++ ['\n'])).flatten.count '\n' = lines.length := by
  induction lines with
  | nil => rfl
  | cons x xs ih =>
    have hx : x.count '\n' = 0 :=
      List.count_eq_zero.mpr (fun hmem => h x (List.mem_cons_self _ _) _ hmem rfl)
    simp only [List.map_cons, List.flatten_cons, List.count_append, List.length_cons, hx,
      ih (fun line hl => h line (List.mem_cons_of_mem _ hl))]
    simp
    omega

/-- Two texts without line breaks, one after the other. -/
theorem no_newline_append (a b : Str) (ha : ∀ c ∈ a, c ≠ '\n') (hb : ∀ c ∈ b, c ≠ '\n') :
    ∀ c ∈ a ++ b, c ≠ '\n' := by
  intro c hc
  rcases List.mem_append.mp hc with h | h
  · exact ha c h
  · exact hb c h

/-- The line of day titles of one month has no line break when the colours
are styles. -/
theorem day_titles_no_newline (colors : ColorConfig) (hc : colors_are_styles colors = true)
    (b : Bool) :
    ∀ c ∈ (if b = true then
        colors.workday_title ++ "Mo Tu We Th Fr ".toList ++ RESET
          ++ colors.saturday_title ++ "Sa".toList ++ RESET ++ " ".toList
          ++ colors.sunday_title ++ "Su".toList ++ RESET
      else
        colors.sunday_title ++ "Su".toList ++ RESET ++ " ".toList
          ++ colors.workday_title ++ "Mo Tu We Th Fr ".toList ++ RESET
          ++ colors.saturday_title ++ "Sa".toList ++ RESET), c ≠ '\n' := by
  obtain ⟨h1, h2, h3, _⟩ := colors_are_styles_fields colors hc
  have n1 := is_style_no_newline _ h1
  have n2 := is_style_no_newline _ h2
  have n3 := is_style_no_newline _ h3
  have nR : ∀ c ∈ RESET, c ≠ '\n' := by decide
  have nW : ∀ c ∈ "Mo Tu We Th Fr ".toList, c ≠ '\n' := by decide
  have nSa : ∀ c ∈ "Sa".toList, c ≠ '\n' := by decide
  have nSu : ∀ c ∈ "Su".toList, c ≠ '\n' := by decide
  have nS : ∀ c ∈ " ".toList, c ≠ '\n' := by decide
  cases b
  · simp only [Bool.false_eq_true, if_false]
    exact no_newline_append _ _ (no_newline_append _ _ (no_newline_append _ _
      (no_newline_append _ _ (no_newline_append _ _ (no_newline_append _ _
      (no_newline_append _ _ (no_newline_append _ _ (no_newline_append _ _ n1 nSu) nR) nS)
      n3) nW) nR) n2) nSa) nR
  · rw [if_pos rfl]
    exact no_newline_append _ _ (no_newline_append _ _ (no_newline_append _ _
      (no_newline_append _ _ (no_newline_append _ _ (no_newline_append _ _
      (no_newline_append _ _ (no_newline_append _ _ (no_newline_append _ _ n3 nW) nR) n2)
      nSa) nR) nS) n1) nSu) nR

/-! ### The claims -/

/-- C1: for every year >= 1, month in 1..12 and day in 1..days_in_month,
`weekday` with Sunday first is the day of the week of that date in the
proleptic Gregorian calendar (0 = Sunday, ..., 6 = Saturday) as obtained by
counting days from 0001-01-01; and `weekday(2024, 1, 1)` is 1, a Monday. -/
theorem weekday_matches_reference (y m d : Nat) (hy : 1 ≤ y) (hm : 1 ≤ m ∧ m ≤ 12)
    (hd : 1 ≤ d) (hdim : ∃ dim, days_in_month y m = some dim ∧ (d : Int) ≤ dim) :
    weekday (y : Int) (m : Int) (d : Int) false = ((refDayOfWeek y m d : Nat) : Int) ∧
      weekday 2024 1 1 false = 1 :=
  ⟨weekday_sunday_eq_ref y m d hy hm.1 hm.2, by decide⟩

/-- The leap day of 2024, a Thursday. -/
theorem weekday_matches_reference_witness :
    weekday ((2024 : Nat) : Int) ((2 : Nat) : Int) ((29 : Nat) : Int) false
        = ((refDayOfWeek 2024 2 29 : Nat) : Int) ∧
      weekday 2024 1 1 false = 1 :=
  weekday_matches_reference 2024 2 29 (by decide) (by decide) (by decide)
    ⟨29, by decide, by decide⟩

/-- C2: February has 29 days exactly in the years divisible by 4 and not by
100, or divisible by 400, and 28 days otherwise; every other month has its
fixed Gregorian length whatever the year. -/
theorem days_in_month_spec (y : Int) :
    (days_in_month y 2 = some 29 ↔ (4 ∣ y ∧ (¬ 100 ∣ y ∨ 400 ∣ y))) ∧
    (days_in_month y 2 = some 28 ↔ ¬ (4 ∣ y ∧ (¬ 100 ∣ y ∨ 400 ∣ y))) ∧
    (days_in_month y 1 = some 31 ∧ days_in_month y 3 = some 31 ∧
      days_in_month y 5 = some 31 ∧ days_in_month y 7 = some 31 ∧
      days_in_month y 8 = some 31 ∧ days_in_month y 10 = some 31 ∧
      days_in_month y 12 = some 31) ∧
    (days_in_month y 4 = some 30 ∧ days_in_month y 6 = some 30 ∧
      days_in_month y 9 = some 30 ∧ days_in_month y 11 = some 30) ∧
    (days_in_month 2024 2 = some 29 ∧ days_in_month 2023 2 = some 28 ∧
      days_in_month 1900 2 = some 28 ∧ days_in_month 2000 2 = some 29) := by
  refine ⟨?_, ?_, ?_, ?_, by decide⟩
  · unfold days_in_month
    simp only [cmod_eq_zero_iff, true_and, ne_eq]
    split
    · simp_all
    · rename_i h
      simp [days_in_month.md, h]
  · unfold days_in_month
    simp only [cmod_eq_zero_iff, true_and, ne_eq]
    split
    · rename_i h
      simp [h]
    · rename_i h
      simp [days_in_month.md, h]
  · simp [days_in_month, days_in_month.md]
  · simp [days_in_month, days_in_month.md]

/-- C3: for every year >= 1, month in 1..12 and either policy,
`get_month_data` returns a grid in which each row is the concatenation of
seven cells, the cell of row `w` and column `c` holds day
`7 * w + c - start + 1` when that number is in `1 .. days_in_month` and is
blank (spaces only) otherwise, and every day of the month is the day of
exactly one cell. -/
theorem month_rows_hold_each_day_once (colors : ColorConfig) (events : EventMap)
    (y m ty tm td : Int) (b : Bool) (hy : 1 ≤ y) (hm : 1 ≤ m ∧ m ≤ 12) :
    ∃ data dim, get_month_data colors events y m ty tm td b = some data ∧
      days_in_month y m = some dim ∧
      (∀ w : Nat, w < data.weeks.length →
        data.weeks[w]? = some ((List.range 7).map (fun c : Nat =>
          get_month_data.cell colors events y m ty tm td b (weekday y m 1 b) dim w c)).flatten) ∧
      (∀ d : Int, 1 ≤ d → d ≤ dim →
        ∃! wc : Nat × Nat, wc.1 < data.weeks.length ∧ wc.2 < 7 ∧
          7 * (wc.1 : Int) + wc.2 - weekday y m 1 b + 1 = d) ∧
      (∀ w c : Nat, w < data.weeks.length → c < 7 →
        ∀ d : Int, 7 * (w : Int) + c - weekday y m 1 b + 1 = d →
        (1 ≤ d ∧ d ≤ dim →
          ∃ style : Str,
            get_month_data.cell colors events y m ty tm td b (weekday y m 1 b) dim w c =
              style ++ (if d < 10 then ' ' :: to_string d else to_string d) ++ RESET ++
                (if c < 6 then [' '] else [])) ∧
        (¬ (1 ≤ d ∧ d ≤ dim) →
          get_month_data.cell colors events y m ty tm td b (weekday y m 1 b) dim w c =
              ' ' :: ' ' :: (if c < 6 then [' '] else []) ∧
          ∀ ch ∈ get_month_data.cell colors events y m ty tm td b (weekday y m 1 b) dim w c,
            ch = ' ' ∧ ch.isDigit = false)) := by
  obtain ⟨data, dim, hdata, hdim, hlo, hhi, hweeks⟩ :=
    get_month_data_some colors events y m ty tm td b hm
  have hs := weekday_range y m 1 b hy hm.1 (by omega)
  have hT := total_weeks_eq (weekday y m 1 b) dim hs.1 (by omega)
  have hlen : (data.weeks.length : Int) = (weekday y m 1 b + dim - 1) / 7 + 1 := by
    rw [hweeks, List.length_map, List.length_range, hT]
  generalize weekday y m 1 b = start at *
  refine ⟨data, dim, hdata, hdim, ?_, ?_, ?_⟩
  · intro w hw
    have hw2 : w < (cdiv (start + dim - 1) 7 + 1).toNat := by
      rw [hweeks, List.length_map, List.length_range] at hw
      exact hw
    rw [hweeks, List.getElem?_map, List.getElem?_range hw2]
    simp only [Option.map_some']
    rw [week_str_eq_flatten]
  · intro d hd1 hd2
    refine ⟨(((d + start - 1) / 7).toNat, ((d + start - 1) % 7).toNat), ⟨?_, ?_, ?_⟩, ?_⟩
    · show (_ : Nat) < _
      omega
    · show (_ : Nat) < _
      omega
    · show 7 * ((_ : Nat) : Int) + ((_ : Nat) : Int) - start + 1 = d
      omega
    · rintro ⟨w, c⟩ ⟨h1, h2, h3⟩
      simp only [Prod.mk.injEq]
      simp only at h1 h2 h3
      constructor <;> omega
  · intro w c hw hc d hd
    have hd' : (w : Int) * 7 + (c : Int) - start + 1 = d := by omega
    constructor
    · rintro ⟨h1, h2⟩
      rw [cell_in_month colors events y m ty tm td b start dim w c (by omega) (by omega)]
      rw [hd']
      have hc6 : ((c : Int) < 6) ↔ c < 6 := by omega
      simp only [hc6]
      exact ⟨_, rfl⟩
    · intro h
      have hb := cell_blank colors events y m ty tm td b start dim w c (by omega)
      have hc6 : ((c : Int) < 6) ↔ c < 6 := by omega
      simp only [hc6] at hb
      rw [hb]
      refine ⟨rfl, ?_⟩
      intro ch hch
      split at hch <;> simp at hch <;> subst hch <;> exact ⟨rfl, by decide⟩

/-- The grid of February 2024, Monday first. -/
theorem month_rows_hold_each_day_once_witness :
    ((1 : Int) ≤ 2024 ∧ ((1 : Int) ≤ 2 ∧ (2 : Int) ≤ 12)) ∧
    ∃ data dim, get_month_data {} [] 2024 2 2024 2 14 true = some data ∧
      days_in_month 2024 2 = some dim ∧
      (∀ w : Nat, w < data.weeks.length →
        data.weeks[w]? = some ((List.range 7).map (fun c : Nat =>
          get_month_data.cell {} [] 2024 2 2024 2 14 true (weekday 2024 2 1 true) dim w c)).flatten) ∧
      (∀ d : Int, 1 ≤ d → d ≤ dim →
        ∃! wc : Nat × Nat, wc.1 < data.weeks.length ∧ wc.2 < 7 ∧
          7 * (wc.1 : Int) + wc.2 - weekday 2024 2 1 true + 1 = d) ∧
      (∀ w c : Nat, w < data.weeks.length → c < 7 →
        ∀ d : Int, 7 * (w : Int) + c - weekday 2024 2 1 true + 1 = d →
        (1 ≤ d ∧ d ≤ dim →
          ∃ style : Str,
            get_month_data.cell {} [] 2024 2 2024 2 14 true (weekday 2024 2 1 true) dim w c =
              style ++ (if d < 10 then ' ' :: to_string d else to_string d) ++ RESET ++
                (if c < 6 then [' '] else [])) ∧
        (¬ (1 ≤ d ∧ d ≤ dim) →
          get_month_data.cell {} [] 2024 2 2024 2 14 true (weekday 2024 2 1 true) dim w c =
              ' ' :: ' ' :: (if c < 6 then [' '] else []) ∧
          ∀ ch ∈ get_month_data.cell {} [] 2024 2 2024 2 14 true (weekday 2024 2 1 true) dim w c,
            ch = ' ' ∧ ch.isDigit = false)) :=
  ⟨by decide, month_rows_hold_each_day_once {} [] 2024 2 2024 2 14 true (by decide) (by decide)⟩

/-- C4: for every year >= 1, month in 1..12 and either policy, the number of
week rows of `get_month_data` is the ceiling of `(start + days_in_month) / 7`
with `start = weekday(year, month, 1, policy)`; so a month of 31 days with
`start = 6` has 6 rows and a month of 28 days with `start = 0` has 4. -/
theorem week_rows_count (colors : ColorConfig) (events : EventMap)
    (y m ty tm td : Int) (b : Bool) (hy : 1 ≤ y) (hm : 1 ≤ m ∧ m ≤ 12) :
    ∃ data dim, get_month_data colors events y m ty tm td b = some data ∧
      days_in_month y m = some dim ∧
      (data.weeks.length : Int) = Int.ceil (((weekday y m 1 b + dim : Int) : ℚ) / 7) ∧
      (dim = 31 ∧ weekday y m 1 b = 6 → data.weeks.length = 6) ∧
      (dim = 28 ∧ weekday y m 1 b = 0 → data.weeks.length = 4) := by
  obtain ⟨data, dim, hdata, hdim, hlo, hhi, hweeks⟩ :=
    get_month_data_some colors events y m ty tm td b hm
  have hs := weekday_range y m 1 b hy hm.1 (by omega)
  have hT := total_weeks_eq (weekday y m 1 b) dim hs.1 (by omega)
  have hlen : (data.weeks.length : Int) = (weekday y m 1 b + dim - 1) / 7 + 1 := by
    rw [hweeks, List.length_map, List.length_range, hT]
  generalize weekday y m 1 b = start at *
  refine ⟨data, dim, hdata, hdim, ?_, ?_, ?_⟩
  · rw [hlen]
    symm
    rw [Int.ceil_eq_iff]
    have h7 : (0 : ℚ) < 7 := by norm_num
    constructor
    · rw [lt_div_iff₀ h7]
      have : ((start + dim - 1) / 7 + 1 - 1) * 7 < start + dim := by omega
      exact_mod_cast this
    · rw [div_le_iff₀ h7]
      have : start + dim ≤ ((start + dim - 1) / 7 + 1) * 7 := by omega
      exact_mod_cast this
  · rintro ⟨h1, h2⟩
    omega
  · rintro ⟨h1, h2⟩
    omega

/-- February 2015: 28 days from the first column, 4 rows. -/
theorem week_rows_count_witness :
    ((1 : Int) ≤ 2015 ∧ ((1 : Int) ≤ 2 ∧ (2 : Int) ≤ 12)) ∧
    ∃ data dim, get_month_data {} [] 2015 2 2024 1 1 false = some data ∧
      days_in_month 2015 2 = some dim ∧
      (data.weeks.length : Int) = Int.ceil (((weekday 2015 2 1 false + dim : Int) : ℚ) / 7) ∧
      (dim = 31 ∧ weekday 2015 2 1 false = 6 → data.weeks.length = 6) ∧
      (dim = 28 ∧ weekday 2015 2 1 false = 0 → data.weeks.length = 4) :=
  ⟨by decide, week_rows_count {} [] 2015 2 2024 1 1 false (by decide) (by decide)⟩

/-- C5: for every event index and colour assignment, every policy and
every month in 1..12, when the today reference is day `d` of the month
shown, every cell of the grid of `get_month_data` whose day number is `d` is
the reverse-video style, the number in two columns and the reset, the rows
of the grid are the rows of these cells and, from year 1 on, one of them
holds day `d`; the output of `print_month_vertical` holds the texts of the
days in order and the text of day `d` starts with the reverse-video style;
this does not depend on the events of the day or on its weekday. -/
theorem today_cell_is_highlighted (colors : ColorConfig) (events : EventMap)
    (y m d : Int) (b : Bool) (dim : Int) (hm : 1 ≤ m ∧ m ≤ 12)
    (hdim : days_in_month y m = some dim) (h1 : 1 ≤ d) (h2 : d ≤ dim) :
    (∃ data, get_month_data colors events y m y m d b = some data ∧
      (∀ w : Nat, w < data.weeks.length →
        data.weeks[w]? = some ((List.range 7).map (fun c : Nat =>
          get_month_data.cell colors events y m y m d b
            (weekday y m 1 b) dim w c)).flatten) ∧
      (∀ w c : Nat, c < 7 → 7 * (w : Int) + c - weekday y m 1 b + 1 = d →
        get_month_data.cell colors events y m y m d b
            (weekday y m 1 b) dim w c =
          REV ++
            (if d < 10 then ' ' :: to_string d else to_string d) ++ RESET ++
            (if (c : Int) < 6 then [' '] else [])) ∧
      (1 ≤ y → ∃ w c : Nat, w < data.weeks.length ∧ c < 7 ∧
        7 * (w : Int) + c - weekday y m 1 b + 1 = d)) ∧
    (∃ head : Str, head.getLast? = some '\n' ∧
      print_month_vertical colors events y m y m d b =
        some (head ++ List.replicate (3 * (weekday y m 1 b).toNat) ' ' ++
          ((List.range dim.toNat).map (fun (i : Nat) =>
            print_month_vertical.day colors events y m y m d b ((i : Int) + 1))).flatten
          ++ ['\n']) ∧
      ((List.range dim.toNat).map (fun (i : Nat) =>
          print_month_vertical.day colors events y m y m d b ((i : Int) + 1)))[(d - 1).toNat]? =
        some (REV ++
          (if d < 10 then ' ' :: to_string d else to_string d) ++ RESET ++ [' '] ++
          (if weekday y m d b = 6 then ['\n'] else []))) := by
  obtain ⟨data, dim2, head, hdata, hdim2, _, _, hrows, hpos, hhead, hout, hnth⟩ :=
    month_views colors events y m y m d b hm
  have e2 : dim2 = dim := by
    rw [hdim] at hdim2
    exact (Option.some.inj hdim2).symm
  subst e2
  constructor
  · refine ⟨data, hdata, hrows, ?_, fun hy => hpos hy d h1 h2⟩
    intro w c hc hd
    have hd3 : (w : Int) * 7 + (c : Int) - weekday y m 1 b + 1 = d := by omega
    rw [cell_in_month colors events y m y m d b _ dim2 w c (by omega) (by omega), hd3]
    simp
  · refine ⟨head, hhead, hout, ?_⟩
    rw [hnth d h1 h2, vertical_day_eq]
    simp

/-- The month of 14 February 2024, today and a holiday: the third row of
the grid and the listing show 14 in reverse video. -/
theorem today_cell_is_highlighted_witness :
    (((1 : Int) ≤ 2 ∧ (2 : Int) ≤ 12) ∧ days_in_month 2024 2 = some 29 ∧ (1 : Int) ≤ 14 ∧
      (14 : Int) ≤ 29) ∧
    ((∃ data, get_month_data {}
          [("2-14".toList, [⟨2, 14, "Valentine".toList, EventType.HOLIDAY⟩])]
          2024 2 2024 2 14 false = some data ∧
      (∀ w : Nat, w < data.weeks.length →
        data.weeks[w]? = some ((List.range 7).map (fun c : Nat =>
          get_month_data.cell {}
            [("2-14".toList, [⟨2, 14, "Valentine".toList, EventType.HOLIDAY⟩])]
            2024 2 2024 2 14 false
            (weekday 2024 2 1 false) 29 w c)).flatten) ∧
      (∀ w c : Nat, c < 7 →
        7 * (w : Int) + c - weekday 2024 2 1 false + 1 = 14 →
        get_month_data.cell {}
            [("2-14".toList, [⟨2, 14, "Valentine".toList, EventType.HOLIDAY⟩])]
            2024 2 2024 2 14 false
            (weekday 2024 2 1 false) 29 w c =
          REV ++
            (if (14 : Int) < 10 then ' ' :: to_string 14 else to_string 14)
            ++ RESET ++
            (if (c : Int) < 6 then [' '] else [])) ∧
      ((1 : Int) ≤ 2024 → ∃ w c : Nat, w < data.weeks.length ∧ c < 7 ∧
        7 * (w : Int) + c - weekday 2024 2 1 false + 1 = 14)) ∧
    (∃ head : Str, head.getLast? = some '\n' ∧
      print_month_vertical {}
          [("2-14".toList, [⟨2, 14, "Valentine".toList, EventType.HOLIDAY⟩])]
          2024 2 2024 2 14 false =
        some (head ++
          List.replicate (3 * (weekday 2024 2 1 false).toNat) ' ' ++
          ((List.range ((29 : Int)).toNat).map (fun (i : Nat) =>
            print_month_vertical.day {}
              [("2-14".toList, [⟨2, 14, "Valentine".toList, EventType.HOLIDAY⟩])]
              2024 2 2024 2 14 false
              ((i : Int) + 1))).flatten
          ++ ['\n']) ∧
      ((List.range ((29 : Int)).toNat).map (fun (i : Nat) =>
          print_month_vertical.day {}
            [("2-14".toList, [⟨2, 14, "Valentine".toList, EventType.HOLIDAY⟩])]
            2024 2 2024 2 14 false
            ((i : Int) + 1)))[((14 : Int) - 1).toNat]? =
        some (REV ++
          (if (14 : Int) < 10 then ' ' :: to_string 14 else to_string 14)
          ++ RESET ++ [' '] ++
          (if weekday 2024 2 14 false = 6
            then ['\n'] else [])))) ∧
    (get_month_data {}
        [("2-14".toList, [⟨2, 14, "Valentine".toList, EventType.HOLIDAY⟩])]
        2024 2 2024 2 14 false).map (fun data => data.weeks[2]?) =
      some (some ("\x1b[31m11\x1b[0m 12\x1b[0m 13\x1b[0m \x1b[7m14\x1b[0m ".toList ++
        "15\x1b[0m 16\x1b[0m \x1b[34m17\x1b[0m".toList)) :=
  ⟨by decide,
    today_cell_is_highlighted {}
      [("2-14".toList, [⟨2, 14, "Valentine".toList, EventType.HOLIDAY⟩])]
      2024 2 14 false 29 (by decide) (by decide) (by decide) (by decide),
    by decide⟩

/-- C6: for every month in 1..12 and every day `d` of it that is not today
and whose event list starts with `event0`, every cell of the grid of
`get_month_data` whose day number is `d` has the colour of the category of
`event0` as its style, whatever events follow in the list and whatever the
column and the policy; the rows of the grid are the rows of these cells and,
from year 1 on, one of them holds day `d`; the text of day `d` in the output
of `print_month_vertical` has the same style. -/
theorem first_event_colors_cell (colors : ColorConfig) (events : EventMap)
    (y m ty tm td d : Int) (b : Bool) (dim : Int) (hm : 1 ≤ m ∧ m ≤ 12)
    (hdim : days_in_month y m = some dim) (h1 : 1 ≤ d) (h2 : d ≤ dim)
    (hnot : ¬ (y = ty ∧ m = tm ∧ d = td))
    (event0 : Event) (rest : List Event) (hev : get_events events m d = event0 :: rest) :
    (∃ data, get_month_data colors events y m ty tm td b = some data ∧
      (∀ w : Nat, w < data.weeks.length →
        data.weeks[w]? = some ((List.range 7).map (fun c : Nat =>
          get_month_data.cell colors events y m ty tm td b
            (weekday y m 1 b) dim w c)).flatten) ∧
      (∀ w c : Nat, c < 7 → 7 * (w : Int) + c - weekday y m 1 b + 1 = d →
        get_month_data.cell colors events y m ty tm td b
            (weekday y m 1 b) dim w c =
          get_event_color colors event0 ++
            (if d < 10 then ' ' :: to_string d else to_string d) ++ RESET ++
            (if (c : Int) < 6 then [' '] else [])) ∧
      (1 ≤ y → ∃ w c : Nat, w < data.weeks.length ∧ c < 7 ∧
        7 * (w : Int) + c - weekday y m 1 b + 1 = d)) ∧
    (∃ head : Str, head.getLast? = some '\n' ∧
      print_month_vertical colors events y m ty tm td b =
        some (head ++ List.replicate (3 * (weekday y m 1 b).toNat) ' ' ++
          ((List.range dim.toNat).map (fun (i : Nat) =>
            print_month_vertical.day colors events y m ty tm td b ((i : Int) + 1))).flatten
          ++ ['\n']) ∧
      ((List.range dim.toNat).map (fun (i : Nat) =>
          print_month_vertical.day colors events y m ty tm td b ((i : Int) + 1)))[(d - 1).toNat]? =
        some (get_event_color colors event0 ++
          (if d < 10 then ' ' :: to_string d else to_string d) ++ RESET ++ [' '] ++
          (if weekday y m d b = 6 then ['\n'] else []))) ∧
    get_event_color colors event0 =
      (match event0.type with
       | EventType.HOLIDAY => colors.holiday
       | EventType.BIRTHDAY => colors.birthday
       | EventType.REMINDER => colors.reminder) := by
  obtain ⟨data, dim2, head, hdata, hdim2, _, _, hrows, hpos, hhead, hout, hnth⟩ :=
    month_views colors events y m ty tm td b hm
  have e2 : dim2 = dim := by
    rw [hdim] at hdim2
    exact (Option.some.inj hdim2).symm
  subst e2
  have hhas := has_events_of_get_events events m d event0 rest hev
  refine ⟨⟨data, hdata, hrows, ?_, fun hy => hpos hy d h1 h2⟩, ⟨head, hhead, hout, ?_⟩, rfl⟩
  · intro w c hc hd
    have hd3 : (w : Int) * 7 + (c : Int) - weekday y m 1 b + 1 = d := by omega
    rw [cell_in_month colors events y m ty tm td b _ dim2 w c (by omega) (by omega), hd3]
    rw [if_neg hnot, if_pos hhas, hev]
  · rw [hnth d h1 h2, vertical_day_eq]
    rw [if_neg hnot, if_pos hhas, hev]

/-- With a holiday loaded before a reminder on 25 December 2023, the grid
and the listing show 25 in the holiday colour. -/
theorem first_event_colors_cell_witness :
    (((1 : Int) ≤ 12 ∧ (12 : Int) ≤ 12) ∧ days_in_month 2023 12 = some 31 ∧ (1 : Int) ≤ 25 ∧
      (25 : Int) ≤ 31 ∧ ¬ ((2023 : Int) = 2024 ∧ (12 : Int) = 2 ∧ (25 : Int) = 14) ∧
      get_events (load_events ["[holidays]".toList, "12/25 Christmas".toList,
            "[reminders]".toList, "12/25 Buy gifts".toList]).events 12 25 =
        [⟨12, 25, "Christmas".toList, EventType.HOLIDAY⟩,
         ⟨12, 25, "Buy gifts".toList, EventType.REMINDER⟩]) ∧
    ((∃ data, get_month_data ({} : ColorConfig)
          (load_events ["[holidays]".toList, "12/25 Christmas".toList,
            "[reminders]".toList, "12/25 Buy gifts".toList]).events
          2023 12 2024 2 14 false = some data ∧
      (∀ w : Nat, w < data.weeks.length →
        data.weeks[w]? = some ((List.range 7).map (fun c : Nat =>
          get_month_data.cell ({} : ColorConfig)
            (load_events ["[holidays]".toList, "12/25 Christmas".toList,
            "[reminders]".toList, "12/25 Buy gifts".toList]).events
            2023 12 2024 2 14 false
            (weekday 2023 12 1 false) 31 w c)).flatten) ∧
      (∀ w c : Nat, c < 7 →
        7 * (w : Int) + c - weekday 2023 12 1 false + 1 = 25 →
        get_month_data.cell ({} : ColorConfig)
            (load_events ["[holidays]".toList, "12/25 Christmas".toList,
            "[reminders]".toList, "12/25 Buy gifts".toList]).events
            2023 12 2024 2 14 false
            (weekday 2023 12 1 false) 31 w c =
          get_event_color ({} : ColorConfig) (⟨12, 25, "Christmas".toList, EventType.HOLIDAY⟩ : Event) ++
            (if (25 : Int) < 10 then ' ' :: to_string 25 else to_string 25)
            ++ RESET ++
            (if (c : Int) < 6 then [' '] else [])) ∧
      ((1 : Int) ≤ 2023 → ∃ w c : Nat, w < data.weeks.length ∧ c < 7 ∧
        7 * (w : Int) + c - weekday 2023 12 1 false + 1 = 25)) ∧
    (∃ head : Str, head.getLast? = some '\n' ∧
      print_month_vertical ({} : ColorConfig)
          (load_events ["[holidays]".toList, "12/25 Christmas".toList,
            "[reminders]".toList, "12/25 Buy gifts".toList]).events
          2023 12 2024 2 14 false =
        some (head ++
          List.replicate (3 * (weekday 2023 12 1 false).toNat) ' ' ++
          ((List.range ((31 : Int)).toNat).map (fun (i : Nat) =>
            print_month_vertical.day ({} : ColorConfig)
              (load_events ["[holidays]".toList, "12/25 Christmas".toList,
            "[reminders]".toList, "12/25 Buy gifts".toList]).events
              2023 12 2024 2 14 false
              ((i : Int) + 1))).flatten
          ++ ['\n']) ∧
      ((List.range ((31 : Int)).toNat).map (fun (i : Nat) =>
          print_month_vertical.day ({} : ColorConfig)
            (load_events ["[holidays]".toList, "12/25 Christmas".toList,
            "[reminders]".toList, "12/25 Buy gifts".toList]).events
            2023 12 2024 2 14 false
            ((i : Int) + 1)))[((25 : Int) - 1).toNat]? =
        some (get_event_color ({} : ColorConfig) (⟨12, 25, "Christmas".toList, EventType.HOLIDAY⟩ : Event) ++
          (if (25 : Int) < 10 then ' ' :: to_string 25 else to_string 25)
          ++ RESET ++ [' '] ++
          (if weekday 2023 12 25 false = 6
            then ['\n'] else []))) ∧
    get_event_color ({} : ColorConfig) (⟨12, 25, "Christmas".toList, EventType.HOLIDAY⟩ : Event) =
      (match ((⟨12, 25, "Christmas".toList, EventType.HOLIDAY⟩ : Event)).type with
       | EventType.HOLIDAY => (({} : ColorConfig)).holiday
       | EventType.BIRTHDAY => (({} : ColorConfig)).birthday
       | EventType.REMINDER => (({} : ColorConfig)).reminder)) ∧
    (get_month_data {} (load_events ["[holidays]".toList, "12/25 Christmas".toList,
            "[reminders]".toList, "12/25 Buy gifts".toList]).events
        2023 12 2024 2 14 false).map (fun data => data.weeks[4]?) =
      some (some ("\x1b[31m24\x1b[0m \x1b[31m25\x1b[0m 26\x1b[0m 27\x1b[0m ".toList ++
        "28\x1b[0m 29\x1b[0m \x1b[34m30\x1b[0m".toList)) :=
  ⟨by decide,
    first_event_colors_cell {} (load_events ["[holidays]".toList, "12/25 Christmas".toList,
            "[reminders]".toList, "12/25 Buy gifts".toList]).events
      2023 12 2024 2 14 25 false 31 (by decide) (by decide) (by decide) (by decide) (by decide)
      ⟨12, 25, "Christmas".toList, EventType.HOLIDAY⟩
      [⟨12, 25, "Buy gifts".toList, EventType.REMINDER⟩] (by decide),
    by decide⟩

/-- C7: for a date from year 1 on that is not today and has no event, under
either policy every cell of the grid of `get_month_data` whose day number is
the day of the date has as its style the sunday-date colour when the date is
a Sunday of the calendar, the saturday-date colour when it is a Saturday, and
the workday-date colour otherwise; the rows of the grid are the rows of these
cells and one of them holds the day; the text of the day in the output of
`print_month_vertical` has the same style; the policy moves Sunday to the
column 6 or 0 and Saturday to the column 5 or 6 and does not enter the choice
of the colour. -/
theorem weekday_role_colors (colors : ColorConfig) (events : EventMap)
    (y m d : Nat) (ty tm td : Int) (b : Bool) (dim : Int)
    (hy : 1 ≤ y) (hm : 1 ≤ m ∧ m ≤ 12) (hdim : days_in_month y m = some dim)
    (h1 : 1 ≤ d) (h2 : (d : Int) ≤ dim)
    (hnot : ¬ ((y : Int) = ty ∧ (m : Int) = tm ∧ (d : Int) = td))
    (hnoev : has_events events m d = false) :
    (∃ data, get_month_data colors events (y : Int) (m : Int) ty tm td b = some data ∧
      (∀ w : Nat, w < data.weeks.length →
        data.weeks[w]? = some ((List.range 7).map (fun c : Nat =>
          get_month_data.cell colors events (y : Int) (m : Int) ty tm td b
            (weekday (y : Int) (m : Int) 1 b) dim w c)).flatten) ∧
      (∀ w c : Nat, c < 7 → 7 * (w : Int) + c - weekday (y : Int) (m : Int) 1 b + 1 = (d : Int) →
        get_month_data.cell colors events (y : Int) (m : Int) ty tm td b
            (weekday (y : Int) (m : Int) 1 b) dim w c =
          (if refDayOfWeek y m d = 0 then colors.sunday_date
           else if refDayOfWeek y m d = 6 then colors.saturday_date
           else colors.workday_date) ++
            (if (d : Int) < 10 then ' ' :: to_string (d : Int) else to_string (d : Int)) ++ RESET ++
            (if (c : Int) < 6 then [' '] else [])) ∧
      (∃ w c : Nat, w < data.weeks.length ∧ c < 7 ∧
        7 * (w : Int) + c - weekday (y : Int) (m : Int) 1 b + 1 = (d : Int))) ∧
    (∃ head : Str, head.getLast? = some '\n' ∧
      print_month_vertical colors events (y : Int) (m : Int) ty tm td b =
        some (head ++ List.replicate (3 * (weekday (y : Int) (m : Int) 1 b).toNat) ' ' ++
          ((List.range dim.toNat).map (fun (i : Nat) =>
            print_month_vertical.day colors events (y : Int) (m : Int) ty tm td b ((i : Int) + 1))).flatten
          ++ ['\n']) ∧
      ((List.range dim.toNat).map (fun (i : Nat) =>
          print_month_vertical.day colors events (y : Int) (m : Int) ty tm td b ((i : Int) + 1)))[((d : Int) - 1).toNat]? =
        some ((if refDayOfWeek y m d = 0 then colors.sunday_date
           else if refDayOfWeek y m d = 6 then colors.saturday_date
           else colors.workday_date) ++
          (if (d : Int) < 10 then ' ' :: to_string (d : Int) else to_string (d : Int)) ++ RESET ++ [' '] ++
          (if weekday (y : Int) (m : Int) (d : Int) b = 6 then ['\n'] else []))) ∧
    (refDayOfWeek y m d = 0 →
      weekday (y : Int) (m : Int) (d : Int) b = (if b = true then 6 else 0)) ∧
    (refDayOfWeek y m d = 6 →
      weekday (y : Int) (m : Int) (d : Int) b = (if b = true then 5 else 6)) := by
  have hyI : (1 : Int) ≤ y := by omega
  have hmI : (1 : Int) ≤ (m : Int) ∧ (m : Int) ≤ 12 := by omega
  have hdI : (1 : Int) ≤ d := by omega
  obtain ⟨data, dim2, head, hdata, hdim2, _, _, hrows, hpos, hhead, hout, hnth⟩ :=
    month_views colors events y m ty tm td b hmI
  have e2 : dim2 = dim := by
    rw [hdim] at hdim2
    exact (Option.some.inj hdim2).symm
  subst e2
  have hshift := weekday_shift y m d b hyI hmI.1 hdI
  have hmon := weekday_monday_first y m d hyI hmI.1 (by omega)
  have href := weekday_sunday_eq_ref y m d hy hm.1 hm.2
  have hr : refDayOfWeek y m d < 7 := by
    unfold refDayOfWeek
    omega
  have hnoev2 : ¬ (has_events events m d = true) := by simp [hnoev]
  have hstyle : ∀ wd : Int, weekday y m d b = wd →
      (if (b = true ∧ wd = 6) ∨ (¬ b = true ∧ wd = 0) then colors.sunday_date
       else if (b = true ∧ wd = 5) ∨ (¬ b = true ∧ wd = 6) then colors.saturday_date
       else colors.workday_date) =
      (if refDayOfWeek y m d = 0 then colors.sunday_date
       else if refDayOfWeek y m d = 6 then colors.saturday_date
       else colors.workday_date) := by
    intro wd hwd
    cases b
    · rw [href] at hwd
      have : (wd = 0 ↔ refDayOfWeek y m d = 0) ∧ (wd = 6 ↔ refDayOfWeek y m d = 6) := by
        omega
      simp [this.1, this.2]
    · rw [hmon, href] at hwd
      have : (wd = 6 ↔ refDayOfWeek y m d = 0) ∧ (wd = 5 ↔ refDayOfWeek y m d = 6) := by
        omega
      simp [this.1, this.2]
  refine ⟨⟨data, hdata, hrows, ?_, hpos hyI d hdI h2⟩, ⟨head, hhead, hout, ?_⟩, ?_, ?_⟩
  · intro w c hc hd
    have hd3 : (w : Int) * 7 + (c : Int) - weekday y m 1 b + 1 = d := by omega
    have hwd : weekday y m d b = (c : Int) := by
      rw [hshift]
      omega
    rw [cell_in_month colors events y m ty tm td b _ dim2 w c (by omega) (by omega), hd3]
    rw [if_neg hnot, if_neg hnoev2, hstyle c hwd]
  · rw [hnth d hdI h2, vertical_day_eq]
    rw [if_neg hnot, if_neg hnoev2, hstyle _ rfl]
  · intro h0
    cases b
    · rw [href, h0]
      rfl
    · rw [hmon, href, h0]
      rfl
  · intro h6
    cases b
    · rw [href, h6]
      rfl
    · rw [hmon, href, h6]
      rfl

/-- Sunday 7 January of year 1, Monday first: last column of the first row,
sunday-date colour. -/
theorem weekday_role_colors_witness :
    (1 ≤ 1 ∧ (1 ≤ 1 ∧ 1 ≤ 12) ∧ days_in_month ((1 : Nat) : Int) ((1 : Nat) : Int) = some 31 ∧
      1 ≤ 7 ∧ (((7 : Nat) : Int) ≤ 31) ∧
      ¬ (((1 : Nat) : Int) = 2024 ∧ ((1 : Nat) : Int) = 2 ∧ ((7 : Nat) : Int) = 14) ∧
      has_events [] ((1 : Nat) : Int) ((7 : Nat) : Int) = false) ∧
    ((∃ data, get_month_data ({} : ColorConfig)
          []
          ((1 : Nat) : Int) ((1 : Nat) : Int) 2024 2 14 true = some data ∧
      (∀ w : Nat, w < data.weeks.length →
        data.weeks[w]? = some ((List.range 7).map (fun c : Nat =>
          get_month_data.cell ({} : ColorConfig)
            []
            ((1 : Nat) : Int) ((1 : Nat) : Int) 2024 2 14 true
            (weekday ((1 : Nat) : Int) ((1 : Nat) : Int) 1 true) 31 w c)).flatten) ∧
      (∀ w c : Nat, c < 7 →
        7 * (w : Int) + c - weekday ((1 : Nat) : Int) ((1 : Nat) : Int) 1 true + 1 = ((7 : Nat) : Int) →
        get_month_data.cell ({} : ColorConfig)
            []
            ((1 : Nat) : Int) ((1 : Nat) : Int) 2024 2 14 true
            (weekday ((1 : Nat) : Int) ((1 : Nat) : Int) 1 true) 31 w c =
          (if refDayOfWeek 1 1 7 = 0 then (({} : ColorConfig)).sunday_date
           else if refDayOfWeek 1 1 7 = 6 then (({} : ColorConfig)).saturday_date
           else (({} : ColorConfig)).workday_date) ++
            (if ((7 : Nat) : Int) < 10 then ' ' :: to_string ((7 : Nat) : Int) else to_string ((7 : Nat) : Int))
            ++ RESET ++
            (if (c : Int) < 6 then [' '] else [])) ∧
      (∃ w c : Nat, w < data.weeks.length ∧ c < 7 ∧
        7 * (w : Int) + c - weekday ((1 : Nat) : Int) ((1 : Nat) : Int) 1 true + 1 = ((7 : Nat) : Int))) ∧
    (∃ head : Str, head.getLast? = some '\n' ∧
      print_month_vertical ({} : ColorConfig)
          []
          ((1 : Nat) : Int) ((1 : Nat) : Int) 2024 2 14 true =
        some (head ++
          List.replicate (3 * (weekday ((1 : Nat) : Int) ((1 : Nat) : Int) 1 true).toNat) ' ' ++
          ((List.range ((31 : Int)).toNat).map (fun (i : Nat) =>
            print_month_vertical.day ({} : ColorConfig)
              []
              ((1 : Nat) : Int) ((1 : Nat) : Int) 2024 2 14 true
              ((i : Int) + 1))).flatten
          ++ ['\n']) ∧
      ((List.range ((31 : Int)).toNat).map (fun (i : Nat) =>
          print_month_vertical.day ({} : ColorConfig)
            []
            ((1 : Nat) : Int) ((1 : Nat) : Int) 2024 2 14 true
            ((i : Int) + 1)))[(((7 : Nat) : Int) - 1).toNat]? =
        some ((if refDayOfWeek 1 1 7 = 0 then (({} : ColorConfig)).sunday_date
           else if refDayOfWeek 1 1 7 = 6 then (({} : ColorConfig)).saturday_date
           else (({} : ColorConfig)).workday_date) ++
          (if ((7 : Nat) : Int) < 10 then ' ' :: to_string ((7 : Nat) : Int) else to_string ((7 : Nat) : Int))
          ++ RESET ++ [' '] ++
          (if weekday ((1 : Nat) : Int) ((1 : Nat) : Int) ((7 : Nat) : Int) true = 6
            then ['\n'] else []))) ∧
    (refDayOfWeek 1 1 7 = 0 →
      weekday ((1 : Nat) : Int) ((1 : Nat) : Int) ((7 : Nat) : Int) true = (if true = true then 6 else 0)) ∧
    (refDayOfWeek 1 1 7 = 6 →
      weekday ((1 : Nat) : Int) ((1 : Nat) : Int) ((7 : Nat) : Int) true = (if true = true then 5 else 6))) ∧
    (get_month_data {} [] 1 1 2024 2 14 true).map (fun data => data.weeks[0]?) =
      some (some (" 1\x1b[0m  2\x1b[0m  3\x1b[0m  4\x1b[0m  5\x1b[0m ".toList ++
        "\x1b[34m 6\x1b[0m \x1b[31m 7\x1b[0m".toList)) :=
  ⟨by decide,
    weekday_role_colors {} [] 1 1 7 2024 2 14 true 31 (by decide) (by decide) (by decide)
      (by decide) (by decide) (by decide) (by decide),
    by decide⟩

/-- C8: one event line (a line that is not skipped, is not a section header
and is read outside `[colors]`) leaves the whole state, so the event index,
unchanged when its date token has no separator, when a conversion of a part
fails, or when the month is outside 1..12 or the day outside 1..31;
otherwise it appends one event with the parsed month and day under the key
of that day and leaves every other key as it was. -/
theorem event_line_effect (st : LoadState) (line : Str)
    (hl : ¬ (line.isEmpty ∨ line.head? = some '#' ∨ line.head? = some ';'))
    (hh : ¬ ((trim_right (trim_left line)).head? = some '[' ∧
      (trim_right (trim_left line)).getLast? = some ']'))
    (hs : st.current_section ≠ "colors".toList) :
    (str_find (load_events.date_token (trim_right (trim_left line))) '/' = none →
      str_find (load_events.date_token (trim_right (trim_left line))) '-' = none →
      load_events.step st line = st) ∧
    (∀ sep pos,
      ((sep = '/' ∧
          str_find (load_events.date_token (trim_right (trim_left line))) '/' = some pos) ∨
        (sep = '-' ∧
          str_find (load_events.date_token (trim_right (trim_left line))) '/' = none ∧
          str_find (load_events.date_token (trim_right (trim_left line))) '-' = some pos)) →
      ((stoi ((load_events.date_token (trim_right (trim_left line))).take pos) = none ∨
          stoi ((load_events.date_token (trim_right (trim_left line))).drop (pos + 1)) = none) →
        load_events.step st line = st) ∧
      (∀ month day,
        stoi ((load_events.date_token (trim_right (trim_left line))).take pos) = some month →
        stoi ((load_events.date_token (trim_right (trim_left line))).drop (pos + 1)) = some day →
        (¬ (1 ≤ month ∧ month ≤ 12 ∧ 1 ≤ day ∧ day ≤ 31) → load_events.step st line = st) ∧
        ((1 ≤ month ∧ month ≤ 12 ∧ 1 ≤ day ∧ day ≤ 31) →
          ∃ event : Event, event.month = month ∧ event.day = day ∧
            (load_events.step st line).events =
              events_push_back st.events (event_key month day) event ∧
            get_events (load_events.step st line).events month day =
              get_events st.events month day ++ [event] ∧
            (∀ key, key ≠ event_key month day →
              events_find (load_events.step st line).events key = events_find st.events key) ∧
            (load_events.step st line).colors = st.colors ∧
            (load_events.step st line).current_section = st.current_section))) ∧
    load_events.step { colors := {}, events := [], current_section := [], events_loaded := 0 }
        "13/1 Bad Date".toList =
      { colors := {}, events := [], current_section := [], events_loaded := 0 } := by
  rw [step_event_line st line hl hh hs]
  generalize trim_right (trim_left line) = tline
  obtain ⟨hno, hsep⟩ := parse_date_eq (load_events.date_token tline)
  obtain ⟨hout, hin⟩ := event_line_eq st tline
  refine ⟨?_, ?_, by decide⟩
  · intro h1 h2
    apply hout
    rw [hno h1 h2]
    decide
  · intro sep pos hfound
    obtain ⟨hfail, hok⟩ := hsep sep pos hfound
    constructor
    · intro hnone
      apply hout
      cases hm : stoi ((load_events.date_token tline).take pos) with
      | none =>
        rw [hfail hm]
        decide
      | some month =>
        rcases hnone with h | h
        · rw [hm] at h
          cases h
        · rw [(hok month hm).1 h]
          simp
    · intro month day hm hd
      have hp := (hok month hm).2 day hd
      constructor
      · intro hr
        apply hout
        rw [hp]
        simp only []
        omega
      · intro hr
        have hr' : (parse_date (load_events.date_token tline)).1 ≥ 1 ∧
            (parse_date (load_events.date_token tline)).1 ≤ 12 ∧
            (parse_date (load_events.date_token tline)).2 ≥ 1 ∧
            (parse_date (load_events.date_token tline)).2 ≤ 31 := by
          rw [hp]
          simp only []
          omega
        rw [hin hr', hp]
        refine ⟨_, rfl, rfl, rfl, ?_, ?_, rfl, rfl⟩
        · exact get_events_push_back st.events month day _
        · intro key hkey
          exact events_find_push_back_other st.events (event_key month day) key _ hkey

/-- The line `12/25 Christmas` in the unnamed section appends one event of
25 December. -/
theorem event_line_effect_witness :
    (¬ (("12/25 Christmas".toList).isEmpty ∨ ("12/25 Christmas".toList).head? = some '#' ∨
        ("12/25 Christmas".toList).head? = some ';') ∧
      ¬ ((trim_right (trim_left "12/25 Christmas".toList)).head? = some '[' ∧
        (trim_right (trim_left "12/25 Christmas".toList)).getLast? = some ']') ∧
      ([] : Str) ≠ "colors".toList) ∧
    ∃ event : Event, event.month = 12 ∧ event.day = 25 ∧
      (load_events.step
          { colors := {}, events := [], current_section := [], events_loaded := 0 }
          "12/25 Christmas".toList).events =
        events_push_back [] (event_key 12 25) event ∧
      get_events (load_events.step
          { colors := {}, events := [], current_section := [], events_loaded := 0 }
          "12/25 Christmas".toList).events 12 25 = get_events [] 12 25 ++ [event] ∧
      (∀ key, key ≠ event_key 12 25 →
        events_find (load_events.step
          { colors := {}, events := [], current_section := [], events_loaded := 0 }
          "12/25 Christmas".toList).events key = events_find [] key) ∧
      (load_events.step
          { colors := {}, events := [], current_section := [], events_loaded := 0 }
          "12/25 Christmas".toList).colors = {} ∧
      (load_events.step
          { colors := {}, events := [], current_section := [], events_loaded := 0 }
          "12/25 Christmas".toList).current_section = [] :=
  ⟨by decide,
    ((((event_line_effect
      { colors := {}, events := [], current_section := [], events_loaded := 0 }
      "12/25 Christmas".toList (by decide) (by decide) (by decide)).2.1
        '/' 2 (Or.inl ⟨rfl, by decide⟩)).2 12 25 (by decide) (by decide)).2 (by decide))⟩

/-- C9: for every month 1..12 and day 1..31, `parse_date` on the decimal text
of the month, a `/` or a `-`, and the decimal text of the day, each with or
without a leading zero, gives exactly that month and day. -/
theorem parse_date_accepts (m d : Nat) (hm : 1 ≤ m ∧ m ≤ 12) (hd : 1 ≤ d ∧ d ≤ 31)
    (sep : Char) (hsep : sep = '/' ∨ sep = '-') (zm zd : Bool) :
    parse_date (((if zm then ['0'] else []) ++ to_string (m : Int)) ++
      sep :: ((if zd then ['0'] else []) ++ to_string (d : Int))) = ((m : Int), (d : Int)) := by
  obtain ⟨hm1, hm2, hm3⟩ := month_text_facts ⟨m, by omega⟩ zm hm.1
  obtain ⟨hd1, hd2⟩ := day_text_facts ⟨d, by omega⟩ zd hd.1
  simp only [] at hm1 hm2 hm3 hd1 hd2
  generalize (if zm then ['0'] else []) ++ to_string (m : Int) = A at *
  generalize (if zd then ['0'] else []) ++ to_string (d : Int) = B at *
  have htake : (A ++ sep :: B).take A.length = A := by simp
  have hdrop : (A ++ sep :: B).drop (A.length + 1) = B := by simp
  obtain ⟨_, hp⟩ := parse_date_eq (A ++ sep :: B)
  rcases hsep with h | h
  · subst h
    have hf := str_find_append_sep A B '/' hm2
    have := ((hp '/' A.length (Or.inl ⟨rfl, hf⟩)).2 m (by rw [htake]; exact hm1)).2 d
      (by rw [hdrop]; exact hd1)
    exact this
  · subst h
    have hf := str_find_append_sep A B '-' hm3
    have hn := str_find_append_none A B '-' '/' hm2 (by decide) hd2
    have := ((hp '-' A.length (Or.inr ⟨rfl, hn, hf⟩)).2 m (by rw [htake]; exact hm1)).2 d
      (by rw [hdrop]; exact hd1)
    exact this

/-- The token `03-9` is 9 March. -/
theorem parse_date_accepts_witness :
    (((1 : Nat) ≤ 3 ∧ (3 : Nat) ≤ 12) ∧ ((1 : Nat) ≤ 9 ∧ (9 : Nat) ≤ 31) ∧
      ('-' = '/' ∨ '-' = '-')) ∧
    parse_date "03-9".toList = (3, 9) :=
  ⟨by decide, parse_date_accepts 3 9 (by decide) (by decide) '-' (by decide) true false⟩

/-- C10: while the current section, lower-cased when its header `[name]` was
read, is holiday(s), birthday(s) or reminder(s), every line that adds an
event adds exactly one, of category Holiday, Birthday or Reminder
respectively, whatever its description. -/
theorem section_fixes_category (st : LoadState) (line : Str) (ty : EventType)
    (hsec :
      ((st.current_section = "holidays".toList ∨ st.current_section = "holiday".toList) ∧
        ty = EventType.HOLIDAY) ∨
      ((st.current_section = "birthdays".toList ∨ st.current_section = "birthday".toList) ∧
        ty = EventType.BIRTHDAY) ∨
      ((st.current_section = "reminders".toList ∨ st.current_section = "reminder".toList) ∧
        ty = EventType.REMINDER)) :
    ((load_events.step st line).events = st.events ∨
      ∃ event : Event,
        (load_events.step st line).events =
          events_push_back st.events (event_key event.month event.day) event ∧
        event.type = ty) ∧
    (∀ (st0 : LoadState) (name : Str),
      (load_events.step st0 ('[' :: (name ++ [']']))).current_section = to_lower name) ∧
    (load_events ["[Holidays]".toList, "3/1 Ann birthday party".toList]).events =
      [("3-1".toList, [⟨3, 1, "Ann birthday party".toList, EventType.HOLIDAY⟩])] := by
  refine ⟨?_, ?_, by decide⟩
  · rcases step_events st line with h | ⟨event, h1, _, _, _, _, h2⟩
    · exact Or.inl h
    · right
      refine ⟨event, h1, ?_⟩
      rw [h2]
      obtain ⟨e1, e2, e3⟩ := event_type_of_section st.current_section event.description
      rcases hsec with ⟨h, rfl⟩ | ⟨h, rfl⟩ | ⟨h, rfl⟩
      · exact e1 h
      · exact e2 h
      · exact e3 h
  · intro st0 name
    rw [step_section_header]

/-- Under `birthdays` the line `7/4 Bank holiday` adds a Birthday. -/
theorem section_fixes_category_witness :
    ((("birthdays".toList = "holidays".toList ∨ "birthdays".toList = "holiday".toList) ∧
        EventType.BIRTHDAY = EventType.HOLIDAY) ∨
      (("birthdays".toList = "birthdays".toList ∨ "birthdays".toList = "birthday".toList) ∧
        EventType.BIRTHDAY = EventType.BIRTHDAY) ∨
      (("birthdays".toList = "reminders".toList ∨ "birthdays".toList = "reminder".toList) ∧
        EventType.BIRTHDAY = EventType.REMINDER)) ∧
    (((load_events.step
          { colors := {}, events := [], current_section := "birthdays".toList,
            events_loaded := 0 }
          "7/4 Bank holiday".toList).events = [] ∨
      ∃ event : Event,
        (load_events.step
          { colors := {}, events := [], current_section := "birthdays".toList,
            events_loaded := 0 }
          "7/4 Bank holiday".toList).events =
          events_push_back [] (event_key event.month event.day) event ∧
        event.type = EventType.BIRTHDAY) ∧
    (∀ (st0 : LoadState) (name : Str),
      (load_events.step st0 ('[' :: (name ++ [']']))).current_section = to_lower name) ∧
    (load_events ["[Holidays]".toList, "3/1 Ann birthday party".toList]).events =
      [("3-1".toList, [⟨3, 1, "Ann birthday party".toList, EventType.HOLIDAY⟩])]) :=
  ⟨by decide, section_fixes_category
    { colors := {}, events := [], current_section := "birthdays".toList, events_loaded := 0 }
    "7/4 Bank holiday".toList EventType.BIRTHDAY (by decide)⟩

/-- C11 (counterexample): the source's inference is not a case-insensitive
match: `HoliDay` and
`BirthDay` are not recognised, and a description with both words is a
Birthday, not a Holiday. -/
theorem inference_counterexample :
    (str_contains (to_lower "HoliDay trip".toList) "holiday".toList = true ∧
      (load_events ["3/1 HoliDay trip".toList]).events =
        [("3-1".toList, [⟨3, 1, "HoliDay trip".toList, EventType.REMINDER⟩])]) ∧
    (str_contains (to_lower "BirthDay of Ann".toList) "birthday".toList = true ∧
      (load_events ["3/2 BirthDay of Ann".toList]).events =
        [("3-2".toList, [⟨3, 2, "BirthDay of Ann".toList, EventType.REMINDER⟩])]) ∧
    (str_contains (to_lower "holiday birthday".toList) "holiday".toList = true ∧
      (load_events ["3/3 holiday birthday".toList]).events =
        [("3-3".toList, [⟨3, 3, "holiday birthday".toList, EventType.BIRTHDAY⟩])]) := by
  decide

/-- C11 (amended): outside the holiday(s)/birthday(s)/reminder(s) sections
every accepted event line adds exactly one event, a line that is not
accepted adds none, and the event added is a Birthday when its description
contains `birthday`, `Birthday` or `BIRTHDAY`, and otherwise a Holiday when
it contains `holiday`, `Holiday` or `HOLIDAY`; so `3/1 Team holiday` is
stored as a Holiday, `4/2 Ann Birthday` as a Birthday and
`5/5 HOLIDAY and BIRTHDAY` as a Birthday. -/
theorem category_inferred_from_spellings (st : LoadState) (line : Str)
    (hsec : ¬ (st.current_section = "holidays".toList ∨ st.current_section = "holiday".toList) ∧
      ¬ (st.current_section = "birthdays".toList ∨ st.current_section = "birthday".toList) ∧
      ¬ (st.current_section = "reminders".toList ∨ st.current_section = "reminder".toList)) :
    ((accepted_event st line = none ∧ (load_events.step st line).events = st.events) ∨
      ∃ event : Event, accepted_event st line = some event ∧
        (load_events.step st line).events =
          events_push_back st.events (event_key event.month event.day) event ∧
        ((str_contains event.description "birthday".toList = true ∨
            str_contains event.description "Birthday".toList = true ∨
            str_contains event.description "BIRTHDAY".toList = true) →
          event.type = EventType.BIRTHDAY) ∧
        (¬ (str_contains event.description "birthday".toList = true ∨
            str_contains event.description "Birthday".toList = true ∨
            str_contains event.description "BIRTHDAY".toList = true) →
          (str_contains event.description "holiday".toList = true ∨
            str_contains event.description "Holiday".toList = true ∨
            str_contains event.description "HOLIDAY".toList = true) →
          event.type = EventType.HOLIDAY)) ∧
    (load_events ["3/1 Team holiday".toList]).events =
      [("3-1".toList, [⟨3, 1, "Team holiday".toList, EventType.HOLIDAY⟩])] ∧
    (load_events ["4/2 Ann Birthday".toList]).events =
      [("4-2".toList, [⟨4, 2, "Ann Birthday".toList, EventType.BIRTHDAY⟩])] ∧
    (load_events ["5/5 HOLIDAY and BIRTHDAY".toList]).events =
      [("5-5".toList, [⟨5, 5, "HOLIDAY and BIRTHDAY".toList, EventType.BIRTHDAY⟩])] := by
  refine ⟨?_, by decide, by decide, by decide⟩
  rcases step_accepted st line with h | ⟨event, h1, h2, _, _⟩
  · exact Or.inl h
  · right
    have ht := accepted_event_type st line event h1
    refine ⟨event, h1, h2, ?_, ?_⟩
    · intro hb
      rw [ht, event_type_of_description _ _ hsec, if_pos hb]
    · intro hb hh
      rw [ht, event_type_of_description _ _ hsec, if_neg hb, if_pos hh]

/-- In the unnamed section the line `3/1 Team holiday` is accepted and adds
a Holiday. -/
theorem category_inferred_from_spellings_witness :
    (¬ (([] : Str) = "holidays".toList ∨ ([] : Str) = "holiday".toList) ∧
      ¬ (([] : Str) = "birthdays".toList ∨ ([] : Str) = "birthday".toList) ∧
      ¬ (([] : Str) = "reminders".toList ∨ ([] : Str) = "reminder".toList)) ∧
    (((accepted_event
          { colors := {}, events := [], current_section := [], events_loaded := 0 }
          "3/1 Team holiday".toList = none ∧
        (load_events.step
          { colors := {}, events := [], current_section := [], events_loaded := 0 }
          "3/1 Team holiday".toList).events = []) ∨
      ∃ event : Event, accepted_event
          { colors := {}, events := [], current_section := [], events_loaded := 0 }
          "3/1 Team holiday".toList = some event ∧
        (load_events.step
          { colors := {}, events := [], current_section := [], events_loaded := 0 }
          "3/1 Team holiday".toList).events =
          events_push_back [] (event_key event.month event.day) event ∧
        ((str_contains event.description "birthday".toList = true ∨
            str_contains event.description "Birthday".toList = true ∨
            str_contains event.description "BIRTHDAY".toList = true) →
          event.type = EventType.BIRTHDAY) ∧
        (¬ (str_contains event.description "birthday".toList = true ∨
            str_contains event.description "Birthday".toList = true ∨
            str_contains event.description "BIRTHDAY".toList = true) →
          (str_contains event.description "holiday".toList = true ∨
            str_contains event.description "Holiday".toList = true ∨
            str_contains event.description "HOLIDAY".toList = true) →
          event.type = EventType.HOLIDAY)) ∧
      (load_events ["3/1 Team holiday".toList]).events =
        [("3-1".toList, [⟨3, 1, "Team holiday".toList, EventType.HOLIDAY⟩])] ∧
      (load_events ["4/2 Ann Birthday".toList]).events =
        [("4-2".toList, [⟨4, 2, "Ann Birthday".toList, EventType.BIRTHDAY⟩])] ∧
      (load_events ["5/5 HOLIDAY and BIRTHDAY".toList]).events =
        [("5-5".toList, [⟨5, 5, "HOLIDAY and BIRTHDAY".toList, EventType.BIRTHDAY⟩])]) ∧
    (accepted_event
        { colors := {}, events := [], current_section := [], events_loaded := 0 }
        "3/1 Team holiday".toList =
      some ⟨3, 1, "Team holiday".toList, EventType.HOLIDAY⟩ ∧
      (load_events.step
        { colors := {}, events := [], current_section := [], events_loaded := 0 }
        "3/1 Team holiday".toList).events =
        [("3-1".toList, [⟨3, 1, "Team holiday".toList, EventType.HOLIDAY⟩])]) :=
  ⟨by decide, category_inferred_from_spellings
    { colors := {}, events := [], current_section := [], events_loaded := 0 }
    "3/1 Team holiday".toList (by decide), by decide⟩

/-- C12: outside the holiday(s)/birthday(s)/reminder(s) sections a line that
adds an event whose description contains neither `holiday` nor `birthday`
in any letter case adds a Reminder; so does `12/25 Christmas` in the unnamed
section. -/
theorem category_defaults_to_reminder (st : LoadState) (line : Str)
    (hsec : ¬ (st.current_section = "holidays".toList ∨ st.current_section = "holiday".toList) ∧
      ¬ (st.current_section = "birthdays".toList ∨ st.current_section = "birthday".toList) ∧
      ¬ (st.current_section = "reminders".toList ∨ st.current_section = "reminder".toList)) :
    ((load_events.step st line).events = st.events ∨
      ∃ event : Event,
        (load_events.step st line).events =
          events_push_back st.events (event_key event.month event.day) event ∧
        (str_contains (to_lower event.description) "holiday".toList = false →
          str_contains (to_lower event.description) "birthday".toList = false →
          event.type = EventType.REMINDER)) ∧
    (load_events ["12/25 Christmas".toList]).events =
      [("12-25".toList, [⟨12, 25, "Christmas".toList, EventType.REMINDER⟩])] := by
  refine ⟨?_, by decide⟩
  rcases step_events st line with h | ⟨event, h1, _, _, _, _, h2⟩
  · exact Or.inl h
  · right
    refine ⟨event, h1, ?_⟩
    intro hh hb
    have key : ∀ sub : Str, str_contains (to_lower event.description) (to_lower sub) = false →
        ¬ (str_contains event.description sub = true) := by
      intro sub hf ht
      rw [str_contains_to_lower _ _ ht] at hf
      cases hf
    have b1 := key "birthday".toList hb
    have b2 := key "Birthday".toList hb
    have b3 := key "BIRTHDAY".toList hb
    have c1 := key "holiday".toList hh
    have c2 := key "Holiday".toList hh
    have c3 := key "HOLIDAY".toList hh
    rw [h2, event_type_of_description _ _ hsec, if_neg (by tauto), if_neg (by tauto)]

/-- In a section named `work` the line `6/1 Report due` adds a Reminder. -/
theorem category_defaults_to_reminder_witness :
    (¬ ("work".toList = "holidays".toList ∨ "work".toList = "holiday".toList) ∧
      ¬ ("work".toList = "birthdays".toList ∨ "work".toList = "birthday".toList) ∧
      ¬ ("work".toList = "reminders".toList ∨ "work".toList = "reminder".toList)) ∧
    (((load_events.step
        { colors := {}, events := [], current_section := "work".toList, events_loaded := 0 }
        "6/1 Report due".toList).events = [] ∨
      ∃ event : Event,
        (load_events.step
          { colors := {}, events := [], current_section := "work".toList, events_loaded := 0 }
          "6/1 Report due".toList).events =
          events_push_back [] (event_key event.month event.day) event ∧
        (str_contains (to_lower event.description) "holiday".toList = false →
          str_contains (to_lower event.description) "birthday".toList = false →
          event.type = EventType.REMINDER)) ∧
    (load_events ["12/25 Christmas".toList]).events =
      [("12-25".toList, [⟨12, 25, "Christmas".toList, EventType.REMINDER⟩])]) :=
  ⟨by decide, category_defaults_to_reminder
    { colors := {}, events := [], current_section := "work".toList, events_loaded := 0 }
    "6/1 Report due".toList (by decide)⟩

/-- C13: after loading any sequence of lines into an empty index, for every
month 1..12 and day 1..31 `get_events` returns the events of the accepted
lines of that month and day, in the order the lines were read; every stored
event is under the key of its own month and day, and two days in range with
the same key are the same day. -/
theorem get_events_returns_accepted (lines : List Str) (m d : Int)
    (hm : 1 ≤ m ∧ m ≤ 12) (hd : 1 ≤ d ∧ d ≤ 31) :
    get_events (load_events lines).events m d =
      (accepted_events
          { colors := {}, events := [], current_section := [], events_loaded := 0 }
          lines).filter (fun e => decide (e.month = m ∧ e.day = d)) ∧
    (∀ key v, events_find (load_events lines).events key = some v →
      ∀ e ∈ v, key = event_key e.month e.day) ∧
    (∀ m2 d2 : Int, (1 ≤ m2 ∧ m2 ≤ 12) → (1 ≤ d2 ∧ d2 ≤ 31) →
      event_key m2 d2 = event_key m d → m2 = m ∧ d2 = d) := by
  refine ⟨?_, ?_, ?_⟩
  · unfold load_events
    rw [get_events_foldl lines _ m d hm hd]
    rfl
  · intro key v hv e he
    have := stored_under_own_key lines
      { colors := {}, events := [], current_section := [], events_loaded := 0 }
      (by intro key v hv; simp [events_find] at hv) key v hv
    exact (this.2 e he).1
  · intro m2 d2 hm2 hd2 h
    exact event_key_injective m d m2 d2 hm hd hm2 hd2 h

/-- Two accepted lines of 25 December around a rejected line: both events,
in reading order. -/
theorem get_events_returns_accepted_witness :
    (((1 : Int) ≤ 12 ∧ (12 : Int) ≤ 12) ∧ ((1 : Int) ≤ 25 ∧ (25 : Int) ≤ 31)) ∧
    (get_events (load_events ["12/25 Christmas".toList, "13/1 Bad Date".toList,
        "12/25 Buy gifts".toList]).events 12 25 =
      (accepted_events
          { colors := {}, events := [], current_section := [], events_loaded := 0 }
          ["12/25 Christmas".toList, "13/1 Bad Date".toList,
            "12/25 Buy gifts".toList]).filter (fun e => decide (e.month = 12 ∧ e.day = 25)) ∧
    (∀ key v, events_find (load_events ["12/25 Christmas".toList, "13/1 Bad Date".toList,
        "12/25 Buy gifts".toList]).events key = some v →
      ∀ e ∈ v, key = event_key e.month e.day) ∧
    (∀ m2 d2 : Int, (1 ≤ m2 ∧ m2 ≤ 12) → (1 ≤ d2 ∧ d2 ≤ 31) →
      event_key m2 d2 = event_key 12 25 → m2 = 12 ∧ d2 = 25)) ∧
    get_events (load_events ["12/25 Christmas".toList, "13/1 Bad Date".toList,
        "12/25 Buy gifts".toList]).events 12 25 =
      [⟨12, 25, "Christmas".toList, EventType.REMINDER⟩,
       ⟨12, 25, "Buy gifts".toList, EventType.REMINDER⟩] :=
  ⟨by decide, get_events_returns_accepted ["12/25 Christmas".toList, "13/1 Bad Date".toList,
      "12/25 Buy gifts".toList] 12 25 (by decide) (by decide), by decide⟩

/-- C14 (counterexample): the years are 32-bit `int`. For year -2147483648
and month 1 the year before is not an `int`, and the view shows December of
2147483647, not December of y - 1; for year 2147483647 and month 12 the view
shows January of -2147483648, not January of y + 1. -/
theorem three_month_view_counterexample :
    (∃ prev cur next : MonthData,
      main.three_months {} [] (-2147483648) 1 15 false =
        some (print_month_horizontal {} [prev, cur, next] false) ∧
      get_month_data {} [] 2147483647 12 (-2147483648) 1 15 false = some prev ∧
      (prev.year = 2147483647 ∧ prev.month = 12) ∧ prev.year ≠ -2147483648 - 1 ∧
      (cur.year = -2147483648 ∧ cur.month = 1)) ∧
    (∃ prev cur next : MonthData,
      main.three_months {} [] 2147483647 12 15 false =
        some (print_month_horizontal {} [prev, cur, next] false) ∧
      get_month_data {} [] (-2147483648) 1 2147483647 12 15 false = some next ∧
      (next.year = -2147483648 ∧ next.month = 1) ∧ next.year ≠ 2147483647 + 1 ∧
      (cur.year = 2147483647 ∧ cur.month = 12)) ∧
    (get_month_data {} [] 2147483647 12 (-2147483648) 1 15 false).map
      (fun data => data.header) = some "   \x1b[34mDec 2147483647\x1b[0m   ".toList := by
  refine ⟨?_, ?_, by decide⟩
  · obtain ⟨prev, cur, next, hprev, hcur, hnext, h3, yp, yc, yn⟩ :=
      three_months_eq {} [] (-2147483648) 1 15 false (by decide)
    have e : int_wrap (-2147483648 - 1) = 2147483647 := by decide
    rw [if_neg (by decide), if_neg (by decide), e] at hprev yp
    refine ⟨prev, cur, next, h3, hprev, yp, ?_, yc⟩
    rw [yp.1]
    decide
  · obtain ⟨prev, cur, next, hprev, hcur, hnext, h3, yp, yc, yn⟩ :=
      three_months_eq {} [] 2147483647 12 15 false (by decide)
    have e : int_wrap (2147483647 + 1) = -2147483648 := by decide
    rw [if_neg (by decide), if_neg (by decide), e] at hnext yn
    refine ⟨prev, cur, next, h3, hnext, yn, ?_, yc⟩
    rw [yn.1]
    decide

/-- C14 (amended): for every year `y` with -2147483648 < y < 2147483647,
so that y - 1 and y + 1 are 32-bit `int`, and month `m` in 1..12, the
three-month view is `print_month_horizontal` on the grids of, in this order,
the previous month ((y, m - 1), or (y - 1, 12) when m = 1), month `m` of
`y`, and the next month ((y, m + 1), or (y + 1, 1) when m = 12); for m = 1
these are month 12 of y - 1, month 1 and month 2. -/
theorem three_month_view_order (colors : ColorConfig) (events : EventMap)
    (y m d : Int) (b : Bool) (hm : 1 ≤ m ∧ m ≤ 12)
    (hy : -2147483648 < y ∧ y < 2147483647) :
    ∃ prev cur next : MonthData,
      get_month_data colors events (if m > 1 then y else y - 1) (if m > 1 then m - 1 else 12)
        y m d b = some prev ∧
      get_month_data colors events y m y m d b = some cur ∧
      get_month_data colors events (if m < 12 then y else y + 1) (if m < 12 then m + 1 else 1)
        y m d b = some next ∧
      main.three_months colors events y m d b =
        some (print_month_horizontal colors [prev, cur, next] b) ∧
      main.render colors events y m d true false false b =
        some (print_month_horizontal colors [prev, cur, next] b ++
          (if events.isEmpty then [] else print_events_legend colors)) ∧
      (prev.year = (if m > 1 then y else y - 1) ∧ prev.month = (if m > 1 then m - 1 else 12)) ∧
      (cur.year = y ∧ cur.month = m) ∧
      (next.year = (if m < 12 then y else y + 1) ∧ next.month = (if m < 12 then m + 1 else 1)) ∧
      (m = 1 → (prev.year = y - 1 ∧ prev.month = 12) ∧ (cur.year = y ∧ cur.month = 1) ∧
        (next.year = y ∧ next.month = 2)) := by
  obtain ⟨prev, cur, next, hprev, hcur, hnext, h3, yp, yc, yn⟩ :=
    three_months_eq colors events y m d b hm
  have ep : (if m > 1 then y else int_wrap (y - 1)) = (if m > 1 then y else y - 1) := by
    split
    · rfl
    · rw [int_wrap_of_range _ (by omega)]
  have en : (if m < 12 then y else int_wrap (y + 1)) = (if m < 12 then y else y + 1) := by
    split
    · rfl
    · rw [int_wrap_of_range _ (by omega)]
  rw [ep] at hprev yp
  rw [en] at hnext yn
  refine ⟨prev, cur, next, hprev, hcur, hnext, h3, ?_, yp, yc, yn, ?_⟩
  · unfold main.render
    simp only [h3, Bool.false_eq_true, if_false, if_true]
    cases events.isEmpty <;> simp
  · intro h1
    subst h1
    simp at yp yn
    exact ⟨yp, yc, yn⟩

/-- The three-month view of January 2024: December 2023, January and
February 2024. -/
theorem three_month_view_order_witness :
    (((1 : Int) ≤ 1 ∧ (1 : Int) ≤ 12) ∧
      ((-2147483648 : Int) < 2024 ∧ (2024 : Int) < 2147483647)) ∧
    ∃ prev cur next : MonthData,
      get_month_data {} [] (if (1 : Int) > 1 then 2024 else 2024 - 1)
        (if (1 : Int) > 1 then 1 - 1 else 12) 2024 1 15 false = some prev ∧
      get_month_data {} [] 2024 1 2024 1 15 false = some cur ∧
      get_month_data {} [] (if (1 : Int) < 12 then 2024 else 2024 + 1)
        (if (1 : Int) < 12 then 1 + 1 else 1) 2024 1 15 false = some next ∧
      main.three_months {} [] 2024 1 15 false =
        some (print_month_horizontal {} [prev, cur, next] false) ∧
      main.render {} [] 2024 1 15 true false false false =
        some (print_month_horizontal {} [prev, cur, next] false ++
          (if ([] : EventMap).isEmpty then [] else print_events_legend {})) ∧
      (prev.year = (if (1 : Int) > 1 then 2024 else 2024 - 1) ∧
        prev.month = (if (1 : Int) > 1 then 1 - 1 else 12)) ∧
      (cur.year = 2024 ∧ cur.month = 1) ∧
      (next.year = (if (1 : Int) < 12 then 2024 else 2024 + 1) ∧
        next.month = (if (1 : Int) < 12 then 1 + 1 else 1)) ∧
      ((1 : Int) = 1 → (prev.year = 2024 - 1 ∧ prev.month = 12) ∧
        (cur.year = 2024 ∧ cur.month = 1) ∧ (next.year = 2024 ∧ next.month = 2)) :=
  ⟨by decide, three_month_view_order {} [] 2024 1 15 false (by decide) (by decide)⟩

/-- C15 (counterexample): the years are 32-bit `int`. From start year
2147483647 and start month 11 the third month shown is January of
-2147483648, not January of y + 1. -/
theorem twelve_months_counterexample :
    print_twelve_months.month_at 2147483647 11 0 0 = (2147483647, 11) ∧
    print_twelve_months.month_at 2147483647 11 0 1 = (2147483647, 12) ∧
    print_twelve_months.month_at 2147483647 11 0 2 = (-2147483648, 1) ∧
    (2147483647 : Int) + (11 - 1 + ((2 : Nat) : Int)) / 12 = 2147483648 ∧
    print_twelve_months.month_at 2147483647 11 (2 / 3) (2 % 3) ≠
      ((2147483647 : Int) + (11 - 1 + ((2 : Nat) : Int)) / 12,
        (11 - 1 + ((2 : Nat) : Int)) % 12 + 1) ∧
    (get_month_data {} [] (print_twelve_months.month_at 2147483647 11 0 2).1
        (print_twelve_months.month_at 2147483647 11 0 2).2 2024 1 1 false).map
      (fun data => data.header) = some "  \x1b[36mJan -2147483648\x1b[0m   ".toList := by
  decide

/-- C15 (amended): for every start year `y` with
-2147483648 < y < 2147483647, so that y + 1 is a 32-bit `int`, and start
month `s` in 1..12, `print_twelve_months` shows, three to a row in reading order, the 12
months whose `k`-th (k = 0..11) is month `((s - 1 + k) mod 12) + 1` of year
`y + floor((s - 1 + k) / 12)`: every month is in 1..12, each is the calendar
successor of the one before, each month number occurs exactly once, and
`s = 11` gives months 11, 12 of `y` then 1..10 of `y + 1`. -/
theorem twelve_months_order (colors : ColorConfig) (events : EventMap)
    (y s ty tm td : Int) (b : Bool) (hs : 1 ≤ s ∧ s ≤ 12)
    (hy : -2147483648 < y ∧ y < 2147483647) :
    (∀ k : Nat, k < 12 →
      print_twelve_months.month_at y s (k / 3) (k % 3) =
        (y + (s - 1 + (k : Int)) / 12, (s - 1 + (k : Int)) % 12 + 1) ∧
      1 ≤ (print_twelve_months.month_at y s (k / 3) (k % 3)).2 ∧
      (print_twelve_months.month_at y s (k / 3) (k % 3)).2 ≤ 12) ∧
    (∀ k : Nat, k < 11 →
      print_twelve_months.month_at y s ((k + 1) / 3) ((k + 1) % 3) =
        (if (print_twelve_months.month_at y s (k / 3) (k % 3)).2 = 12 then
          ((print_twelve_months.month_at y s (k / 3) (k % 3)).1 + 1, 1)
         else
          ((print_twelve_months.month_at y s (k / 3) (k % 3)).1,
            (print_twelve_months.month_at y s (k / 3) (k % 3)).2 + 1))) ∧
    (∀ month : Int, 1 ≤ month → month ≤ 12 →
      ∃! k : Nat, k < 12 ∧ (print_twelve_months.month_at y s (k / 3) (k % 3)).2 = month) ∧
    (∃ data : Nat → MonthData,
      (∀ k : Nat, k < 12 →
        get_month_data colors events (y + (s - 1 + (k : Int)) / 12)
          ((s - 1 + (k : Int)) % 12 + 1) ty tm td b = some (data k)) ∧
      print_twelve_months colors events y s ty tm td b =
        some (List.replicate ((80 - (to_string y).length) / 2) ' ' ++ to_string y ++
          ['\n', '\n'] ++
          ((List.range 4).map (fun row =>
            print_month_horizontal colors
              [data (3 * row), data (3 * row + 1), data (3 * row + 2)] b ++ ['\n'])).flatten)) ∧
    (List.range 12).map (fun k => print_twelve_months.month_at 2024 11 (k / 3) (k % 3)) =
      [(2024, 11), (2024, 12), (2025, 1), (2025, 2), (2025, 3), (2025, 4), (2025, 5),
       (2025, 6), (2025, 7), (2025, 8), (2025, 9), (2025, 10)] := by
  have hat : ∀ k : Nat, k < 12 → print_twelve_months.month_at y s (k / 3) (k % 3) =
      (y + (s - 1 + (k : Int)) / 12, (s - 1 + (k : Int)) % 12 + 1) := by
    intro k hk
    have : 3 * (k / 3) + k % 3 = k := Nat.div_add_mod k 3
    rw [month_at_eq y s _ _ hs (by omega) (by omega) (fun _ => hy.2)]
    rw [this]
  refine ⟨?_, ?_, ?_, ?_, by decide⟩
  · intro k hk
    rw [hat k hk]
    exact ⟨rfl, by show (1 : Int) ≤ _; omega, by show _ ≤ (12 : Int); omega⟩
  · intro k hk
    rw [hat k (by omega), hat (k + 1) (by omega)]
    simp only []
    split
    · rename_i h
      rw [Prod.mk.injEq]
      push_cast
      omega
    · rename_i h
      rw [Prod.mk.injEq]
      push_cast
      omega
  · intro month h1 h2
    refine ⟨((month - s) % 12).toNat, ⟨by omega, ?_⟩, ?_⟩
    · rw [hat _ (by omega)]
      show _ % 12 + 1 = month
      omega
    · rintro k ⟨hk, hk2⟩
      rw [hat k hk] at hk2
      simp only [] at hk2
      omega
  · have hex : ∀ k : Nat, ∃ dk, get_month_data colors events (y + (s - 1 + (k : Int)) / 12)
        ((s - 1 + (k : Int)) % 12 + 1) ty tm td b = some dk := by
      intro k
      obtain ⟨dk, _, h, _⟩ := get_month_data_some colors events (y + (s - 1 + (k : Int)) / 12)
        ((s - 1 + (k : Int)) % 12 + 1) ty tm td b (by omega)
      exact ⟨dk, h⟩
    refine ⟨fun k => (get_month_data colors events (y + (s - 1 + (k : Int)) / 12)
        ((s - 1 + (k : Int)) % 12 + 1) ty tm td b).getD ⟨[], [], 0, 0⟩, ?_, ?_⟩
    · intro k _
      obtain ⟨dk, h⟩ := hex k
      simp only [h, Option.getD_some]
    · have hrow : ∀ row : Nat, row < 4 →
          print_twelve_months.row colors events y s ty tm td b row =
            some (print_month_horizontal colors
              [(get_month_data colors events (y + (s - 1 + ((3 * row : Nat) : Int)) / 12)
                  ((s - 1 + ((3 * row : Nat) : Int)) % 12 + 1) ty tm td b).getD ⟨[], [], 0, 0⟩,
               (get_month_data colors events (y + (s - 1 + ((3 * row + 1 : Nat) : Int)) / 12)
                  ((s - 1 + ((3 * row + 1 : Nat) : Int)) % 12 + 1) ty tm td b).getD
                    ⟨[], [], 0, 0⟩,
               (get_month_data colors events (y + (s - 1 + ((3 * row + 2 : Nat) : Int)) / 12)
                  ((s - 1 + ((3 * row + 2 : Nat) : Int)) % 12 + 1) ty tm td b).getD
                    ⟨[], [], 0, 0⟩] b ++ ['\n']) := by
        intro row hrow4
        apply twelve_months_row_eq
        · rw [month_at_eq y s row 0 hs (by omega) (by omega) (fun _ => hy.2)]
          obtain ⟨dk, h⟩ := hex (3 * row)
          simp only [Nat.add_zero, h, Option.getD_some]
        · rw [month_at_eq y s row 1 hs (by omega) (by omega) (fun _ => hy.2)]
          obtain ⟨dk, h⟩ := hex (3 * row + 1)
          simp only [h, Option.getD_some]
        · rw [month_at_eq y s row 2 hs (by omega) (by omega) (fun _ => hy.2)]
          obtain ⟨dk, h⟩ := hex (3 * row + 2)
          simp only [h, Option.getD_some]
      unfold print_twelve_months
      have hr : List.range 4 = [0, 1, 2, 3] := by decide
      rw [hr]
      simp only [List.mapM_cons, List.mapM_nil, hrow 0 (by omega), hrow 1 (by omega),
        hrow 2 (by omega), hrow 3 (by omega)]
      rfl

/-- The twelve months from November 2024. -/
theorem twelve_months_order_witness :
    (((1 : Int) ≤ 11 ∧ (11 : Int) ≤ 12) ∧
      ((-2147483648 : Int) < 2024 ∧ (2024 : Int) < 2147483647)) ∧
    ((∀ k : Nat, k < 12 →
      print_twelve_months.month_at 2024 11 (k / 3) (k % 3) =
        (2024 + (11 - 1 + (k : Int)) / 12, (11 - 1 + (k : Int)) % 12 + 1) ∧
      1 ≤ (print_twelve_months.month_at 2024 11 (k / 3) (k % 3)).2 ∧
      (print_twelve_months.month_at 2024 11 (k / 3) (k % 3)).2 ≤ 12) ∧
    (∀ k : Nat, k < 11 →
      print_twelve_months.month_at 2024 11 ((k + 1) / 3) ((k + 1) % 3) =
        (if (print_twelve_months.month_at 2024 11 (k / 3) (k % 3)).2 = 12 then
          ((print_twelve_months.month_at 2024 11 (k / 3) (k % 3)).1 + 1, 1)
         else
          ((print_twelve_months.month_at 2024 11 (k / 3) (k % 3)).1,
            (print_twelve_months.month_at 2024 11 (k / 3) (k % 3)).2 + 1))) ∧
    (∀ month : Int, 1 ≤ month → month ≤ 12 →
      ∃! k : Nat, k < 12 ∧
        (print_twelve_months.month_at 2024 11 (k / 3) (k % 3)).2 = month) ∧
    (∃ data : Nat → MonthData,
      (∀ k : Nat, k < 12 →
        get_month_data {} [] (2024 + (11 - 1 + (k : Int)) / 12)
          ((11 - 1 + (k : Int)) % 12 + 1) 2024 11 5 false = some (data k)) ∧
      print_twelve_months {} [] 2024 11 2024 11 5 false =
        some (List.replicate ((80 - (to_string 2024).length) / 2) ' ' ++ to_string 2024 ++
          ['\n', '\n'] ++
          ((List.range 4).map (fun row =>
            print_month_horizontal {}
              [data (3 * row), data (3 * row + 1), data (3 * row + 2)] false
                ++ ['\n'])).flatten)) ∧
    (List.range 12).map (fun k => print_twelve_months.month_at 2024 11 (k / 3) (k % 3)) =
      [(2024, 11), (2024, 12), (2025, 1), (2025, 2), (2025, 3), (2025, 4), (2025, 5),
       (2025, 6), (2025, 7), (2025, 8), (2025, 9), (2025, 10)]) :=
  ⟨by decide, twelve_months_order {} [] 2024 11 2024 11 5 false (by decide) (by decide)⟩

/-- C16: for every year >= 1, month in 1..12, policy, today reference and
event index, when every colour of the assignment is a style,
`get_month_data` builds between 4 and 6 week rows, and each of them is seven
cells separated by single spaces, with no separator after the seventh; each
cell takes two display columns and is blank or a style, the day number
right-justified in two characters and the reset; the row takes 20 display
columns. -/
theorem week_rows_are_seven_cells (colors : ColorConfig) (events : EventMap)
    (y m ty tm td : Int) (b : Bool) (hy : 1 ≤ y) (hm : 1 ≤ m ∧ m ≤ 12)
    (hc : colors_are_styles colors = true) :
    ∃ data dim, get_month_data colors events y m ty tm td b = some data ∧
      days_in_month y m = some dim ∧
      (4 ≤ data.weeks.length ∧ data.weeks.length ≤ 6) ∧
      (∀ w : Nat, w < data.weeks.length → ∃ row, data.weeks[w]? = some row ∧ row ∈ data.weeks) ∧
      ∀ row ∈ data.weeks,
        display_width row = 20 ∧
        ∃ cells : List Str, cells.length = 7 ∧ row = ([' '] : Str).intercalate cells ∧
          ∀ cell ∈ cells, display_width cell = 2 ∧
            (cell = [' ', ' '] ∨
              ∃ (style : Str) (d : Int), is_style style = true ∧ 1 ≤ d ∧ d ≤ dim ∧
                cell = style ++ (if d < 10 then ' ' :: to_string d else to_string d)
                  ++ RESET) := by
  obtain ⟨data, dim, hdata, hdim, hlo, hhi, hweeks⟩ :=
    get_month_data_some colors events y m ty tm td b hm
  have hs := weekday_range y m 1 b hy hm.1 (by omega)
  have hT := total_weeks_eq (weekday y m 1 b) dim hs.1 (by omega)
  have hlen : (data.weeks.length : Int) = (weekday y m 1 b + dim - 1) / 7 + 1 := by
    rw [hweeks, List.length_map, List.length_range, hT]
  refine ⟨data, dim, hdata, hdim, ⟨by omega, by omega⟩, ?_, ?_⟩
  · intro w hw
    exact ⟨data.weeks[w], List.getElem?_eq_getElem hw, List.getElem_mem hw⟩
  · intro row hrow
    rw [hweeks, List.mem_map] at hrow
    obtain ⟨week, _, rfl⟩ := hrow
    obtain ⟨cells, h1, h2, h3, h4⟩ :=
      week_str_cells colors events y m ty tm td b (weekday y m 1 b) dim week hc hhi
    exact ⟨balanced_width h4, cells, h1, h2, h3⟩

/-- The grid of February 2024 with the default colours: five rows. -/
theorem week_rows_are_seven_cells_witness :
    ((1 : Int) ≤ 2024 ∧ ((1 : Int) ≤ 2 ∧ (2 : Int) ≤ 12) ∧
      colors_are_styles {} = true) ∧
    (∃ data dim, get_month_data {} [] 2024 2 2024 2 14 false = some data ∧
      days_in_month 2024 2 = some dim ∧
      (4 ≤ data.weeks.length ∧ data.weeks.length ≤ 6) ∧
      (∀ w : Nat, w < data.weeks.length → ∃ row, data.weeks[w]? = some row ∧ row ∈ data.weeks) ∧
      ∀ row ∈ data.weeks,
        display_width row = 20 ∧
        ∃ cells : List Str, cells.length = 7 ∧ row = ([' '] : Str).intercalate cells ∧
          ∀ cell ∈ cells, display_width cell = 2 ∧
            (cell = [' ', ' '] ∨
              ∃ (style : Str) (d : Int), is_style style = true ∧ 1 ≤ d ∧ d ≤ dim ∧
                cell = style ++ (if d < 10 then ' ' :: to_string d else to_string d)
                  ++ RESET)) ∧
    ((get_month_data {} [] 2024 2 2024 2 14 false).map (fun data => data.weeks.length) = some 5 ∧
      (get_month_data {} [] 2024 2 2024 2 14 false).map (fun data => data.weeks[0]?) =
        some (some ("             1\x1b[0m  2\x1b[0m \x1b[34m 3\x1b[0m".toList))) :=
  ⟨by decide, week_rows_are_seven_cells {} [] 2024 2 2024 2 14 false (by decide) (by decide)
    (by decide), by decide⟩

/-- C17: for every month in 1..12 and every year, when the colour of the
month is a style, the header of `get_month_data` is the text of the month
name and the year, cut to 20 characters, between the colour of the month and
the reset, after `floor((20 - len) / 2)` spaces and before the remaining
`20 - len - floor((20 - len) / 2)` spaces, `len` being the length of the
text; it takes 20 display columns. -/
theorem header_is_centered (colors : ColorConfig) (events : EventMap)
    (y m ty tm td : Int) (b : Bool) (hm : 1 ≤ m ∧ m ≤ 12)
    (hc : is_style (get_month_color colors m) = true) :
    ∃ data name text, get_month_data colors events y m ty tm td b = some data ∧
      array_get get_month_data.names (m - 1) = some name ∧
      text = (name ++ ' ' :: to_string y).take 20 ∧
      data.header =
        List.replicate ((20 - text.length) / 2) ' ' ++
          get_month_color colors m ++ text ++ RESET ++
          List.replicate (20 - text.length - (20 - text.length) / 2) ' ' ∧
      display_width data.header = 20 := by
  obtain ⟨data, name, hdata, hname, hmem, hheader⟩ :=
    get_month_data_header colors events y m ty tm td b hm
  refine ⟨data, name, _, hdata, hname, rfl, hheader, ?_⟩
  rw [hheader]
  have hplain : ∀ c ∈ (name ++ ' ' :: to_string y).take 20, c ≠ '\x1b' := by
    intro c hcmem
    have hc2 := List.mem_of_mem_take hcmem
    rcases List.mem_append.mp hc2 with h | h
    · exact month_names_plain name hmem c h
    · rcases List.mem_cons.mp h with e | e
      · rw [e]; decide
      · exact to_string_no_escape y c e
  have hlen : ((name ++ ' ' :: to_string y).take 20).length ≤ 20 := by
    rw [List.length_take]
    omega
  generalize (name ++ ' ' :: to_string y).take 20 = text at hplain hlen ⊢
  have hR : balanced 0 RESET := balanced_style RESET (by decide)
  have := balanced_append (balanced_append (balanced_append (balanced_append
    (balanced_spaces ((20 - text.length) / 2)) (balanced_style _ hc))
    (balanced_plain text hplain)) hR)
    (balanced_spaces (20 - text.length - (20 - text.length) / 2))
  have hw := balanced_width this
  rw [hw]
  omega

/-- The header of February 2024 with the default colours. -/
theorem header_is_centered_witness :
    (((1 : Int) ≤ 2 ∧ (2 : Int) ≤ 12) ∧ is_style (get_month_color {} 2) = true) ∧
    (∃ data name text, get_month_data {} [] 2024 2 2024 2 14 false = some data ∧
      array_get get_month_data.names (2 - 1) = some name ∧
      text = (name ++ ' ' :: to_string 2024).take 20 ∧
      data.header =
        List.replicate ((20 - text.length) / 2) ' ' ++
          get_month_color {} 2 ++ text ++ RESET ++
          List.replicate (20 - text.length - (20 - text.length) / 2) ' ' ∧
      display_width data.header = 20) ∧
    (get_month_data {} [] 2024 2 2024 2 14 false).map (fun data => data.header) =
      some "      \x1b[35mFeb 2024\x1b[0m      ".toList :=
  ⟨by decide, header_is_centered {} [] 2024 2 2024 2 14 false (by decide) (by decide),
    by decide⟩

/-- C18: for every non-empty list of `n` grids built by `get_month_data`
with colours that are styles, the output of `print_month_horizontal` is the
line of the headers, the line of the day titles and then exactly one body
line for each week index below the largest week count of the months, and
nothing else: it holds that count plus two line breaks; in each body line
every month contributes its week row, or 20 spaces when it has no such week,
the contributions are separated by single spaces, and the line takes
`21 * n - 1` display columns. -/
theorem horizontal_rows_aligned (colors : ColorConfig) (months : List MonthData) (b : Bool)
    (hc : colors_are_styles colors = true) (hne : months ≠ [])
    (hbuilt : ∀ month ∈ months, ∃ (events : EventMap) (y m ty tm td : Int) (b2 : Bool),
      (1 ≤ m ∧ m ≤ 12) ∧ get_month_data colors events y m ty tm td b2 = some month) :
    (∃ lines : List Str, lines.length = print_month_horizontal.max_weeks months ∧
      (∀ week : Nat, week < print_month_horizontal.max_weeks months →
        lines[week]? = some (([' '] : Str).intercalate (months.map (fun month =>
          if week < month.weeks.length then month.weeks.getD week []
          else List.replicate 20 ' ')))) ∧
      (∀ line ∈ lines, ∀ c ∈ line, c ≠ '\n') ∧
      print_month_horizontal colors months b =
        ([' '] : Str).intercalate (months.map (fun month => month.header)) ++ ['\n'] ++
        ([' '] : Str).intercalate (months.map (fun _ =>
          (if b = true then
            colors.workday_title ++ "Mo Tu We Th Fr ".toList ++ RESET
              ++ colors.saturday_title ++ "Sa".toList ++ RESET ++ " ".toList
              ++ colors.sunday_title ++ "Su".toList ++ RESET
          else
            colors.sunday_title ++ "Su".toList ++ RESET ++ " ".toList
              ++ colors.workday_title ++ "Mo Tu We Th Fr ".toList ++ RESET
              ++ colors.saturday_title ++ "Sa".toList ++ RESET))) ++ ['\n'] ++
        (lines.map (fun line => line ++ ['\n'])).flatten) ∧
    (print_month_horizontal colors months b).count '\n' =
      print_month_horizontal.max_weeks months + 2 ∧
    (∀ month ∈ months, month.weeks.length ≤ print_month_horizontal.max_weeks months) ∧
    (∃ month ∈ months, month.weeks.length = print_month_horizontal.max_weeks months) ∧
    (∀ week : Nat, week < print_month_horizontal.max_weeks months →
      ∃ line : Str, print_month_horizontal.week_line months week = line ++ ['\n'] ∧
        line = ([' '] : Str).intercalate (months.map (fun month =>
          if week < month.weeks.length then month.weeks.getD week []
          else List.replicate 20 ' ')) ∧
        display_width line = 21 * months.length - 1) := by
  obtain ⟨hmax1, hmax2⟩ := max_weeks_spec months hne
  have hall : ∀ week : Nat, ∀ s ∈ months.map (fun month =>
      if week < month.weeks.length then month.weeks.getD week []
      else List.replicate 20 ' '), balanced 20 s ∧ ∀ c ∈ s, c ≠ '\n' := by
    intro week s hs
    rw [List.mem_map] at hs
    obtain ⟨month, hmem, rfl⟩ := hs
    obtain ⟨events, y, m, ty, tm, td, b2, hm, hdata⟩ := hbuilt month hmem
    split
    · rename_i hlt
      have hrow : month.weeks.getD week [] ∈ month.weeks := by
        rw [List.getD_eq_getElem?_getD, List.getElem?_eq_getElem hlt]
        exact List.getElem_mem _
      exact ⟨month_rows_balanced colors events y m ty tm td b2 hm hc month hdata _ hrow,
        month_rows_no_newline colors events y m ty tm td b2 hm hc month hdata _ hrow⟩
    · refine ⟨balanced_spaces 20, ?_⟩
      intro c hcmem
      rw [List.eq_of_mem_replicate hcmem]
      decide
  have hlines : ∃ lines : List Str, lines.length = print_month_horizontal.max_weeks months ∧
      (∀ week : Nat, week < print_month_horizontal.max_weeks months →
        lines[week]? = some (([' '] : Str).intercalate (months.map (fun month =>
          if week < month.weeks.length then month.weeks.getD week []
          else List.replicate 20 ' ')))) ∧
      (∀ line ∈ lines, ∀ c ∈ line, c ≠ '\n') ∧
      ((List.range (print_month_horizontal.max_weeks months)).map
        (fun week => print_month_horizontal.week_line months week)).flatten =
        (lines.map (fun line => line ++ ['\n'])).flatten := by
    refine ⟨(List.range (print_month_horizontal.max_weeks months)).map (fun week =>
      ([' '] : Str).intercalate (months.map (fun month =>
        if week < month.weeks.length then month.weeks.getD week []
        else List.replicate 20 ' '))), by simp, ?_, ?_, ?_⟩
    · intro week hweek
      rw [List.getElem?_map, List.getElem?_range hweek]
      rfl
    · intro line hline
      rw [List.mem_map] at hline
      obtain ⟨week, _, rfl⟩ := hline
      exact intercalate_no_newline _ (fun s hs => (hall week s hs).2)
    · rw [List.map_map]
      congr 1
      apply List.map_congr_left
      intro week _
      exact week_line_eq months week
  obtain ⟨lines, hlen, hget, hnl, hbody⟩ := hlines
  have hout := print_month_horizontal_eq colors months b hne
  rw [hbody] at hout
  have hheaders : ∀ c ∈ ([' '] : Str).intercalate (months.map (fun month => month.header)),
      c ≠ '\n' := by
    apply intercalate_no_newline
    intro s hs
    rw [List.mem_map] at hs
    obtain ⟨month, hmem, rfl⟩ := hs
    obtain ⟨events, y, m, ty, tm, td, b2, hm, hdata⟩ := hbuilt month hmem
    exact month_header_no_newline colors events y m ty tm td b2 hm hc month hdata
  have htitles : ∀ c ∈ ([' '] : Str).intercalate (months.map (fun _ =>
      (if b = true then
            colors.workday_title ++ "Mo Tu We Th Fr ".toList ++ RESET
              ++ colors.saturday_title ++ "Sa".toList ++ RESET ++ " ".toList
              ++ colors.sunday_title ++ "Su".toList ++ RESET
          else
            colors.sunday_title ++ "Su".toList ++ RESET ++ " ".toList
              ++ colors.workday_title ++ "Mo Tu We Th Fr ".toList ++ RESET
              ++ colors.saturday_title ++ "Sa".toList ++ RESET))), c ≠ '\n' := by
    apply intercalate_no_newline
    intro s hs
    rw [List.mem_map] at hs
    obtain ⟨month, hmem, rfl⟩ := hs
    exact day_titles_no_newline colors hc b
  refine ⟨⟨lines, hlen, hget, hnl, hout⟩, ?_, hmax1, hmax2, ?_⟩
  · rw [hout]
    simp only [List.count_append]
    rw [List.count_eq_zero.mpr (fun hmem => hheaders _ hmem rfl),
      List.count_eq_zero.mpr (fun hmem => htitles _ hmem rfl),
      count_newline_lines lines hnl, hlen]
    simp
    omega
  · intro week _
    refine ⟨_, week_line_eq months week, rfl, ?_⟩
    have := balanced_intercalate 20 _ (fun s hs => (hall week s hs).1) (by simpa using hne)
    rw [List.length_map] at this
    exact balanced_width this

/-- February 2015 (4 weeks) beside August 2020 (6 weeks): the two title
lines and 6 body lines of 41 display columns. -/
theorem horizontal_rows_aligned_witness :
    ∃ months : List MonthData,
      months = [(get_month_data {} [] 2015 2 2024 1 1 false).getD ⟨[], [], 0, 0⟩,
        (get_month_data {} [] 2020 8 2024 1 1 false).getD ⟨[], [], 0, 0⟩] ∧
      (colors_are_styles {} = true ∧ months ≠ [] ∧
        ∀ month ∈ months, ∃ (events : EventMap) (y m ty tm td : Int) (b2 : Bool),
          (1 ≤ m ∧ m ≤ 12) ∧ get_month_data {} events y m ty tm td b2 = some month) ∧
      ((∃ lines : List Str, lines.length = print_month_horizontal.max_weeks months ∧
      (∀ week : Nat, week < print_month_horizontal.max_weeks months →
        lines[week]? = some (([' '] : Str).intercalate (months.map (fun month =>
          if week < month.weeks.length then month.weeks.getD week []
          else List.replicate 20 ' ')))) ∧
      (∀ line ∈ lines, ∀ c ∈ line, c ≠ '\n') ∧
      print_month_horizontal ({} : ColorConfig) months false =
        ([' '] : Str).intercalate (months.map (fun month => month.header)) ++ ['\n'] ++
        ([' '] : Str).intercalate (months.map (fun _ =>
          (if false = true then
            ({} : ColorConfig).workday_title ++ "Mo Tu We Th Fr ".toList ++ RESET
              ++ ({} : ColorConfig).saturday_title ++ "Sa".toList ++ RESET ++ " ".toList
              ++ ({} : ColorConfig).sunday_title ++ "Su".toList ++ RESET
          else
            ({} : ColorConfig).sunday_title ++ "Su".toList ++ RESET ++ " ".toList
              ++ ({} : ColorConfig).workday_title ++ "Mo Tu We Th Fr ".toList ++ RESET
              ++ ({} : ColorConfig).saturday_title ++ "Sa".toList ++ RESET))) ++ ['\n'] ++
        (lines.map (fun line => line ++ ['\n'])).flatten) ∧
    (print_month_horizontal ({} : ColorConfig) months false).count '\n' =
      print_month_horizontal.max_weeks months + 2 ∧
    (∀ month ∈ months, month.weeks.length ≤ print_month_horizontal.max_weeks months) ∧
    (∃ month ∈ months, month.weeks.length = print_month_horizontal.max_weeks months) ∧
    (∀ week : Nat, week < print_month_horizontal.max_weeks months →
      ∃ line : Str, print_month_horizontal.week_line months week = line ++ ['\n'] ∧
        line = ([' '] : Str).intercalate (months.map (fun month =>
          if week < month.weeks.length then month.weeks.getD week []
          else List.replicate 20 ' ')) ∧
        display_width line = 21 * months.length - 1)) ∧
      print_month_horizontal.max_weeks months = 6 ∧
      (print_month_horizontal.week_line months 5 =
        "                     \x1b[31m30\x1b[0m 31\x1b[0m               \n".toList) :=
  have hb : ∀ month ∈ [(get_month_data {} [] 2015 2 2024 1 1 false).getD ⟨[], [], 0, 0⟩,
      (get_month_data {} [] 2020 8 2024 1 1 false).getD ⟨[], [], 0, 0⟩],
      ∃ (events : EventMap) (y m ty tm td : Int) (b2 : Bool),
        (1 ≤ m ∧ m ≤ 12) ∧ get_month_data {} events y m ty tm td b2 = some month := by
    intro month hmem
    rcases List.mem_cons.mp hmem with e | e
    · exact ⟨[], 2015, 2, 2024, 1, 1, false, by decide, by rw [e]; decide⟩
    · rw [List.mem_singleton] at e
      exact ⟨[], 2020, 8, 2024, 1, 1, false, by decide, by rw [e]; decide⟩
  ⟨_, rfl, ⟨by decide, by simp, hb⟩,
    horizontal_rows_aligned {} _ false (by decide) (by simp) hb, by decide, by decide⟩

/-- C19: for every year >= 1, month in 1..12 and policy, `print_month_vertical`
writes, after its two header lines, `3 * start` spaces and then the days
1 .. days_in_month in increasing order, each as a style, the number in two
columns, the reset and a space, with a line break after a day exactly when
its weekday index under the policy is 6, which is a Saturday with Sunday
first and a Sunday with Monday first; a line break falls on one of any 7
consecutive days, and after a line break the next one comes exactly 7 days
later. -/
theorem vertical_listing_lines (colors : ColorConfig) (events : EventMap)
    (y m ty tm td : Int) (b : Bool) (hy : 1 ≤ y) (hm : 1 ≤ m ∧ m ≤ 12) :
    ∃ (head : Str) (dim : Int), days_in_month y m = some dim ∧
      head.getLast? = some '\n' ∧
      print_month_vertical colors events y m ty tm td b =
        some (head ++ List.replicate (3 * (weekday y m 1 b).toNat) ' ' ++
          ((List.range dim.toNat).map (fun (i : Nat) =>
            print_month_vertical.day colors events y m ty tm td b ((i : Int) + 1))).flatten
          ++ ['\n']) ∧
      (0 ≤ weekday y m 1 b ∧ weekday y m 1 b ≤ 6) ∧
      (∀ d : Int, 1 ≤ d → d ≤ dim →
        ∃ style : Str, print_month_vertical.day colors events y m ty tm td b d =
          style ++ (if d < 10 then ' ' :: to_string d else to_string d) ++ RESET ++ [' '] ++
            (if weekday y m d b = 6 then ['\n'] else [])) ∧
      (∀ d : Int, 1 ≤ d → d + 6 ≤ dim →
        ∃ k : Int, d ≤ k ∧ k ≤ d + 6 ∧ weekday y m k b = 6) ∧
      (∀ d : Int, 1 ≤ d → d + 7 ≤ dim → weekday y m d b = 6 →
        weekday y m (d + 7) b = 6 ∧ ∀ k : Int, d < k → k < d + 7 → weekday y m k b ≠ 6) ∧
      (∀ d : Int, 1 ≤ d → d ≤ dim →
        (weekday y m d b = 6 ↔
          refDayOfWeek y.toNat m.toNat d.toNat = (if b = true then 0 else 6))) := by
  obtain ⟨head, dim, hdim, hlo, hhi, hhead, hout⟩ :=
    print_month_vertical_eq colors events y m ty tm td b hm
  have hs := weekday_range y m 1 b hy hm.1 (by omega)
  have hshift : ∀ d : Int, 1 ≤ d → weekday y m d b = (weekday y m 1 b + d - 1) % 7 :=
    fun d hd => weekday_shift y m d b hy hm.1 hd
  refine ⟨head, dim, hdim, hhead, hout, hs, ?_, ?_, ?_, ?_⟩
  · intro d _ _
    exact ⟨_, vertical_day_eq colors events y m ty tm td b d⟩
  · intro d hd1 hd2
    refine ⟨d + (6 - (weekday y m 1 b + d - 1) % 7), by omega, by omega, ?_⟩
    rw [hshift _ (by omega)]
    omega
  · intro d hd1 hd2 h6
    rw [hshift d hd1] at h6
    constructor
    · rw [hshift _ (by omega)]
      omega
    · intro k hk1 hk2
      rw [hshift k (by omega)]
      omega
  · intro d hd1 hd2
    have href := weekday_sunday_eq_ref y.toNat m.toNat d.toNat (by omega) (by omega) (by omega)
    have ey : ((y.toNat : Nat) : Int) = y := Int.toNat_of_nonneg (by omega)
    have em : ((m.toNat : Nat) : Int) = m := Int.toNat_of_nonneg (by omega)
    have ed : ((d.toNat : Nat) : Int) = d := Int.toNat_of_nonneg (by omega)
    rw [ey, em, ed] at href
    have hr : refDayOfWeek y.toNat m.toNat d.toNat < 7 := by
      unfold refDayOfWeek
      omega
    cases b
    · rw [href]
      simp only [Bool.false_eq_true, if_false]
      omega
    · rw [weekday_monday_first y m d hy hm.1 (by omega), href]
      simp only [if_true]
      omega

/-- The listing of February 2024, Monday first. -/
theorem vertical_listing_lines_witness :
    ((1 : Int) ≤ 2024 ∧ ((1 : Int) ≤ 2 ∧ (2 : Int) ≤ 12)) ∧
    ∃ (head : Str) (dim : Int), days_in_month 2024 2 = some dim ∧
      head.getLast? = some '\n' ∧
      print_month_vertical {} [] 2024 2 2024 2 14 true =
        some (head ++ List.replicate (3 * (weekday 2024 2 1 true).toNat) ' ' ++
          ((List.range dim.toNat).map (fun (i : Nat) =>
            print_month_vertical.day {} [] 2024 2 2024 2 14 true ((i : Int) + 1))).flatten
          ++ ['\n']) ∧
      (0 ≤ weekday 2024 2 1 true ∧ weekday 2024 2 1 true ≤ 6) ∧
      (∀ d : Int, 1 ≤ d → d ≤ dim →
        ∃ style : Str, print_month_vertical.day {} [] 2024 2 2024 2 14 true d =
          style ++ (if d < 10 then ' ' :: to_string d else to_string d) ++ RESET ++ [' '] ++
            (if weekday 2024 2 d true = 6 then ['\n'] else [])) ∧
      (∀ d : Int, 1 ≤ d → d + 6 ≤ dim →
        ∃ k : Int, d ≤ k ∧ k ≤ d + 6 ∧ weekday 2024 2 k true = 6) ∧
      (∀ d : Int, 1 ≤ d → d + 7 ≤ dim → weekday 2024 2 d true = 6 →
        weekday 2024 2 (d + 7) true = 6 ∧
          ∀ k : Int, d < k → k < d + 7 → weekday 2024 2 k true ≠ 6) ∧
      (∀ d : Int, 1 ≤ d → d ≤ dim →
        (weekday 2024 2 d true = 6 ↔
          refDayOfWeek (2024 : Int).toNat (2 : Int).toNat d.toNat =
            (if true = true then 0 else 6))) :=
  ⟨by decide, vertical_listing_lines {} [] 2024 2 2024 2 14 true (by decide) (by decide)⟩

/-- C20: for every year >= 1 and valid month and day, `weekday` with Monday
first is `weekday` with Sunday first plus 6 modulo 7, so Monday is 0,
Saturday 5 and Sunday 6; under both policies the result is in 0..6. -/
theorem weekday_monday_rotation (y m d : Nat) (hy : 1 ≤ y) (hm : 1 ≤ m ∧ m ≤ 12)
    (hd : 1 ≤ d) (hdim : ∃ dim, days_in_month y m = some dim ∧ (d : Int) ≤ dim) :
    weekday y m d true = (weekday y m d false + 6) % 7 ∧
    (0 ≤ weekday y m d false ∧ weekday y m d false ≤ 6) ∧
    (0 ≤ weekday y m d true ∧ weekday y m d true ≤ 6) ∧
    (refDayOfWeek y m d = 1 → weekday y m d true = 0) ∧
    (refDayOfWeek y m d = 6 → weekday y m d true = 5) ∧
    (refDayOfWeek y m d = 0 → weekday y m d true = 6) := by
  have hyI : (1 : Int) ≤ y := by omega
  have hmI : (1 : Int) ≤ m := by omega
  have hmon := weekday_monday_first y m d hyI hmI (by omega)
  have href := weekday_sunday_eq_ref y m d hy hm.1 hm.2
  have r1 := weekday_range y m d false hyI hmI (by omega)
  have r2 := weekday_range y m d true hyI hmI (by omega)
  refine ⟨hmon, r1, r2, ?_, ?_, ?_⟩ <;> intro h <;> rw [hmon, href, h] <;> rfl

/-- Monday 1 January of year 1: index 1 with Sunday first, 0 with Monday
first. -/
theorem weekday_monday_rotation_witness :
    (1 ≤ 1 ∧ (1 ≤ 1 ∧ 1 ≤ 12) ∧ 1 ≤ 1 ∧
      ∃ dim, days_in_month ((1 : Nat) : Int) ((1 : Nat) : Int) = some dim ∧
        (((1 : Nat) : Int) ≤ dim)) ∧
    (weekday ((1 : Nat) : Int) ((1 : Nat) : Int) ((1 : Nat) : Int) true =
        (weekday ((1 : Nat) : Int) ((1 : Nat) : Int) ((1 : Nat) : Int) false + 6) % 7 ∧
      (0 ≤ weekday ((1 : Nat) : Int) ((1 : Nat) : Int) ((1 : Nat) : Int) false ∧
        weekday ((1 : Nat) : Int) ((1 : Nat) : Int) ((1 : Nat) : Int) false ≤ 6) ∧
      (0 ≤ weekday ((1 : Nat) : Int) ((1 : Nat) : Int) ((1 : Nat) : Int) true ∧
        weekday ((1 : Nat) : Int) ((1 : Nat) : Int) ((1 : Nat) : Int) true ≤ 6) ∧
      (refDayOfWeek 1 1 1 = 1 →
        weekday ((1 : Nat) : Int) ((1 : Nat) : Int) ((1 : Nat) : Int) true = 0) ∧
      (refDayOfWeek 1 1 1 = 6 →
        weekday ((1 : Nat) : Int) ((1 : Nat) : Int) ((1 : Nat) : Int) true = 5) ∧
      (refDayOfWeek 1 1 1 = 0 →
        weekday ((1 : Nat) : Int) ((1 : Nat) : Int) ((1 : Nat) : Int) true = 6)) :=
  ⟨⟨by decide, by decide, by decide, 31, by decide, by decide⟩,
    weekday_monday_rotation 1 1 1 (by decide) (by decide) (by decide)
      ⟨31, by decide, by decide⟩⟩

/-- C21: a line that is blank (empty, or made of spaces, tabs and other
white space only) or whose first character after white space is `#` or `;`
leaves the whole state of `load_events` unchanged: the event index, the
colour assignment and the current section, in whichever section it is
read. -/
theorem comment_and_blank_lines_ignored (st : LoadState) (line : Str)
    (h : (∀ x ∈ line, isspace x = true) ∨
      ∃ (ws rest : Str) (c : Char), line = ws ++ c :: rest ∧
        (∀ x ∈ ws, isspace x = true) ∧ (c = '#' ∨ c = ';')) :
    load_events.step st line = st ∧
    (load_events.step st line).events = st.events ∧
    (load_events.step st line).colors = st.colors ∧
    (load_events.step st line).current_section = st.current_section := by
  have key : load_events.step st line = st := by
    rcases h with h | ⟨ws, rest, c, rfl, hws, hc⟩
    · exact step_blank st line h
    · exact step_comment st ws rest c hws hc
  rw [key]
  exact ⟨rfl, rfl, rfl, rfl⟩

/-- An indented comment `  # sunday_date = blue` in the `[colors]` section. -/
theorem comment_and_blank_lines_ignored_witness :
    ((∀ x ∈ "  # sunday_date = blue".toList, isspace x = true) ∨
      ∃ (ws rest : Str) (c : Char), "  # sunday_date = blue".toList = ws ++ c :: rest ∧
        (∀ x ∈ ws, isspace x = true) ∧ (c = '#' ∨ c = ';')) ∧
    (load_events.step
        { colors := {}, events := [], current_section := "colors".toList, events_loaded := 0 }
        "  # sunday_date = blue".toList =
      { colors := {}, events := [], current_section := "colors".toList, events_loaded := 0 } ∧
    (load_events.step
        { colors := {}, events := [], current_section := "colors".toList, events_loaded := 0 }
        "  # sunday_date = blue".toList).events = [] ∧
    (load_events.step
        { colors := {}, events := [], current_section := "colors".toList, events_loaded := 0 }
        "  # sunday_date = blue".toList).colors = {} ∧
    (load_events.step
        { colors := {}, events := [], current_section := "colors".toList, events_loaded := 0 }
        "  # sunday_date = blue".toList).current_section = "colors".toList) :=
  ⟨Or.inr ⟨"  ".toList, " sunday_date = blue".toList, '#', by decide, by decide, by decide⟩,
    comment_and_blank_lines_ignored
      { colors := {}, events := [], current_section := "colors".toList, events_loaded := 0 }
      "  # sunday_date = blue".toList
      (Or.inr ⟨"  ".toList, " sunday_date = blue".toList, '#', by decide, by decide,
        by decide⟩)⟩

/-- C22: `get_color_code` is total: a text whose lower-cased form is a name
of the colour table gets the style of that name, whatever its letter case,
and every other text gets the empty style; the result is always a style. -/
theorem get_color_code_never_fails (color_name : Str) :
    (∀ entry ∈ color_table, to_lower color_name = entry.1 →
      get_color_code color_name = entry.2) ∧
    (to_lower color_name ∉ color_table.map Prod.fst → get_color_code color_name = []) ∧
    get_color_code (to_lower color_name) = get_color_code color_name ∧
    is_style (get_color_code color_name) = true ∧
    (get_color_code "Bright_RED".toList = BRIGHT_RED ∧
      get_color_code "bright_red".toList = BRIGHT_RED ∧
      get_color_code "GREY".toList = "\x1b[38;5;244m".toList ∧
      get_color_code "no such colour".toList = []) := by
  refine ⟨?_, ?_, ?_, get_color_code_is_style color_name, by decide⟩
  · intro entry hmem hname
    rw [get_color_code_eq_lookup, hname]
    exact color_lookup_mem entry hmem
  · intro h
    rw [get_color_code_eq_lookup]
    exact color_lookup_not_mem _ _ h
  · rw [get_color_code_eq_lookup, get_color_code_eq_lookup, to_lower_to_lower]

/-- C23 (the code at the failing input): with the arguments `13 2024` the
argument loop sets the month to 13 without a range check, the tables of
`print_month_vertical` and `days_in_month` are read outside their bounds and
no calendar is defined; the same with `0 2024`; the single-argument form
does check, `13` alone leaves the month of the current date. -/
theorem main_month_not_checked :
    ((main.parse_args ⟨2026, 10, false, false, false, false, false⟩
        ["13".toList, "2024".toList]).m = 13 ∧
      array_get print_month_vertical.names (13 - 1) = none ∧
      days_in_month 2024 13 = none ∧
      main 2026 10 30 [] ["13".toList, "2024".toList] = none ∧
      main 2026 10 30 [] ["-3".toList, "13".toList, "2024".toList] = none) ∧
    ((main.parse_args ⟨2026, 10, false, false, false, false, false⟩
        ["0".toList, "2024".toList]).m = 0 ∧
      array_get print_month_vertical.names (0 - 1) = none ∧
      main 2026 10 30 [] ["0".toList, "2024".toList] = none) ∧
    (main.parse_args ⟨2026, 10, false, false, false, false, false⟩ ["13".toList]).m = 10 := by
  decide

/-- C24 (counterexample): with `5 abc` the month shown is 5, not the month
of the current date, and with `abc 2024` the year shown is 2024, not the
year of the current date. -/
theorem unparsable_argument_counterexample :
    (stoi "abc".toList = none ∧
      (main.parse_args ⟨2026, 10, false, false, false, false, false⟩
        ["5".toList, "abc".toList]).m = 5 ∧
      (main.parse_args ⟨2026, 10, false, false, false, false, false⟩
        ["5".toList, "abc".toList]).m ≠ 10) ∧
    ((main.parse_args ⟨2026, 10, false, false, false, false, false⟩
        ["abc".toList, "2024".toList]).y = 2024 ∧
      (main.parse_args ⟨2026, 10, false, false, false, false, false⟩
        ["abc".toList, "2024".toList]).y ≠ 2026) := by
  decide

/-- C24 (amended): for every argument list in which no positional argument
(an argument that does not start with `-`) converts to an integer, these
arguments are ignored and the year and the month used for rendering are
those of the current date. -/
theorem unparsable_arguments_ignored (now_y now_m now_d : Int) (config_lines : List Str)
    (argv : List Str) (h : ∀ a ∈ argv, a.head? ≠ some '-' → stoi a = none) :
    (main.parse_args
        { y := now_y, m := now_m, show3 := false, show_year := false, show_twelve := false,
          show_help := false, monday_first := false } argv).y = now_y ∧
    (main.parse_args
        { y := now_y, m := now_m, show3 := false, show_year := false, show_twelve := false,
          show_help := false, monday_first := false } argv).m = now_m ∧
    ((main.parse_args
        { y := now_y, m := now_m, show3 := false, show_year := false, show_twelve := false,
          show_help := false, monday_first := false } argv).show_help = false →
      main now_y now_m now_d config_lines argv =
        main.render (load_events config_lines).colors (load_events config_lines).events
          now_y now_m now_d
          (main.parse_args
            { y := now_y, m := now_m, show3 := false, show_year := false,
              show_twelve := false, show_help := false, monday_first := false } argv).show3
          (main.parse_args
            { y := now_y, m := now_m, show3 := false, show_year := false,
              show_twelve := false, show_help := false, monday_first := false } argv).show_year
          (main.parse_args
            { y := now_y, m := now_m, show3 := false, show_year := false,
              show_twelve := false, show_help := false,
              monday_first := false } argv).show_twelve
          (main.parse_args
            { y := now_y, m := now_m, show3 := false, show_year := false,
              show_twelve := false, show_help := false,
              monday_first := false } argv).monday_first) := by
  obtain ⟨hy, hm⟩ := parse_args_keeps_date argv
    { y := now_y, m := now_m, show3 := false, show_year := false, show_twelve := false,
      show_help := false, monday_first := false } h
  refine ⟨hy, hm, ?_⟩
  intro hhelp
  unfold main
  simp only [hhelp, Bool.false_eq_true, if_false]
  rw [hy, hm]

/-- The arguments `-m abc def`: Monday first, the current month and year. -/
theorem unparsable_arguments_ignored_witness :
    (∀ a ∈ ["-m".toList, "abc".toList, "def".toList],
      a.head? ≠ some '-' → stoi a = none) ∧
    (main.parse_args
        { y := 2026, m := 10, show3 := false, show_year := false, show_twelve := false,
          show_help := false, monday_first := false }
        ["-m".toList, "abc".toList, "def".toList]).y = 2026 ∧
    (main.parse_args
        { y := 2026, m := 10, show3 := false, show_year := false, show_twelve := false,
          show_help := false, monday_first := false }
        ["-m".toList, "abc".toList, "def".toList]).m = 10 :=
  ⟨by decide,
    (unparsable_arguments_ignored 2026 10 30 [] ["-m".toList, "abc".toList, "def".toList]
      (by decide)).1,
    (unparsable_arguments_ignored 2026 10 30 [] ["-m".toList, "abc".toList, "def".toList]
      (by decide)).2.1⟩

/-- C27: for every year >= 1, month in 1..12 and either policy,
`get_month_data` gives between 4 and 6 week rows, every row has a cell that
holds a day of the month (so no row is blank), the first row has the cell of
day 1 and the last row has the cell of the last day of the month. -/
theorem week_rows_between_4_and_6 (colors : ColorConfig) (events : EventMap)
    (y m ty tm td : Int) (b : Bool) (hy : 1 ≤ y) (hm : 1 ≤ m ∧ m ≤ 12) :
    ∃ data dim, get_month_data colors events y m ty tm td b = some data ∧
      days_in_month y m = some dim ∧
      (4 ≤ data.weeks.length ∧ data.weeks.length ≤ 6) ∧
      (∀ w : Nat, w < data.weeks.length →
        data.weeks[w]? = some ((List.range 7).map (fun c : Nat =>
          get_month_data.cell colors events y m ty tm td b (weekday y m 1 b) dim w c)).flatten) ∧
      (∀ w : Nat, w < data.weeks.length →
        ∃ (c : Nat) (d : Int) (style : Str), c < 7 ∧ 1 ≤ d ∧ d ≤ dim ∧
          7 * (w : Int) + c - weekday y m 1 b + 1 = d ∧
          get_month_data.cell colors events y m ty tm td b (weekday y m 1 b) dim w c =
            style ++ (if d < 10 then ' ' :: to_string d else to_string d) ++ RESET ++
              (if (c : Int) < 6 then [' '] else [])) ∧
      (∃ (c : Nat) (style : Str), c < 7 ∧ 7 * ((0 : Nat) : Int) + c - weekday y m 1 b + 1 = 1 ∧
        get_month_data.cell colors events y m ty tm td b (weekday y m 1 b) dim (0 : Nat) c =
          style ++ ' ' :: to_string 1 ++ RESET ++ (if (c : Int) < 6 then [' '] else [])) ∧
      (∃ (c : Nat) (style : Str), c < 7 ∧
        7 * ((data.weeks.length - 1 : Nat) : Int) + c - weekday y m 1 b + 1 = dim ∧
        get_month_data.cell colors events y m ty tm td b (weekday y m 1 b) dim
            (data.weeks.length - 1 : Nat) c =
          style ++ to_string dim ++ RESET ++ (if (c : Int) < 6 then [' '] else [])) := by
  obtain ⟨data, dim, hdata, hdim, hlo, hhi, hweeks⟩ :=
    get_month_data_some colors events y m ty tm td b hm
  have hs := weekday_range y m 1 b hy hm.1 (by omega)
  have hT := total_weeks_eq (weekday y m 1 b) dim hs.1 (by omega)
  have hlen : (data.weeks.length : Int) = (weekday y m 1 b + dim - 1) / 7 + 1 := by
    rw [hweeks, List.length_map, List.length_range, hT]
  generalize weekday y m 1 b = start at *
  have hcell : ∀ (w c : Nat) (d : Int), 7 * (w : Int) + c - start + 1 = d → 1 ≤ d → d ≤ dim →
      ∃ style : Str, get_month_data.cell colors events y m ty tm td b start dim w c =
        style ++ (if d < 10 then ' ' :: to_string d else to_string d) ++ RESET ++
          (if (c : Int) < 6 then [' '] else []) := by
    intro w c d hd hd1 hd2
    have hd3 : (w : Int) * 7 + (c : Int) - start + 1 = d := by omega
    rw [cell_in_month colors events y m ty tm td b start dim w c (by omega) (by omega), hd3]
    exact ⟨_, rfl⟩
  have hlen4 : 4 ≤ data.weeks.length := by omega
  have hlen6 : data.weeks.length ≤ 6 := by omega
  refine ⟨data, dim, hdata, hdim, ⟨hlen4, hlen6⟩, ?_, ?_, ?_, ?_⟩
  · intro w hw
    have hw2 : w < (cdiv (start + dim - 1) 7 + 1).toNat := by
      rw [hweeks, List.length_map, List.length_range] at hw
      exact hw
    rw [hweeks, List.getElem?_map, List.getElem?_range hw2]
    simp only [Option.map_some']
    rw [week_str_eq_flatten]
  · intro w hw
    by_cases h0 : w = 0
    · have hc1 : 7 * (w : Int) + (start.toNat : Nat) - start + 1 = 1 := by omega
      obtain ⟨style, e⟩ := hcell w start.toNat 1 hc1 (by omega) (by omega)
      exact ⟨start.toNat, 1, style, by omega, by omega, by omega, hc1, e⟩
    · have hc1 : 1 ≤ 7 * (w : Int) + (0 : Nat) - start + 1 := by omega
      have hc2 : 7 * (w : Int) + (0 : Nat) - start + 1 ≤ dim := by omega
      obtain ⟨style, e⟩ := hcell w 0 _ rfl hc1 hc2
      exact ⟨0, _, style, by omega, hc1, hc2, rfl, e⟩
  · have hc1 : 7 * ((0 : Nat) : Int) + (start.toNat : Nat) - start + 1 = 1 := by omega
    obtain ⟨style, e⟩ := hcell 0 start.toNat 1 hc1 (by omega) (by omega)
    refine ⟨start.toNat, style, by omega, hc1, ?_⟩
    rw [e, if_pos (by decide)]
  · have hc1 : 7 * ((data.weeks.length - 1 : Nat) : Int) +
        (((start + dim - 1) % 7).toNat : Nat) - start + 1 = dim := by omega
    obtain ⟨style, e⟩ := hcell (data.weeks.length - 1) ((start + dim - 1) % 7).toNat dim hc1
      (by omega) (by omega)
    refine ⟨((start + dim - 1) % 7).toNat, style, by omega, hc1, ?_⟩
    rw [e, if_neg (by omega)]

/-- August 2020, Sunday first: it starts in the last column and has six rows. -/
theorem week_rows_between_4_and_6_witness :
    ((1 : Int) ≤ 2020 ∧ ((1 : Int) ≤ 8 ∧ (8 : Int) ≤ 12)) ∧
    ∃ data dim, get_month_data {} [] 2020 8 2024 1 1 false = some data ∧
      days_in_month 2020 8 = some dim ∧
      (4 ≤ data.weeks.length ∧ data.weeks.length ≤ 6) ∧
      (∀ w : Nat, w < data.weeks.length →
        data.weeks[w]? = some ((List.range 7).map (fun c : Nat =>
          get_month_data.cell {} [] 2020 8 2024 1 1 false (weekday 2020 8 1 false) dim w c)).flatten) ∧
      (∀ w : Nat, w < data.weeks.length →
        ∃ (c : Nat) (d : Int) (style : Str), c < 7 ∧ 1 ≤ d ∧ d ≤ dim ∧
          7 * (w : Int) + c - weekday 2020 8 1 false + 1 = d ∧
          get_month_data.cell {} [] 2020 8 2024 1 1 false (weekday 2020 8 1 false) dim w c =
            style ++ (if d < 10 then ' ' :: to_string d else to_string d) ++ RESET ++
              (if (c : Int) < 6 then [' '] else [])) ∧
      (∃ (c : Nat) (style : Str), c < 7 ∧ 7 * ((0 : Nat) : Int) + c - weekday 2020 8 1 false + 1 = 1 ∧
        get_month_data.cell {} [] 2020 8 2024 1 1 false (weekday 2020 8 1 false) dim (0 : Nat) c =
          style ++ ' ' :: to_string 1 ++ RESET ++ (if (c : Int) < 6 then [' '] else [])) ∧
      (∃ (c : Nat) (style : Str), c < 7 ∧
        7 * ((data.weeks.length - 1 : Nat) : Int) + c - weekday 2020 8 1 false + 1 = dim ∧
        get_month_data.cell {} [] 2020 8 2024 1 1 false (weekday 2020 8 1 false) dim
            (data.weeks.length - 1 : Nat) c =
          style ++ to_string dim ++ RESET ++ (if (c : Int) < 6 then [' '] else [])) :=
  ⟨by decide, week_rows_between_4_and_6 {} [] 2020 8 2024 1 1 false (by decide) (by decide)⟩

end Cal2
